import Mathlib

/-!
# Token authentication of the youtube-clone backend

A shallow embedding of `backend/utils/middleware` (`jwt.go`, `middleware.go`,
`rest_auth.go`): the token issuer `CreateToken`, the token decoder
`ParseToken`, and the two request gates `Middleware.AuthMiddleware` and
`RestAuthMiddleware.AuthMiddleware`.

The third-party packages the code calls are modelled at their API boundary:

* `github.com/dgrijalva/jwt-go` (v3): `Parse`, `ParseUnverified`,
  `MapClaims.Valid`, `NewWithClaims`, `SignedString` are transcribed; the wire
  primitives underneath them (base64url + JSON of a segment, HMAC) are the
  fields of `JwtLib`.
* `github.com/gin-gonic/gin`: the per-request `Context` with its handler index,
  `Next`, `Set`, `Header`.
* `github.com/google/uuid`: `Parse` is a field of `JwtLib`, `String` is
  transcribed.

Conventions: a Go `string` is a Lean `String`; `time.Time` is an integer count
of nanoseconds since the Unix epoch and `time.Duration` an `int64` count of
nanoseconds; numeric JSON claims are integers (the `float64` that
`encoding/json` decodes them into is exact below `2^53`); a Go panic is the
`Outcome.panic` result.
-/

namespace YoutubeClone

/-! ## Go strings -/

/-- Go `strings.HasPrefix`. -/
def HasPrefix (s p : String) : Bool := p.data.isPrefixOf s.data

/-- Go `strings.TrimPrefix`: `s` without the leading `p`, or `s` itself when it
does not start with `p`. -/
def TrimPrefix (s p : String) : String :=
  if HasPrefix s p then ⟨s.data.drop p.data.length⟩ else s

/-- Go `strings.Split` for a one-character separator, on the characters. -/
def splitChars (sep : Char) : List Char → List (List Char)
  | [] => [[]]
  | c :: cs =>
    if c = sep then [] :: splitChars sep cs
    else
      match splitChars sep cs with
      | [] => [[c]]
      | p :: ps => (c :: p) :: ps

/-- Go `strings.Split(s, ".")`. -/
def Split (s : String) (sep : Char) : List String :=
  (splitChars sep s.data).map String.mk

/-- ASCII lower-casing of one character, the folding `strings.EqualFold`
applies to the characters that occur in the text of an identifier. -/
def foldChar (c : Char) : Char :=
  if 'A' ≤ c ∧ c ≤ 'Z' then Char.ofNat (c.toNat + 32) else c

/-- Go `strings.ToLower` (on ASCII letters). -/
def ToLower (s : String) : String := String.mk (s.data.map foldChar)

/-- Go `strings.EqualFold` (on ASCII letters). -/
def EqualFold (s t : String) : Bool := s.data.map foldChar == t.data.map foldChar

/-! ## Results of Go calls -/

/-- A Go call either returns or panics. -/
inductive Outcome (α : Type) where
  | ret (a : α)
  | panic (msg : String)
  deriving DecidableEq, Repr

/-- The `jwt.ValidationError` bit flags. -/
def ValidationErrorMalformed : Nat := 1
def ValidationErrorUnverifiable : Nat := 2
def ValidationErrorSignatureInvalid : Nat := 4
def ValidationErrorExpired : Nat := 16
def ValidationErrorIssuedAt : Nat := 32
def ValidationErrorNotValidYet : Nat := 128

/-- The error values that flow through the token code. -/
inductive GoError where
  /-- `ErrInvalidToken` of jwt.go -/
  | ErrInvalidToken
  /-- `ErrUnexpectedSigningMethod` of jwt.go -/
  | ErrUnexpectedSigningMethod
  /-- A `*jwt.ValidationError` with its `Inner` text and its `Errors` bit field -/
  | ValidationError (Inner : String) (Errors : Nat)
  /-- Any other error, by its text -/
  | other (text : String)
  deriving DecidableEq, Repr

/-! ## JSON values and claims -/

/-- A JSON value as `encoding/json` decodes it into `interface{}`. `num n` is
the `float64` whose value is the whole number `n`: the number of the JSON text
when a `float64` holds it exactly, as it does every whole number up to 2^53,
and the nearest `float64` otherwise. -/
inductive JVal where
  | str (s : String)
  | num (n : Int)
  | bool (b : Bool)
  | null
  | composite
  deriving DecidableEq, Repr

/-- The `jwt.MapClaims` type, `map[string]interface{}`, as an association list. -/
abbrev MapClaims := List (String × JVal)

/-- The map index expression `m[k]` with its presence flag. -/
def MapClaims.get (m : MapClaims) (k : String) : Option JVal := m.lookup k

/-! ## Time -/

/-- A `time.Time`: nanoseconds since the Unix epoch. -/
abbrev Time := Int

/-- A `time.Duration`: an `int64` count of nanoseconds. -/
abbrev Duration := Int

/-- Go `Time.Unix`: whole seconds since the epoch, rounded down, an `int64`.
An instant whose count of seconds an `int64` cannot hold is no reading of a Go
clock; it reads as the nearest count an `int64` holds. -/
def Time.Unix (t : Time) : Int :=
  max (-9223372036854775808) (min 9223372036854775807 (t / 1000000000))

/-- Go `Time.Add`. -/
def Time.Add (t : Time) (d : Duration) : Time := t + d

/-- The value an `int64` holds after an arithmetic result `x` wraps around. -/
def wrapInt64 (x : Int) : Int := (x + 9223372036854775808) % 18446744073709551616 - 9223372036854775808

/-- Go `time.Minute`. -/
def Minute : Duration := 60000000000

/-- Go `time.Hour`. -/
def Hour : Duration := 3600000000000

/-! ## google/uuid -/

/-- A `uuid.UUID`: its sixteen bytes. -/
abbrev UUID := List Nat

/-- One hexadecimal digit, lower case. -/
def hexDigit (n : Nat) : Char := Nat.digitChar (n % 16)

/-- The two hexadecimal digits of a byte. -/
def hexByte (b : Nat) : List Char := [hexDigit (b / 16), hexDigit b]

/-- Go `UUID.String`: `xxxxxxxx-xxxx-xxxx-xxxx-xxxxxxxxxxxx`. -/
def UUID.String (u : UUID) : String :=
  let h (i : Nat) : List Char := hexByte (u.getD i 0)
  String.mk (h 0 ++ h 1 ++ h 2 ++ h 3 ++ ['-'] ++ h 4 ++ h 5 ++ ['-'] ++ h 6 ++ h 7 ++ ['-']
    ++ h 8 ++ h 9 ++ ['-'] ++ h 10 ++ h 11 ++ h 12 ++ h 13 ++ h 14 ++ h 15)

/-- The UTF-8 bytes of a character. -/
def utf8Bytes (c : Char) : List Nat :=
  let n := c.toNat
  if n < 128 then [n]
  else if n < 2048 then [192 + n / 64, 128 + n % 64]
  else if n < 65536 then [224 + n / 4096, 128 + n / 64 % 64, 128 + n % 64]
  else [240 + n / 262144, 128 + n / 4096 % 64, 128 + n / 64 % 64, 128 + n % 64]

/-- The bytes of a Go string whose text is UTF-8: what `len(s)` counts and
`s[i]` reads. -/
def bytesOf (s : String) : List Nat := (s.data.map utf8Bytes).flatten

/-- The value of a hexadecimal digit, either case (the `xvalues` table, which
is indexed by the byte). -/
def xval (b : Nat) : Option Nat :=
  if 48 ≤ b ∧ b ≤ 57 then some (b - 48)
  else if 97 ≤ b ∧ b ≤ 102 then some (b - 87)
  else if 65 ≤ b ∧ b ≤ 70 then some (b - 55)
  else none

/-- The function `xtob` of google/uuid: the byte two hexadecimal digits spell. -/
def xtob (x1 x2 : Nat) : Option Nat :=
  match xval x1, xval x2 with
  | some a, some b => some (a * 16 + b)
  | _, _ => none

/-- The bytes spelled by consecutive pairs of hexadecimal digits. -/
def hexPairs : List Nat → Option (List Nat)
  | [] => some []
  | [_] => none
  | x1 :: x2 :: rest =>
    match xtob x1 x2, hexPairs rest with
    | some b, some bs => some (b :: bs)
    | _, _ => none

/-- The 36-byte form `xxxxxxxx-xxxx-xxxx-xxxx-xxxxxxxxxxxx`; bytes after the
36th are not looked at. The byte 45 is `-`. -/
def uuid.parse36 (s : List Nat) : Option UUID :=
  if s.getD 8 0 ≠ 45 ∨ s.getD 13 0 ≠ 45 ∨ s.getD 18 0 ≠ 45 ∨ s.getD 23 0 ≠ 45 then none
  else
    hexPairs ((s.take 8) ++ (s.drop 9).take 4 ++ (s.drop 14).take 4 ++ (s.drop 19).take 4
      ++ (s.drop 24).take 12)

/-- An upper case ASCII letter made lower case, any other byte as it is. -/
def foldByte (b : Nat) : Nat := if 65 ≤ b ∧ b ≤ 90 then b + 32 else b

/-- Go `strings.EqualFold(s[:9], "urn:uuid:")` on the first nine bytes of a
string: the letters of `urn:uuid:` fold with their ASCII upper case only, so
the nine bytes are those of `urn:uuid:` up to ASCII case. -/
def uuid.hasUrnPrefix (s : List Nat) : Bool :=
  (s.take 9).map foldByte == bytesOf "urn:uuid:"

/-- Go `uuid.Parse`: the switch on `len(s)`, the length in bytes, between the
plain, `urn:uuid:`, braced and undashed forms. -/
def uuid.Parse (s : String) : Option UUID :=
  let bs := bytesOf s
  if bs.length = 36 then uuid.parse36 bs
  else if bs.length = 45 then
    if uuid.hasUrnPrefix bs then uuid.parse36 (bs.drop 9) else none
  else if bs.length = 38 then uuid.parse36 (bs.drop 1)
  else if bs.length = 32 then hexPairs bs
  else none

/-- Modelled from the spec: `helpers.ZeroUUID` is used by the gates and the
repository but its declaration is not among the sources; it is the text of the
identifier whose bytes are all zero, the value a principal that was never
stored carries. -/
def ZeroUUID : String := "00000000-0000-0000-0000-000000000000"

/-! ## jwt-go -/

/-- A signing key, `[]byte`. -/
abbrev Key := List Nat

/-- The signing methods jwt-go registers: the HMAC family
(`*SigningMethodHMAC`) and the others (RSA, RSA-PSS, ECDSA, none). -/
inductive SigningMethod where
  | HMAC (alg : String)
  | nonHMAC (alg : String)
  deriving DecidableEq, Repr

/-- Go `jwt.GetSigningMethod`: the registered method of that name, or nil. -/
def GetSigningMethod (alg : String) : Option SigningMethod :=
  if alg = "HS256" ∨ alg = "HS384" ∨ alg = "HS512" then some (.HMAC alg)
  else if alg ∈ ["RS256", "RS384", "RS512", "ES256", "ES384", "ES512",
      "PS256", "PS384", "PS512", "none"] then some (.nonHMAC alg)
  else none

/-- Go `SigningMethod.Alg`. -/
def SigningMethod.Alg : SigningMethod → String
  | .HMAC alg => alg
  | .nonHMAC alg => alg

/-- The primitives of the imported packages that the token code rests on. -/
structure JwtLib where
  /-- `EncodeSegment(json.Marshal(m))`: the base64url text of the JSON of a map -/
  encodeJSON : MapClaims → String
  /-- `DecodeSegment` then `json.Unmarshal` into the header map; `none` when either fails -/
  decodeHeader : String → Option MapClaims
  /-- `DecodeSegment` then `json.Decoder.Decode` into the claims map; `none` when either fails -/
  decodeClaims : String → Option MapClaims
  /-- `SigningMethodHMAC.Sign` of the named method: the base64url text of the HMAC -/
  Sign : String → Key → String → String
  /-- `SigningMethodHMAC.Verify` of the named method succeeds -/
  Verify : String → Key → String → String → Bool
  /-- The text of the error `DecodeSegment` or `json.Unmarshal` returns on a header segment
  that does not decode -/
  headerError : String → String
  /-- The text of the error `DecodeSegment` or `json.Decoder.Decode` returns on a claims
  segment that does not decode -/
  claimsError : String → String
  /-- The text of the error of `DecodeSegment` on a signature segment; `none` when the
  segment decodes -/
  signatureError : String → Option String

/-- The `jwt.Token` struct. -/
structure Token where
  Raw : String
  Method : Option SigningMethod
  Header : MapClaims
  Claims : MapClaims
  Signature : String
  Valid : Bool
  deriving DecidableEq, Repr

/-- Go `jwt.NewWithClaims`; a nil method panics at `method.Alg()`. -/
def NewWithClaims (method : Option SigningMethod) (claims : MapClaims) : Outcome Token :=
  match method with
  | none => .panic "invalid memory address or nil pointer dereference"
  | some sm =>
    .ret { Raw := "", Method := some sm,
           Header := [("typ", .str "JWT"), ("alg", .str sm.Alg)],
           Claims := claims, Signature := "", Valid := false }

/-- Go `Token.SigningString`. -/
def Token.SigningString (lib : JwtLib) (t : Token) : String :=
  lib.encodeJSON t.Header ++ "." ++ lib.encodeJSON t.Claims

/-- Go `SigningMethod.Sign` with a `[]byte` key: only the HMAC family takes one.
The RSA methods answer it with `ErrInvalidKey`, the RSA-PSS and ECDSA methods
with `ErrInvalidKeyType`, and `none` with `NoneSignatureTypeDisallowedError`. -/
def SigningMethod.Sign (lib : JwtLib) (sm : SigningMethod) (sstr : String) (key : Key) :
    Except GoError String :=
  match sm with
  | .HMAC alg => .ok (lib.Sign alg key sstr)
  | .nonHMAC alg =>
    if alg = "none" then
      .error (.ValidationError "'none' signature type is not allowed"
        ValidationErrorSignatureInvalid)
    else if alg = "RS256" ∨ alg = "RS384" ∨ alg = "RS512" then .error (.other "key is invalid")
    else .error (.other "key is of invalid type")

/-- The error `SigningMethodHMAC.Verify` returns when it does not return nil:
the error of `DecodeSegment` on the signature segment when that does not
decode, and `ErrSignatureInvalid` when it decodes to other bytes than the
HMAC. -/
def JwtLib.verifyError (lib : JwtLib) (sig : String) : GoError :=
  match lib.signatureError sig with
  | some text => .other text
  | none => .other "signature is invalid"

/-- Go `SigningMethod.Verify` with a `[]byte` key. The methods other than
`none` decode the signature segment before they look at the key. -/
def SigningMethod.Verify (lib : JwtLib) (sm : SigningMethod) (sstr sig : String) (key : Key) :
    Option GoError :=
  match sm with
  | .HMAC alg => if lib.Verify alg key sstr sig then none else some (lib.verifyError sig)
  | .nonHMAC alg =>
    if alg = "none" then
      some (.ValidationError "'none' signature type is not allowed"
        ValidationErrorSignatureInvalid)
    else
      match lib.signatureError sig with
      | some text => some (.other text)
      | none =>
        if alg = "PS256" ∨ alg = "PS384" ∨ alg = "PS512" then some (.other "key is invalid")
        else some (.other "key is of invalid type")

/-- Go `Token.SignedString`. -/
def Token.SignedString (lib : JwtLib) (t : Token) (key : Key) : Except GoError String :=
  let sstr := t.SigningString lib
  match t.Method with
  | none => .error (.other "nil method")
  | some sm =>
    match sm.Sign lib sstr key with
    | .error e => .error e
    | .ok sig => .ok (sstr ++ "." ++ sig)

/-- The Go conversion `int64(f)` of a `float64` whose value is the whole
number `n`: the number itself when an `int64` holds it, and the smallest
`int64` otherwise, which is what the conversion gives on amd64 for a value out
of range. -/
def int64OfFloat (n : Int) : Int :=
  if -9223372036854775808 ≤ n ∧ n ≤ 9223372036854775807 then n else -9223372036854775808

/-- jwt-go `verifyExp`. -/
def verifyExp (exp now : Int) (required : Bool) : Bool :=
  if exp = 0 then !required else decide (now ≤ exp)

/-- jwt-go `verifyIat`. -/
def verifyIat (iat now : Int) (required : Bool) : Bool :=
  if iat = 0 then !required else decide (now ≥ iat)

/-- jwt-go `verifyNbf`. -/
def verifyNbf (nbf now : Int) (required : Bool) : Bool :=
  if nbf = 0 then !required else decide (now ≥ nbf)

/-- Go `MapClaims.VerifyExpiresAt`. -/
def MapClaims.VerifyExpiresAt (m : MapClaims) (cmp : Int) (req : Bool) : Bool :=
  match m.get "exp" with
  | some (.num exp) => verifyExp (int64OfFloat exp) cmp req
  | _ => req == false

/-- Go `MapClaims.VerifyIssuedAt`. -/
def MapClaims.VerifyIssuedAt (m : MapClaims) (cmp : Int) (req : Bool) : Bool :=
  match m.get "iat" with
  | some (.num iat) => verifyIat (int64OfFloat iat) cmp req
  | _ => req == false

/-- Go `MapClaims.VerifyNotBefore`. -/
def MapClaims.VerifyNotBefore (m : MapClaims) (cmp : Int) (req : Bool) : Bool :=
  match m.get "nbf" with
  | some (.num nbf) => verifyNbf (int64OfFloat nbf) cmp req
  | _ => req == false

/-- Go `MapClaims.Valid` at the clock reading `now`: the `Inner` text and the
`Errors` bits of the validation error it builds; no bits means nil. -/
def MapClaims.Valid (m : MapClaims) (now : Time) : String × Nat :=
  let now := now.Unix
  let v : String × Nat := ("", 0)
  let v := if m.VerifyExpiresAt now false == false then
    ("Token is expired", v.2 ||| ValidationErrorExpired) else v
  let v := if m.VerifyIssuedAt now false == false then
    ("Token used before issued", v.2 ||| ValidationErrorIssuedAt) else v
  let v := if m.VerifyNotBefore now false == false then
    ("Token is not valid yet", v.2 ||| ValidationErrorNotValidYet) else v
  v

/-- Go `Parser.ParseUnverified` with `MapClaims`: the token, the segments and
the error. -/
def ParseUnverified (lib : JwtLib) (tokenString : String) :
    Option Token × List String × Option GoError :=
  let parts := Split tokenString '.'
  match parts with
  | [p0, p1, _] =>
    let token : Token :=
      { Raw := tokenString, Method := none, Header := [], Claims := [], Signature := "",
        Valid := false }
    match lib.decodeHeader p0 with
    | none =>
      if HasPrefix (ToLower tokenString) "bearer " then
        (some token, parts,
          some (.ValidationError "tokenstring should not contain 'bearer '"
            ValidationErrorMalformed))
      else
        (some token, parts,
          some (.ValidationError (lib.headerError p0) ValidationErrorMalformed))
    | some header =>
      let token := { token with Header := header }
      match lib.decodeClaims p1 with
      | none =>
        (some token, parts,
          some (.ValidationError (lib.claimsError p1) ValidationErrorMalformed))
      | some claims =>
        let token := { token with Claims := claims }
        match token.Header.get "alg" with
        | some (.str method) =>
          match GetSigningMethod method with
          | none =>
            (some token, parts,
              some (.ValidationError "signing method (alg) is unavailable."
                ValidationErrorUnverifiable))
          | some sm => (some { token with Method := some sm }, parts, none)
        | _ =>
          (some token, parts,
            some (.ValidationError "signing method (alg) is unspecified."
              ValidationErrorUnverifiable))
  | _ =>
    (none, parts,
      some (.ValidationError "token contains an invalid number of segments"
        ValidationErrorMalformed))

/-- The text of an error, for wrapping it as the `Inner` of another. -/
def GoError.text : GoError → String
  | .ErrInvalidToken => "token is invalid/expired"
  | .ErrUnexpectedSigningMethod => "unexpected signing method"
  | .ValidationError inner _ => inner
  | .other t => t

/-- Go `jwt.Parse` (`Parser.ParseWithClaims` with `MapClaims`) at the clock
reading `now`. -/
def Parse (lib : JwtLib) (now : Time) (tokenString : String)
    (keyFunc : Token → Except GoError Key) : Option Token × Option GoError :=
  match ParseUnverified lib tokenString with
  | (token, _, some err) => (token, some err)
  | (none, _, none) => (none, none)
  | (some token, parts, none) =>
    match keyFunc token with
    | .error (.ValidationError inner errors) => (some token, some (.ValidationError inner errors))
    | .error e => (some token, some (.ValidationError e.text ValidationErrorUnverifiable))
    | .ok key =>
      let vErr := token.Claims.Valid now
      let token := { token with Signature := parts.getD 2 "" }
      let sstr := parts.getD 0 "" ++ "." ++ parts.getD 1 ""
      let verr : Option GoError :=
        match token.Method with
        | none => some (.other "nil method")
        | some sm => sm.Verify lib sstr token.Signature key
      let vErr := match verr with
        | some e => (e.text, vErr.2 ||| ValidationErrorSignatureInvalid)
        | none => vErr
      if vErr.2 = 0 then (some { token with Valid := true }, none)
      else (some token, some (.ValidationError vErr.1 vErr.2))

/-! ## strconv -/

/-- The decimal value of a digit character. -/
def digitVal (c : Char) : Option Nat :=
  if '0' ≤ c ∧ c ≤ '9' then some (c.toNat - 48) else none

/-- The value of a string of decimal digits, continuing from `acc`; `none` at
the first character that is not a digit. -/
def parseDigits : List Char → Nat → Option Nat
  | [], acc => some acc
  | c :: cs, acc =>
    match digitVal c with
    | none => none
    | some d => parseDigits cs (acc * 10 + d)

/-- Go `strconv.Atoi` on a 64-bit platform: an optional sign and at least one
decimal digit, the value within `int64`; `none` is a non-nil error. -/
def Atoi (s : String) : Option Int :=
  match s.data with
  | [] => none
  | '-' :: ds =>
    if ds = [] then none
    else (parseDigits ds 0).bind fun n =>
      if n ≤ 9223372036854775808 then some (-(n : Int)) else none
  | '+' :: ds =>
    if ds = [] then none
    else (parseDigits ds 0).bind fun n =>
      if n < 9223372036854775808 then some (n : Int) else none
  | ds =>
    (parseDigits ds 0).bind fun n =>
      if n < 9223372036854775808 then some (n : Int) else none

/-! ## models -/

/-- The `models.Env` fields the token code reads. -/
structure Env where
  JWTAccessTokenExpiry : String
  JWTRefreshTokenExpiry : String
  JWTSigningSecret : String
  deriving DecidableEq, Repr

/-- The principal record as the gates read it: `user.ID` and `user.IsAdmin`. -/
structure User where
  ID : UUID
  IsAdmin : Bool
  deriving DecidableEq, Repr

/-- The `GetUserByID` operation of the application layer, the user lookup the
gates call: a principal or an error. -/
abbrev App := UUID → Except GoError User

/-! ## jwt.go -/

def claimsID : String := "id"
def isAdminClaims : String := "is_admin"
def claimsExpiry : String := "exp"
def claimsCreatedAt : String := "orig_iat"

/-- The `JwtConfig` fields the token code reads. -/
structure JwtConfig where
  SigningAlgorithm : String
  Key : Key
  deriving DecidableEq, Repr

/-- The `Middleware` struct: the signing configuration (jwt.go) with the
environment and the application (middleware.go). -/
structure Middleware where
  jwt : JwtConfig
  env : Env
  app : App

/-- The `Tokens` struct; the two expiry fields hold the instant whose text
`Time.String` renders. -/
structure Tokens where
  AccessToken : String
  RefreshToken : String
  AccessTokenExpiry : Time
  RefreshTokenExpiry : Time
  deriving DecidableEq, Repr

/-- The function `jwtAccessTokenExpiry` of jwt.go. -/
def jwtAccessTokenExpiry (env : Env) : Duration :=
  match Atoi env.JWTAccessTokenExpiry with
  | none => wrapInt64 (Minute * 10000)
  | some ttl => wrapInt64 (Minute * ttl)

/-- The function `jwtRefreshTokenExpiry` of jwt.go. -/
def jwtRefreshTokenExpiry (env : Env) : Duration :=
  match Atoi env.JWTRefreshTokenExpiry with
  | none => wrapInt64 (Hour * 240000)
  | some ttl => wrapInt64 (Hour * ttl)

/-- The method `Middleware.CreateToken` of jwt.go. `clock k` is the reading of
the `k`-th call of `time.Now()`, in the order the calls are made. -/
def CreateToken (lib : JwtLib) (m : Middleware) (clock : Nat → Time) (env : Env)
    (userID : String) (isAdmin : Bool) : Outcome (Except GoError Tokens) :=
  match NewWithClaims (GetSigningMethod m.jwt.SigningAlgorithm)
      [ (claimsID, .str userID),
        (claimsExpiry, .num ((clock 0).Add (jwtAccessTokenExpiry env)).Unix),
        (claimsCreatedAt, .num (clock 1).Unix),
        (isAdminClaims, .bool isAdmin) ] with
  | .panic msg => .panic msg
  | .ret accessToken =>
    match accessToken.SignedString lib m.jwt.Key with
    | .error err => .ret (.error err)
    | .ok accessTokenString =>
      match NewWithClaims (GetSigningMethod m.jwt.SigningAlgorithm)
          [ (claimsID, .str userID),
            (claimsExpiry, .num ((clock 2).Add (jwtRefreshTokenExpiry env)).Unix),
            (claimsCreatedAt, .num (clock 3).Unix),
            (isAdminClaims, .bool isAdmin) ] with
      | .panic msg => .panic msg
      | .ret refreshToken =>
        match refreshToken.SignedString lib m.jwt.Key with
        | .error err => .ret (.error err)
        | .ok refreshTokenString =>
          .ret (.ok
            { AccessToken := accessTokenString,
              RefreshToken := refreshTokenString,
              AccessTokenExpiry := (clock 4).Add (jwtAccessTokenExpiry env),
              RefreshTokenExpiry := (clock 5).Add (jwtRefreshTokenExpiry env) })

/-- The verb `%v` of `fmt` on a value of a decoded header. `jwt.Parse` calls
the key function on a token whose `alg` is a string, which prints as it is. -/
def formatValue : Option JVal → String
  | some (.str s) => s
  | some (.num n) => toString n
  | some (.bool b) => if b then "true" else "false"
  | some .null => "<nil>"
  | some .composite => "map[]"
  | none => "<nil>"

/-- The key function `ParseToken` hands to `jwt.Parse`: the configured key for
a token whose method is of the HMAC family, and otherwise the error
`fmt.Errorf("unexpected signing method: %v", token.Header["alg"])`. -/
def ParseToken.keyFunc (m : Middleware) (token : Token) : Except GoError Key :=
  match token.Method with
  | some (.HMAC _) => .ok m.jwt.Key
  | _ => .error (.other ("unexpected signing method: " ++ formatValue (token.Header.get "alg")))

/-- The method `Middleware.ParseToken` of jwt.go at the clock reading `now`:
the results `(userID, isAdmin, err)`, or a panic at a failed type assertion. -/
def ParseToken (lib : JwtLib) (m : Middleware) (now : Time) (_env : Env) (tokenStr : String) :
    Outcome (String × Bool × Option GoError) :=
  match Parse lib now tokenStr (ParseToken.keyFunc m) with
  | (none, _) => .ret ("", false, some .ErrInvalidToken)
  | (some token, err) =>
    if token.Valid then
      match token.Claims.get claimsID with
      | some (.str userID) =>
        match token.Claims.get isAdminClaims with
        | some (.bool isAdmin) => .ret (userID, isAdmin, none)
        | some _ => .panic "interface conversion: interface {} is not bool"
        | none => .ret (userID, false, none)
      | _ => .panic "interface conversion: interface {} is not string"
    else .ret ("", false, err)

/-- The key function `ValidateRefreshToken` hands to `jwt.Parse`: the
configured key for a token whose method is of the HMAC family,
`ErrUnexpectedSigningMethod` otherwise. -/
def ValidateRefreshToken.keyFunc (m : Middleware) (token : Token) : Except GoError Key :=
  match token.Method with
  | some (.HMAC _) => .ok m.jwt.Key
  | _ => .error .ErrUnexpectedSigningMethod

/-- The method `Middleware.ValidateRefreshToken` of jwt.go: the results
`(*uuid.UUID, error)`, or a panic at the type assertion on the `id` claim.
`clock 0` is the reading `jwt.Parse` takes, `clock 1` the one the second
`Claims.Valid()` takes. -/
def ValidateRefreshToken (lib : JwtLib) (m : Middleware) (clock : Nat → Time) (_env : Env)
    (token : String) : Outcome (Option UUID × Option GoError) :=
  match Parse lib (clock 0) token (ValidateRefreshToken.keyFunc m) with
  | (_, some err) => .ret (none, some err)
  | (none, none) => .panic "invalid memory address or nil pointer dereference"
  | (some tokenGotten, none) =>
    let v := tokenGotten.Claims.Valid (clock 1)
    if v.2 ≠ 0 then .ret (none, some (.ValidationError v.1 v.2))
    else
      match tokenGotten.Claims.get claimsID with
      | some (.str claimsUUID) =>
        if tokenGotten.Valid then
          match uuid.Parse claimsUUID with
          | none => .ret (none, some .ErrInvalidToken)
          | some parsedUUID => .ret (some parsedUUID, none)
        else .ret (none, some .ErrInvalidToken)
      | _ => .panic "interface conversion: interface {} is not string"

/-! ## gin -/

/-- The calls a gate makes to its collaborators and the handlers the router
runs, in order: the observable trace of one request. -/
inductive Event where
  /-- The token decoder was called on this string -/
  | ParseToken (tokenStr : String)
  /-- The user lookup was called on this identifier -/
  | GetUserByID (id : UUID)
  /-- The router entered the handler at this position of the chain -/
  | handler (i : Nat)
  deriving DecidableEq, Repr

/-- A value stored in the request context by `c.Set`. -/
inductive CtxVal where
  | str (s : String)
  | bool (b : Bool)
  deriving DecidableEq, Repr

/-- The body of a rejection, `models.ErrorData`. -/
structure ErrorData where
  ID : String
  Handler : String
  PublicMessage : String
  deriving DecidableEq, Repr

/-- The `gin.Context` of one request: the `Authorization` request header (empty
when absent), the request id, the `Keys` map, the response headers, the
responses written so far (status and body), the handler index, the trace, and
whether a panic is unwinding the request. -/
structure Context where
  Authorization : String
  requestID : String
  Keys : List (String × CtxVal)
  respHeader : List (String × String)
  written : List (Nat × ErrorData)
  index : Int
  trace : List Event
  panicked : Bool
  deriving DecidableEq, Repr

/-- The index gin gives an aborted context, `math.MaxInt8 / 2`. -/
def abortIndex : Int := 63

/-- Go `Context.Set`. -/
def Context.Set (c : Context) (key : String) (value : CtxVal) : Context :=
  { c with Keys := (key, value) :: c.Keys.filter fun kv => kv.1 != key }

/-- Go `Context.Get`. -/
def Context.Get (c : Context) (key : String) : Option CtxVal := c.Keys.lookup key

/-- Go `Context.Header`: set a response header, or delete it when the value is
empty. -/
def Context.Header (c : Context) (key value : String) : Context :=
  if value = "" then { c with respHeader := c.respHeader.filter fun kv => kv.1 != key }
  else { c with respHeader := (key, value) :: c.respHeader.filter fun kv => kv.1 != key }

/-- Append an event to the trace. -/
def Context.record (c : Context) (e : Event) : Context :=
  { c with trace := c.trace ++ [e] }

/-- A panic starts unwinding the request. -/
def Context.fault (c : Context) : Context := { c with panicked := true }

/-- Go `fmt.Sprint` of a `bool`. -/
def Sprint (b : Bool) : String := if b then "true" else "false"

/-- Modelled from the spec: `models.ErrorResponse(c, status, data)` is called
by the gates but is not among the sources. It writes one structured error
response, the status with the body `data`, and short-circuits the request: the
remaining handlers of the chain do not run. -/
def ErrorResponse (c : Context) (status : Nat) (data : ErrorData) : Context :=
  { c with written := c.written ++ [(status, data)], index := abortIndex }

def StatusBadRequest : Nat := 400
def StatusUnauthorized : Nat := 401
def StatusForbidden : Nat := 403
def StatusNotFound : Nat := 404

/-! ## middleware.go -/

def UserIDInContext : String := "user_id_in_context"
def IsAdminInContext : String := "is_admin_in_context"
def IsAdminOnHeaders : String := "is_admin"
def packageName : String := "middleware"

/-- The handler that `Middleware.AuthMiddleware(onlyAdmin)` returns, up to its
last statement: the context it leaves, and whether control reaches the final
`c.Next()` (true) or the handler returned before (false). -/
def Middleware.AuthMiddleware.gate (lib : JwtLib) (m : Middleware) (now : Time)
    (onlyAdmin : Bool) (c : Context) : Context × Bool :=
  let requestID := c.requestID
  let bearerToken := c.Authorization
  if bearerToken.length = 0 then
    (ErrorResponse c StatusUnauthorized
      { ID := requestID, Handler := packageName, PublicMessage := "auth token is missing" },
     false)
  else if !HasPrefix bearerToken "Bearer " then
    (ErrorResponse c StatusUnauthorized
      { ID := requestID, Handler := packageName, PublicMessage := "auth token is invalid" },
     false)
  else
    let tokenStr := TrimPrefix bearerToken "Bearer "
    let c := c.record (.ParseToken tokenStr)
    match ParseToken lib m now m.env tokenStr with
    | .panic _ => (c.fault, false)
    | .ret (_, _, some _) =>
      (ErrorResponse c StatusUnauthorized
        { ID := requestID, Handler := packageName,
          PublicMessage := "token supplied is invalid/expired" },
       false)
    | .ret (userID, isAdmin, none) =>
      match uuid.Parse userID with
      | none =>
        (ErrorResponse c StatusBadRequest
          { ID := requestID, Handler := packageName, PublicMessage := "invalid user ID" },
         false)
      | some uID =>
        let c := c.record (.GetUserByID uID)
        match m.app uID with
        | .error _ =>
          (ErrorResponse c StatusNotFound
            { ID := requestID, Handler := packageName,
              PublicMessage := "no user found in this authorization context" },
           false)
        | .ok user =>
          if EqualFold user.ID.String ZeroUUID then
            (ErrorResponse c StatusNotFound
              { ID := requestID, Handler := packageName,
                PublicMessage := "no user found in this authorization context" },
             false)
          else if onlyAdmin && !user.IsAdmin then
            (ErrorResponse c StatusForbidden
              { ID := requestID, Handler := packageName,
                PublicMessage := "user is not an admin" },
             false)
          else
            let c := c.Set UserIDInContext (.str userID)
            let c := c.Set IsAdminInContext (.bool isAdmin)
            let c := c.Header IsAdminOnHeaders (Sprint isAdmin)
            (c, true)

/-- A `gin.HandlerFunc`, given what `c.Next()` does when the handler calls it. -/
abbrev HandlerFunc := (Context → Context) → Context → Context

/-- The method `Middleware.AuthMiddleware` of middleware.go. -/
def Middleware.AuthMiddleware (lib : JwtLib) (m : Middleware) (now : Time)
    (onlyAdmin : Bool) : HandlerFunc := fun next c =>
  match Middleware.AuthMiddleware.gate lib m now onlyAdmin c with
  | (c, true) => next c
  | (c, false) => c

/-! ## rest_auth.go -/

/-- The `RestAuthMiddleware` struct. -/
structure RestAuthMiddleware where
  middleware : Middleware

/-- The handler that `RestAuthMiddleware.AuthMiddleware(onlyAdmin)` returns, up
to its last statement: the context it leaves, and whether control reaches the
final `c.Next()`. -/
def RestAuthMiddleware.AuthMiddleware.gate (lib : JwtLib) (m : RestAuthMiddleware) (now : Time)
    (onlyAdmin : Bool) (c : Context) : Context × Bool :=
  let requestID := c.requestID
  let bearerToken := c.Authorization
  if bearerToken.length = 0 then
    (ErrorResponse c StatusUnauthorized
      { ID := requestID, Handler := packageName, PublicMessage := "auth token is missing" },
     false)
  else if !HasPrefix bearerToken "Bearer " then
    (ErrorResponse c StatusUnauthorized
      { ID := requestID, Handler := packageName, PublicMessage := "auth token is invalid" },
     false)
  else
    let c := c.record (.ParseToken bearerToken)
    match ParseToken lib m.middleware now m.middleware.env bearerToken with
    | .panic _ => (c.fault, false)
    | .ret (_, _, some _) =>
      (ErrorResponse c StatusUnauthorized
        { ID := requestID, Handler := packageName,
          PublicMessage := "token supplied is invalid/expired" },
       false)
    | .ret (userID, isAdmin, none) =>
      match uuid.Parse userID with
      | none =>
        (ErrorResponse c StatusBadRequest
          { ID := requestID, Handler := packageName, PublicMessage := "invalid user ID" },
         false)
      | some uID =>
        let c := c.record (.GetUserByID uID)
        match m.middleware.app uID with
        | .error _ =>
          (ErrorResponse c StatusNotFound
            { ID := requestID, Handler := packageName,
              PublicMessage := "no user found in this authorization context" },
           false)
        | .ok user =>
          if EqualFold user.ID.String ZeroUUID then
            (ErrorResponse c StatusNotFound
              { ID := requestID, Handler := packageName,
                PublicMessage := "no user found in this authorization context" },
             false)
          else if onlyAdmin && !user.IsAdmin then
            (ErrorResponse c StatusForbidden
              { ID := requestID, Handler := packageName,
                PublicMessage := "user is not an admin" },
             false)
          else
            let c := c.Set UserIDInContext (.str userID)
            let c := c.Set IsAdminInContext (.bool isAdmin)
            let c := c.Header IsAdminOnHeaders (Sprint isAdmin)
            (c, true)

/-- The method `RestAuthMiddleware.AuthMiddleware` of rest_auth.go. -/
def RestAuthMiddleware.AuthMiddleware (lib : JwtLib) (m : RestAuthMiddleware) (now : Time)
    (onlyAdmin : Bool) : HandlerFunc := fun next c =>
  match RestAuthMiddleware.AuthMiddleware.gate lib m now onlyAdmin c with
  | (c, true) => next c
  | (c, false) => c

/-! ## The handler chain of a route -/

/-- The loop of gin `Context.Next`: while the index is inside the chain and no
panic unwinds, run the handler at the index (recording it) and step the index.
`next` is what a handler gets when it calls `c.Next()` itself; `k` bounds the
iterations. -/
def nextLoop (hs : List HandlerFunc) (next : Context → Context) : Nat → Context → Context
  | 0, c => c
  | k + 1, c =>
    if c.panicked then c
    else if 0 ≤ c.index ∧ c.index < hs.length then
      match hs.get? c.index.toNat with
      | none => c
      | some h =>
        let c := h next (c.record (.handler c.index.toNat))
        if c.panicked then c
        else nextLoop hs next k { c with index := c.index + 1 }
    else c

/-- Go `Context.Next` on the chain `hs`: step the index and run the loop.
`fuel` bounds the depth of the nested `c.Next()` calls. -/
def Context.Next (hs : List HandlerFunc) : Nat → Context → Context
  | 0, c => c
  | fuel + 1, c =>
    nextLoop hs (Context.Next hs fuel) (hs.length + 1) { c with index := c.index + 1 }

/-- What the router does with a request on a route whose chain is `hs`: reset
the index to -1 and call `c.Next()`. -/
def serve (hs : List HandlerFunc) (c : Context) : Context :=
  Context.Next hs (hs.length + 1) { c with index := -1 }

/-- The identifiers the user lookup was called on during the request. -/
def Context.lookups (c : Context) : List UUID :=
  c.trace.filterMap fun e => match e with
    | .GetUserByID id => some id
    | _ => none

/-- The positions of the handlers the router ran during the request. -/
def Context.handlersRun (c : Context) : List Nat :=
  c.trace.filterMap fun e => match e with
    | .handler i => some i
    | _ => none

/-- The context as `serve` hands it to the first handler of the chain. -/
def routerEntry (c : Context) : Context :=
  ({ c with index := 0 }).record (.handler 0)

/-! ## What the token code needs of the wire primitives -/

/-- Decoding a segment made by `encodeJSON` gives back a map with the same
entries, as a header and as a claims set. -/
def JwtLib.RoundTrip (lib : JwtLib) : Prop :=
  ∀ m : MapClaims,
    (∃ h, lib.decodeHeader (lib.encodeJSON m) = some h ∧ ∀ k, h.get k = m.get k) ∧
    (∃ c, lib.decodeClaims (lib.encodeJSON m) = some c ∧ ∀ k, c.get k = m.get k)

/-- The base64url alphabet has no dot: no encoded segment and no signature
contains one. -/
def JwtLib.DotFree (lib : JwtLib) : Prop :=
  (∀ m, '.' ∉ (lib.encodeJSON m).data) ∧ ∀ alg key sstr, '.' ∉ (lib.Sign alg key sstr).data

/-- A signature verifies under the method, key and signing string it was made
with. -/
def JwtLib.SignVerify (lib : JwtLib) : Prop :=
  ∀ alg key sstr, lib.Verify alg key sstr (lib.Sign alg key sstr) = true

/-- The base64url alphabet has no blank: a header segment that contains one
does not decode. -/
def JwtLib.RejectsBlank (lib : JwtLib) : Prop :=
  ∀ s : String, ' ' ∈ s.data → lib.decodeHeader s = none

/-! ## Base64url as jwt-go applies it to a segment

`EncodeSegment` is `base64.URLEncoding` without the trailing `=`;
`DecodeSegment` puts the `=` back and calls `base64.URLEncoding.DecodeString`,
which skips line breaks and, not being strict, does not look at the bits of
the last character that lie beyond the last whole byte. -/

namespace B64

/-- The URL-safe alphabet. -/
def alphabet : List Char :=
  "ABCDEFGHIJKLMNOPQRSTUVWXYZabcdefghijklmnopqrstuvwxyz0123456789-_".data

/-- The character of a six-bit value. -/
def encChar (n : Nat) : Char := alphabet.getD n 'A'

/-- The six-bit value of a byte of the alphabet (the `decodeMap` table). -/
def decByte (b : Nat) : Option Nat :=
  if 65 ≤ b ∧ b ≤ 90 then some (b - 65)
  else if 97 ≤ b ∧ b ≤ 122 then some (b - 71)
  else if 48 ≤ b ∧ b ≤ 57 then some (b + 4)
  else if b = 45 then some 62
  else if b = 95 then some 63
  else none

/-- The unpadded encoding of a list of bytes. -/
def encode : List Nat → List Char
  | [] => []
  | [a] => [encChar (a / 4), encChar (a % 4 * 16)]
  | [a, b] => [encChar (a / 4), encChar (a % 4 * 16 + b / 16), encChar (b % 16 * 4)]
  | a :: b :: c :: rest =>
    encChar (a / 4) :: encChar (a % 4 * 16 + b / 16) :: encChar (b % 16 * 4 + c / 64)
      :: encChar (c % 64) :: encode rest

/-- jwt-go `EncodeSegment`. -/
def EncodeSegment (seg : List Nat) : String := String.mk (encode seg)

/-- Skip line breaks: the rest of the input and the position after them. -/
def skipBreaks : List Nat → Nat → List Nat × Nat
  | [], si => ([], si)
  | b :: rest, si => if b = 10 ∨ b = 13 then skipBreaks rest (si + 1) else (b :: rest, si)

/-- The bytes of a quantum of two, three or four six-bit values. -/
def quantumBytes : List Nat → List Nat
  | [v0, v1] => [v0 * 4 + v1 / 16]
  | [v0, v1, v2] => [v0 * 4 + v1 / 16, v1 % 16 * 16 + v2 / 4]
  | [v0, v1, v2, v3] => [v0 * 4 + v1 / 16, v1 % 16 * 16 + v2 / 4, v2 % 4 * 64 + v3]
  | _ => []

/-- Go `Encoding.Decode` of `base64.URLEncoding`, quantum by quantum
(`decodeQuantum`): the input left, the position `si` in the input, and the
six-bit values of the quantum read so far; `len` is the length of the whole
input. The result is the bytes, or the position of the `CorruptInputError`. -/
def decodeFrom (len : Nat) : List Nat → Nat → List Nat → Except Nat (List Nat)
  | [], si, dbuf => if dbuf = [] then .ok [] else .error (si - dbuf.length)
  | b :: rest, si, dbuf =>
    match decByte b with
    | some v =>
      if dbuf.length = 3 then
        match decodeFrom len rest (si + 1) [] with
        | .ok bs => .ok (quantumBytes (dbuf ++ [v]) ++ bs)
        | .error e => .error e
      else decodeFrom len rest (si + 1) (dbuf ++ [v])
    | none =>
      if b = 10 ∨ b = 13 then decodeFrom len rest (si + 1) dbuf
      else if b ≠ 61 then .error si
      else if dbuf.length < 2 then .error si
      else if dbuf.length = 2 then
        match skipBreaks rest (si + 1) with
        | ([], _) => .error len
        | (b1 :: rest2, si1) =>
          if b1 ≠ 61 then .error (si1 - 1)
          else
            match skipBreaks rest2 (si1 + 1) with
            | ([], _) => .ok (quantumBytes dbuf)
            | (_ :: _, si3) => .error si3
      else
        match skipBreaks rest (si + 1) with
        | ([], _) => .ok (quantumBytes dbuf)
        | (_ :: _, si3) => .error si3

/-- jwt-go `DecodeSegment`: the bytes, or the position of the
`CorruptInputError`. -/
def DecodeSegment (seg : String) : Except Nat (List Nat) :=
  let bs := bytesOf seg
  let l := bs.length % 4
  let padded := if l > 0 then bs ++ List.replicate (4 - l) 61 else bs
  decodeFrom padded.length padded 0 []

/-- The text of the error of `DecodeSegment` on a segment; `none` when the
segment decodes. -/
def segmentError (seg : String) : Option String :=
  match DecodeSegment seg with
  | .ok _ => none
  | .error n => some ("illegal base64 data at input byte " ++ toString n)

end B64

/-! ## A reference instance of the wire primitives

A small self-delimiting text codec that stands in for base64url over JSON, and
a keyed checksum that stands in for the HMAC. It has the properties above, and
the concrete tokens below are made with it. -/

namespace Ref

/-- Escape the characters the codec reserves. -/
def escChar (c : Char) : List Char :=
  if c = '~' then ['~', '~'] else if c = '.' then ['~', 'd'] else if c = ' ' then ['~', 's']
  else [c]

/-- A string: its characters escaped, then the end mark. -/
def encStr : List Char → List Char
  | [] => ['~', 'e']
  | c :: cs => escChar c ++ encStr cs

/-- The character an escape letter stands for. -/
def unescChar (x : Char) : Option Char :=
  if x = '~' then some '~' else if x = 'd' then some '.' else if x = 's' then some ' ' else none

/-- Read a string up to its end mark: the string and the rest of the input. -/
def decStr : List Char → Option (List Char × List Char)
  | [] => none
  | c :: r =>
    if c = '~' then
      match r with
      | [] => none
      | x :: r1 =>
        if x = 'e' then some ([], r1)
        else
          match unescChar x, decStr r1 with
          | some d, some (s, r2) => some (d :: s, r2)
          | _, _ => none
    else
      match decStr r with
      | some (s, r2) => some (c :: s, r2)
      | none => none

/-- The binary digits of `n`, least significant first; `fuel` bounds their
number. -/
def natBits : Nat → Nat → List Char
  | 0, _ => []
  | fuel + 1, n =>
    if n = 0 then [] else (if n % 2 = 1 then '1' else '0') :: natBits fuel (n / 2)

/-- The number a list of binary digits spells. -/
def bitsNat : List Char → Option Nat
  | [] => some 0
  | c :: cs =>
    match bitsNat cs with
    | none => none
    | some v => if c = '1' then some (1 + 2 * v) else if c = '0' then some (2 * v) else none

/-- An integer: its sign, then the binary digits of its magnitude. -/
def encInt (n : Int) : List Char :=
  (if n < 0 then 'm' else 'p') :: natBits n.natAbs n.natAbs

/-- Read an integer. -/
def decInt : List Char → Option Int
  | [] => none
  | c :: bs =>
    match bitsNat bs with
    | none => none
    | some v => if c = 'p' then some (v : Int) else if c = 'm' then some (-(v : Int)) else none

/-- A value: a tag, then its content. -/
def encVal : JVal → List Char
  | .str s => 's' :: encStr s.data
  | .num n => 'n' :: encStr (encInt n)
  | .bool b => ['b', if b then 't' else 'f']
  | .null => ['z']
  | .composite => ['c']

/-- Read a value: the value and the rest of the input. -/
def decVal : List Char → Option (JVal × List Char)
  | [] => none
  | t :: r =>
    if t = 's' then
      match decStr r with
      | some (s, r1) => some (.str (String.mk s), r1)
      | none => none
    else if t = 'n' then
      match decStr r with
      | some (s, r1) =>
        match decInt s with
        | some n => some (.num n, r1)
        | none => none
      | none => none
    else if t = 'b' then
      match r with
      | [] => none
      | x :: r1 =>
        if x = 't' then some (.bool true, r1)
        else if x = 'f' then some (.bool false, r1) else none
    else if t = 'z' then some (.null, r)
    else if t = 'c' then some (.composite, r)
    else none

/-- A map: each entry behind a comma, then a semicolon. -/
def encEntries : MapClaims → List Char
  | [] => [';']
  | (k, v) :: m => ',' :: (encStr k.data ++ (encVal v ++ encEntries m))

/-- Read a map that fills the whole input; `fuel` bounds the number of entries. -/
def decEntries : Nat → List Char → Option MapClaims
  | 0, _ => none
  | _ + 1, [] => none
  | fuel + 1, c :: r =>
    if c = ';' then (if r = [] then some [] else none)
    else if c = ',' then
      match decStr r with
      | none => none
      | some (k, r1) =>
        match decVal r1 with
        | none => none
        | some (v, r2) =>
          match decEntries fuel r2 with
          | none => none
          | some m => some ((String.mk k, v) :: m)
    else none

/-- The segment of a map. -/
def encodeJSON (m : MapClaims) : String := String.mk (encEntries m)

/-- The map of a segment; a segment with a blank is rejected. -/
def decodeJSON (s : String) : Option MapClaims :=
  if ' ' ∈ s.data then none else decEntries s.data.length s.data

/-- A keyed checksum of the signing string. -/
def mac (alg : String) (key : Key) (sstr : String) : Nat :=
  (alg.data.map Char.toNat ++ key ++ sstr.data.map Char.toNat).foldl
    (fun acc x => (acc * 131 + x + 1) % 4294967291) 7

/-- The signature: the checksum in binary digits. -/
def Sign (alg : String) (key : Key) (sstr : String) : String :=
  String.mk (natBits 32 (mac alg key sstr))

/-- A signature verifies when it is the one `Sign` makes. -/
def Verify (alg : String) (key : Key) (sstr sig : String) : Bool :=
  decide (sig = Sign alg key sstr)

end Ref

/-- The reference instance of the wire primitives. Its signatures are texts
of base64url, and a segment that is no base64url gets the error of
`DecodeSegment`; a segment that is base64url and not of the form of the codec
gets a text of its own, where Go has the error of the JSON decoder. -/
def refLib : JwtLib :=
  { encodeJSON := Ref.encodeJSON
    decodeHeader := Ref.decodeJSON
    decodeClaims := Ref.decodeJSON
    Sign := Ref.Sign
    Verify := Ref.Verify
    headerError := fun seg => (B64.segmentError seg).getD "segment is not of the reference form"
    claimsError := fun seg => (B64.segmentError seg).getD "segment is not of the reference form"
    signatureError := B64.segmentError }

/-! ## Concrete configurations and requests -/

/-- An identifier that parses. -/
def aliceID : String := "0a0b0c0d-0e0f-4a4b-8c8d-101112131415"

/-- The bytes of `aliceID`. -/
def aliceUUID : UUID := [10, 11, 12, 13, 14, 15, 74, 75, 140, 141, 16, 17, 18, 19, 20, 21]

/-- A store with one principal, who is not an administrator. -/
def oneUserApp : App := fun id =>
  if id = aliceUUID then .ok { ID := aliceUUID, IsAdmin := false }
  else .error (.other "record not found")

/-- An environment with a ten minute access lifetime and a one hour refresh
lifetime. -/
def testEnv : Env :=
  { JWTAccessTokenExpiry := "10", JWTRefreshTokenExpiry := "1", JWTSigningSecret := "secret" }

/-- A middleware that signs with HS256. -/
def testMiddleware : Middleware :=
  { jwt := { SigningAlgorithm := "HS256", Key := [115, 101, 99, 114, 101, 116] }
    env := testEnv
    app := oneUserApp }

/-- A clock that stands at one thousand seconds. -/
def testClock : Nat → Time := fun _ => 1000000000000

/-- The access token `CreateToken` issues for the principal with the flag
`isAdmin`, or the empty string when it issues none. -/
def accessTokenOf (lib : JwtLib) (m : Middleware) (clock : Nat → Time) (env : Env)
    (userID : String) (isAdmin : Bool) : String :=
  match CreateToken lib m clock env userID isAdmin with
  | .ret (.ok t) => t.AccessToken
  | _ => ""

/-- A request with the given `Authorization` header, as the router hands it to
the first handler. -/
def request (authorization : String) : Context :=
  { Authorization := authorization, requestID := "req-1", Keys := [], respHeader := [],
    written := [], index := 0, trace := [], panicked := false }

/-- The instant at which `testClock` stands. -/
def testNow : Time := 1000000000000

/-- An identifier that parses and that `oneUserApp` does not hold. -/
def bobID : String := "1a1b1c1d-1e1f-4a4b-8c8d-202122232425"

/-- The header that carries the access token issued to `userID`. -/
def bearerOf (userID : String) (isAdmin : Bool) : String :=
  "Bearer " ++ accessTokenOf refLib testMiddleware testClock testEnv userID isAdmin

/-- A downstream handler: it writes a 200 response and returns. -/
def okHandler : HandlerFunc := fun _ c =>
  { c with written := c.written ++ [(200, { ID := c.requestID, Handler := "user", PublicMessage := "ok" })] }


/-- The refresh token `CreateToken` issues, or the empty string when it issues
none. -/
def refreshTokenOf (lib : JwtLib) (m : Middleware) (clock : Nat → Time) (env : Env)
    (userID : String) (isAdmin : Bool) : String :=
  match CreateToken lib m clock env userID isAdmin with
  | .ret (.ok t) => t.RefreshToken
  | _ => ""

/-- The token an issuer that holds `key` makes of `claims` with the method
named `alg`: `jwt.NewWithClaims(jwt.GetSigningMethod(alg), claims)` and
`SignedString(key)`; the empty string when that fails. -/
def signedWith (lib : JwtLib) (alg : String) (key : Key) (claims : MapClaims) : String :=
  match NewWithClaims (GetSigningMethod alg) claims with
  | .ret tok =>
    match tok.SignedString lib key with
    | .ok s => s
    | .error _ => ""
  | .panic _ => ""

/-! ## A reference instance with the signature in base64url -/

namespace B64

/-- The number of bytes of the HMAC of a method: SHA-256, SHA-384, SHA-512. -/
def macLen (alg : String) : Nat :=
  if alg = "HS384" then 48 else if alg = "HS512" then 64 else 32

/-- A keyed checksum of the length of the HMAC, standing in for it. -/
def mac (alg : String) (key : Key) (sstr : String) : List Nat :=
  (List.range (macLen alg)).map fun i => (Ref.mac alg key sstr / (i + 1) + 7 * i) % 256

/-- `SigningMethodHMAC.Sign`: the encoded segment of the HMAC. -/
def Sign (alg : String) (key : Key) (sstr : String) : String :=
  EncodeSegment (mac alg key sstr)

/-- `SigningMethodHMAC.Verify`: the signature decodes to the HMAC. -/
def Verify (alg : String) (key : Key) (sstr sig : String) : Bool :=
  match DecodeSegment sig with
  | .error _ => false
  | .ok b => b == mac alg key sstr

end B64

/-- The wire primitives with the signature segment in base64url. -/
def b64Lib : JwtLib :=
  { encodeJSON := Ref.encodeJSON
    decodeHeader := Ref.decodeJSON
    decodeClaims := Ref.decodeJSON
    Sign := B64.Sign
    Verify := B64.Verify
    headerError := fun seg => (B64.segmentError seg).getD "segment is not of the reference form"
    claimsError := fun seg => (B64.segmentError seg).getD "segment is not of the reference form"
    signatureError := B64.segmentError }

/-- The string with its last character replaced by `c`. -/
def replaceLast (s : String) (c : Char) : String := String.mk (s.data.dropLast ++ [c])

/-- The last character of a string. -/
def lastChar (s : String) : Char := s.data.getLastD ' '

/-- An environment whose access and refresh lifetimes are both one hour. -/
def equalEnv : Env :=
  { JWTAccessTokenExpiry := "60", JWTRefreshTokenExpiry := "1", JWTSigningSecret := "secret" }

/-- A clock that passes a second boundary between its first and its second
reading: 999.9999 s, then 1000.0001 s. -/
def tickingClock : Nat → Time := fun k => if k = 0 then 999999900000 else 1000000100000


/-- The token string `s` has the three segments `p0`, `p1`, `p2`, its header
and claims decode to `header` and `claims`, and the header's `alg` names the
registered method `sm`: the conditions under which `ParseUnverified` returns a
token and no error. -/
def Decoded (lib : JwtLib) (s p0 p1 p2 : String) (header claims : MapClaims) (alg : String)
    (sm : SigningMethod) : Prop :=
  Split s '.' = [p0, p1, p2] ∧ lib.decodeHeader p0 = some header ∧
  lib.decodeClaims p1 = some claims ∧ header.get "alg" = some (.str alg) ∧
  GetSigningMethod alg = some sm

/-- The token `ParseUnverified` builds from decoded segments. -/
def unverifiedToken (s : String) (header claims : MapClaims) (sm : SigningMethod) : Token :=
  { Raw := s, Method := some sm, Header := header, Claims := claims, Signature := "",
    Valid := false }


/-- What `ParseToken` does with the claims of a valid token: the type
assertions on `id` and `is_admin`. -/
def ParseToken.readClaims (claims : MapClaims) : Outcome (String × Bool × Option GoError) :=
  match claims.get claimsID with
  | some (.str userID) =>
    match claims.get isAdminClaims with
    | some (.bool isAdmin) => .ret (userID, isAdmin, none)
    | some _ => .panic "interface conversion: interface {} is not bool"
    | none => .ret (userID, false, none)
  | _ => .panic "interface conversion: interface {} is not string"

/-- What `ValidateRefreshToken` does with the claims of a valid token: the
second claims check, the type assertion on `id`, and `uuid.Parse`. -/
def ValidateRefreshToken.readClaims (claims : MapClaims) (now : Time) :
    Outcome (Option UUID × Option GoError) :=
  if (claims.Valid now).2 ≠ 0 then
    .ret (none, some (.ValidationError (claims.Valid now).1 (claims.Valid now).2))
  else
    match claims.get claimsID with
    | some (.str claimsUUID) =>
      match uuid.Parse claimsUUID with
      | none => .ret (none, some .ErrInvalidToken)
      | some parsedUUID => .ret (some parsedUUID, none)
    | _ => .panic "interface conversion: interface {} is not string"


/-- A token string put together from a header, a claims set and a signature
segment, as any client can send it. -/
def assemble (lib : JwtLib) (header claims : MapClaims) (sig : String) : String :=
  lib.encodeJSON header ++ "." ++ lib.encodeJSON claims ++ "." ++ sig

/-- A middleware configured with an RSA method and a byte-string key. -/
def rsaMiddleware : Middleware :=
  { jwt := { SigningAlgorithm := "RS256", Key := [115, 101, 99, 114, 101, 116] }
    env := testEnv
    app := oneUserApp }


/-- The header `jwt.NewWithClaims` gives a token of the method `alg`. -/
def jwtHeader (alg : String) : MapClaims := [("typ", .str "JWT"), ("alg", .str alg)]

/-- The claims `CreateToken` puts into the access token. -/
def CreateToken.accessClaims (clock : Nat → Time) (env : Env) (userID : String)
    (isAdmin : Bool) : MapClaims :=
  [ (claimsID, .str userID),
    (claimsExpiry, .num ((clock 0).Add (jwtAccessTokenExpiry env)).Unix),
    (claimsCreatedAt, .num (clock 1).Unix),
    (isAdminClaims, .bool isAdmin) ]

/-- The claims `CreateToken` puts into the refresh token. -/
def CreateToken.refreshClaims (clock : Nat → Time) (env : Env) (userID : String)
    (isAdmin : Bool) : MapClaims :=
  [ (claimsID, .str userID),
    (claimsExpiry, .num ((clock 2).Add (jwtRefreshTokenExpiry env)).Unix),
    (claimsCreatedAt, .num (clock 3).Unix),
    (isAdminClaims, .bool isAdmin) ]

/-- The signature segment an HMAC issuer puts under a header and a claims set. -/
def signatureOf (lib : JwtLib) (alg : String) (key : Key) (claims : MapClaims) : String :=
  lib.Sign alg key (lib.encodeJSON (jwtHeader alg) ++ "." ++ lib.encodeJSON claims)


/-! ## The handlers that read the caller from the context -/

/-- Go `Context.GetString`: the value under `key` when it is a string, the
empty string otherwise. -/
def Context.GetString (c : Context) (key : String) : String :=
  match c.Get key with
  | some (.str s) => s
  | _ => ""

/-- The handler `userHandler.me` of user.go up to its call of the application
layer: the identifier it reads from the context and asks the user for. -/
def userHandler.me.userID (c : Context) : String := c.GetString "userId"

/-- The handler `videoHandler.getMyVideos` of video.go up to its call of the
application layer: the UUID it reads from the context and asks the videos
for, the status of the response it writes instead, or the panic of the type
assertion `userID.(string)`. -/
def videoHandler.getMyVideos.userUUID (c : Context) : Outcome (Except Nat UUID) :=
  match c.Get UserIDInContext with
  | none => .ret (.error StatusUnauthorized)
  | some (.str userID) =>
    match uuid.Parse userID with
    | none => .ret (.error StatusBadRequest)
    | some userUUID => .ret (.ok userUUID)
  | some _ => .panic "interface conversion: interface {} is not string"

/-! ## bcrypt and password.go

A Go string is a sequence of bytes, and bcrypt reads the bytes: a `Password`
is the list of its bytes. The Blowfish part of bcrypt and the text form of a
hash are fields of `BcryptLib`; what the package does around them is
transcribed. -/

/-- The type `Password` of password.go, a Go string, as its bytes. -/
abbrev Password := List Nat

/-- The `hashed` struct of the bcrypt package, version `2a`: the digest, the
salt and the cost, the salt and the digest as raw bytes. -/
structure Hashed where
  hash : List Nat
  salt : List Nat
  cost : Int
  deriving DecidableEq, Repr

/-- The primitives of the bcrypt package. `rejectsLong` tells whether
`GenerateFromPassword` answers a password of more than 72 bytes with
`ErrPasswordTooLong`, as the later releases of the package do; `digest` is the
Blowfish part, on the 72 key bytes, the cost and the salt; `format` is
`hashed.Hash()`, the text of a hash, and `decode` is the parsing done by
`newFromHash`. -/
structure BcryptLib where
  rejectsLong : Bool
  digest : List Nat → Int → List Nat → List Nat
  format : Hashed → List Nat
  decode : List Nat → Option Hashed

def bcrypt.MinCost : Int := 4
def bcrypt.MaxCost : Int := 31
def bcrypt.DefaultCost : Int := 10
def bcrypt.maxSaltSize : Nat := 16
def bcrypt.minHashSize : Nat := 59

/-- The key bytes the Blowfish key schedule reads: bcrypt appends a zero byte
to the password, and the schedule reads 18 words of 4 bytes from the key,
starting over at its end. -/
def bcrypt.keyBytes (password : List Nat) : List Nat :=
  (List.range 72).map fun i => (password ++ [0]).getD (i % (password.length + 1)) 0

/-- The function `bcrypt` of the package: the digest of a password under a
cost and a salt. -/
def bcrypt (lib : BcryptLib) (password : List Nat) (cost : Int) (salt : List Nat) :
    List Nat :=
  lib.digest (bcrypt.keyBytes password) cost salt

/-- Go `bcrypt.GenerateFromPassword`; `rand` is what reading `maxSaltSize`
bytes from `rand.Reader` gives, `none` when the read fails. -/
def bcrypt.GenerateFromPassword (lib : BcryptLib) (rand : Option (List Nat))
    (password : List Nat) (cost : Int) : Except GoError (List Nat) :=
  if lib.rejectsLong = true ∧ password.length > 72 then
    .error (.other "bcrypt: password length exceeds 72 bytes")
  else
    let cost := if cost < bcrypt.MinCost then bcrypt.DefaultCost else cost
    if cost > bcrypt.MaxCost then .error (.other "crypto/bcrypt: cost outside allowed range")
    else
      match rand with
      | none => .error (.other "unexpected EOF")
      | some unencodedSalt =>
        .ok (lib.format
          { hash := bcrypt lib password cost unencodedSalt, salt := unencodedSalt,
            cost := cost })

/-- Go `bcrypt.CompareHashAndPassword`: `none` is a nil error. -/
def bcrypt.CompareHashAndPassword (lib : BcryptLib) (hashedPassword password : List Nat) :
    Option GoError :=
  if hashedPassword.length < bcrypt.minHashSize then
    some (.other "crypto/bcrypt: hashedSecret too short to be a bcrypted password")
  else
    match lib.decode hashedPassword with
    | none => some (.other "crypto/bcrypt: malformed hash")
    | some p =>
      let otherHash := bcrypt lib password p.cost p.salt
      let otherP : Hashed := { hash := otherHash, salt := p.salt, cost := p.cost }
      if lib.format p = lib.format otherP then none
      else some (.other "crypto/bcrypt: hashedPassword is not the hash of the given password")

/-- The method `Password.Hash` of password.go: the error of
`GenerateFromPassword` is dropped, and the nil slice it comes with makes the
empty string. -/
def Password.Hash (lib : BcryptLib) (rand : Option (List Nat)) (p : Password) : Password :=
  match bcrypt.GenerateFromPassword lib rand p 14 with
  | .ok bytes => bytes
  | .error _ => []

/-- The method `Password.Check` of password.go, on the hash `p`. -/
def Password.Check (lib : BcryptLib) (p : Password) (password : Password) : Bool :=
  (bcrypt.CompareHashAndPassword lib p password).isNone

/-- The text of a hash made of a 16 byte salt, a 23 byte digest and a cost in
range parses back to them, and is long enough to be taken for a hash. -/
def BcryptLib.RoundTrip (lib : BcryptLib) : Prop :=
  ∀ h : Hashed, h.salt.length = 16 → h.hash.length = 23 → 4 ≤ h.cost → h.cost ≤ 31 →
    lib.decode (lib.format h) = some h ∧ bcrypt.minHashSize ≤ (lib.format h).length

/-- A digest has 23 bytes. -/
def BcryptLib.DigestSize (lib : BcryptLib) : Prop :=
  ∀ key cost salt, (lib.digest key cost salt).length = 23

/-! ## A reference instance of the bcrypt primitives

A checksum for the digest and a fixed-width text of 60 bytes for the hash, in
the layout of bcrypt: `$2a$`, two cost digits, `$`, 22 bytes of salt, 31 bytes
of digest. -/

namespace RefBcrypt

/-- A 23 byte checksum of the key bytes, the cost and the salt. -/
def digest (key : List Nat) (cost : Int) (salt : List Nat) : List Nat :=
  let x := key.foldl (fun acc b => (acc * 31 + b) % 65521) cost.toNat
  let y := salt.foldl (fun acc b => (acc * 31 + b) % 65521) x
  (List.range 23).map fun i => (y + i * 7) % 256

/-- The text of a hash: the salt and the digest raw, filled up with zero bytes. -/
def format (h : Hashed) : List Nat :=
  [36, 50, 97, 36, 48 + h.cost.toNat / 10, 48 + h.cost.toNat % 10, 36] ++
    (h.salt ++ (List.replicate 6 0 ++ (h.hash ++ List.replicate 8 0)))

/-- The parsing of the text of a hash. -/
def decode (bytes : List Nat) : Option Hashed :=
  match bytes with
  | 36 :: 50 :: 97 :: 36 :: d1 :: d0 :: 36 :: rest =>
    if 48 ≤ d1 ∧ d1 ≤ 57 ∧ 48 ≤ d0 ∧ d0 ≤ 57 then
      some { hash := (rest.drop 22).take 23, salt := rest.take 16,
             cost := (((d1 - 48) * 10 + (d0 - 48) : Nat) : Int) }
    else none
  | _ => none

end RefBcrypt

/-- The reference instance of the bcrypt primitives. -/
def refBcrypt (rejectsLong : Bool) : BcryptLib :=
  { rejectsLong := rejectsLong
    digest := RefBcrypt.digest
    format := RefBcrypt.format
    decode := RefBcrypt.decode }

/-- A subject of 38 characters and 39 bytes: a brace, the text of an
identifier, and a letter of two bytes. -/
def braceID : String := "\x7b0a0b0c0d-0e0f-4a4b-8c8d-101112131415é"

/-- A salt of 16 bytes. -/
def testSalt : List Nat := [1, 2, 3, 4, 5, 6, 7, 8, 9, 10, 11, 12, 13, 14, 15, 16]

/-- An environment whose lifetimes, 153722868 minutes and 2562048 hours, are
one step past what an `int64` of nanoseconds holds. -/
def overflowEnv : Env :=
  { JWTAccessTokenExpiry := "153722868", JWTRefreshTokenExpiry := "2562048",
    JWTSigningSecret := "secret" }


/-! ## Go strings and the segments of a token -/

theorem HasPrefix_ne_empty {s : String} (h : HasPrefix s "Bearer " = true) : s.length ≠ 0 := by
  unfold HasPrefix at h
  intro h0
  have : s.data = [] := by
    cases s with | mk d => simpa [String.length] using h0
  rw [this] at h
  simp at h

theorem splitChars_ne_nil (sep : Char) (cs : List Char) : splitChars sep cs ≠ [] := by
  induction cs with
  | nil => simp [splitChars]
  | cons c cs ih =>
    unfold splitChars
    split
    · simp
    · split
      · simp
      · simp

theorem splitChars_cons_ne (sep c : Char) (cs : List Char) (h : c ≠ sep) :
    ∃ p ps, splitChars sep cs = p :: ps ∧ splitChars sep (c :: cs) = (c :: p) :: ps := by
  cases hs : splitChars sep cs with
  | nil => exact absurd hs (splitChars_ne_nil sep cs)
  | cons p ps =>
    refine ⟨p, ps, rfl, ?_⟩
    rw [splitChars, if_neg h, hs]

theorem splitChars_of_not_mem (sep : Char) (a : List Char) (h : sep ∉ a) :
    splitChars sep a = [a] := by
  induction a with
  | nil => rfl
  | cons c cs ih =>
    have hc : c ≠ sep := fun e => h (by simp [e])
    have hcs : sep ∉ cs := fun e => h (by simp [e])
    rw [splitChars, if_neg hc, ih hcs]

theorem splitChars_append (sep : Char) (a rest : List Char) (h : sep ∉ a) :
    splitChars sep (a ++ sep :: rest) = a :: splitChars sep rest := by
  induction a with
  | nil => simp [splitChars]
  | cons c cs ih =>
    have hc : c ≠ sep := fun e => h (by simp [e])
    have hcs : sep ∉ cs := fun e => h (by simp [e])
    rw [List.cons_append, splitChars, if_neg hc, ih hcs]

theorem Split_three (a b c : String) (ha : '.' ∉ a.data) (hb : '.' ∉ b.data)
    (hc : '.' ∉ c.data) : Split (a ++ "." ++ b ++ "." ++ c) '.' = [a, b, c] := by
  unfold Split
  have : (a ++ "." ++ b ++ "." ++ c).data = a.data ++ '.' :: (b.data ++ '.' :: c.data) := by
    simp [String.data_append]
  rw [this, splitChars_append _ _ _ ha, splitChars_append _ _ _ hb, splitChars_of_not_mem _ _ hc]
  rfl

/-- The first segment of a string that starts with `Bearer ` has a blank. -/
theorem Split_bearer (s : String) (h : HasPrefix s "Bearer " = true) :
    ∃ p ps, Split s '.' = p :: ps ∧ ' ' ∈ p.data := by
  unfold HasPrefix at h
  obtain ⟨rest, hr⟩ := List.isPrefixOf_iff_prefix.mp h
  obtain ⟨p, ps, h0, h1⟩ := splitChars_cons_ne '.' ' ' rest (by decide)
  obtain ⟨_, _, h2, h3⟩ := splitChars_cons_ne '.' 'r' (' ' :: rest) (by decide)
  obtain ⟨_, _, h4, h5⟩ := splitChars_cons_ne '.' 'e' ('r' :: ' ' :: rest) (by decide)
  obtain ⟨_, _, h6, h7⟩ := splitChars_cons_ne '.' 'r' ('e' :: 'r' :: ' ' :: rest) (by decide)
  obtain ⟨_, _, h8, h9⟩ := splitChars_cons_ne '.' 'a' ('r' :: 'e' :: 'r' :: ' ' :: rest) (by decide)
  obtain ⟨_, _, h10, h11⟩ :=
    splitChars_cons_ne '.' 'e' ('a' :: 'r' :: 'e' :: 'r' :: ' ' :: rest) (by decide)
  obtain ⟨_, _, h12, h13⟩ :=
    splitChars_cons_ne '.' 'B' ('e' :: 'a' :: 'r' :: 'e' :: 'r' :: ' ' :: rest) (by decide)
  rw [h1] at h2; cases h2
  rw [h3] at h4; cases h4
  rw [h5] at h6; cases h6
  rw [h7] at h8; cases h8
  rw [h9] at h10; cases h10
  rw [h11] at h12; cases h12
  refine ⟨String.mk ('B' :: 'e' :: 'a' :: 'r' :: 'e' :: 'r' :: ' ' :: p), ps.map String.mk, ?_, ?_⟩
  · unfold Split
    rw [← hr]
    show List.map String.mk (splitChars '.' ('B' :: 'e' :: 'a' :: 'r' :: 'e' :: 'r' :: ' ' :: rest)) = _
    rw [h13]; rfl
  · simp

theorem ParseToken_bearer (lib : JwtLib) (hb : lib.RejectsBlank) (m : Middleware) (now : Time)
    (env : Env) (s : String) (h : HasPrefix s "Bearer " = true) :
    ∃ e, ParseToken lib m now env s = .ret ("", false, some e) := by
  obtain ⟨p, ps, hs, hp⟩ := Split_bearer s h
  have hd := hb p hp
  unfold ParseToken Parse ParseUnverified
  simp only [hs]
  match ps with
  | [] => exact ⟨_, rfl⟩
  | [_] => exact ⟨_, rfl⟩
  | [p1, p2] =>
    simp only [hd]
    by_cases hl : HasPrefix (ToLower s) "bearer " = true
    · simp only [hl, if_true]
      exact ⟨_, rfl⟩
    · simp only [hl, if_false]
      exact ⟨_, rfl⟩
  | _ :: _ :: _ :: _ => exact ⟨_, rfl⟩

/-! ## The reference instance has the properties of the wire primitives -/

namespace Ref

theorem decStr_encStr (s rest : List Char) : decStr (encStr s ++ rest) = some (s, rest) := by
  induction s with
  | nil => simp [encStr, decStr]
  | cons c cs ih =>
    unfold encStr escChar
    split
    · rename_i h; subst h
      simp [decStr, unescChar, ih]
    · split
      · rename_i h1 h; subst h
        simp [decStr, unescChar, ih]
      · split
        · rename_i h1 h2 h; subst h
          simp [decStr, unescChar, ih]
        · rename_i h1 h2 h3
          show decStr (c :: (encStr cs ++ rest)) = some (c :: cs, rest)
          rw [decStr.eq_def]
          simp only [h1, if_false]
          rw [ih]

theorem bitsNat_natBits (f n : Nat) (h : n ≤ f) : bitsNat (natBits f n) = some n := by
  induction f generalizing n with
  | zero =>
    have : n = 0 := by omega
    subst this; rfl
  | succ f ih =>
    unfold natBits
    split
    · rename_i h0; subst h0; rfl
    · rename_i h0
      have hle : n / 2 ≤ f := by omega
      simp only [bitsNat, ih _ hle]
      split
      · rename_i h1
        simp only [if_true]
        congr 1; omega
      · rename_i h1
        have : ('0' : Char) ≠ '1' := by decide
        simp only [this, if_false, if_true]
        congr 1; omega

theorem decInt_encInt (n : Int) : decInt (encInt n) = some n := by
  unfold encInt decInt
  simp only [bitsNat_natBits _ _ (le_refl _)]
  split
  · rename_i h
    have : ('m' : Char) ≠ 'p' := by decide
    simp only [this, if_false, if_true]
    congr 1; omega
  · rename_i h
    simp only [if_true]
    congr 1; omega

theorem decVal_encVal (v : JVal) (rest : List Char) :
    decVal (encVal v ++ rest) = some (v, rest) := by
  cases v with
  | str s => simp [encVal, decVal, decStr_encStr]
  | num n => simp [encVal, decVal, decStr_encStr, decInt_encInt]
  | bool b => cases b <;> simp [encVal, decVal]
  | null => simp [encVal, decVal]
  | composite => simp [encVal, decVal]

theorem decEntries_encEntries (m : MapClaims) (f : Nat) (h : m.length < f) :
    decEntries f (encEntries m) = some m := by
  induction m generalizing f with
  | nil =>
    cases f with
    | zero => omega
    | succ f => simp [encEntries, decEntries]
  | cons kv m ih =>
    obtain ⟨k, v⟩ := kv
    cases f with
    | zero => omega
    | succ f =>
      have hf : m.length < f := by simpa using h
      simp [encEntries, decEntries, decStr_encStr, decVal_encVal, ih f hf]

theorem length_lt_encEntries (m : MapClaims) : m.length < (encEntries m).length := by
  induction m with
  | nil => simp [encEntries]
  | cons kv m ih =>
    obtain ⟨k, v⟩ := kv
    simp only [encEntries, List.length_cons, List.length_append]
    omega

theorem escChar_clean (c x : Char) (h : x ∈ escChar c) : x ≠ ' ' ∧ x ≠ '.' := by
  unfold escChar at h
  split at h
  · simp only [List.mem_cons, List.mem_singleton, List.not_mem_nil, or_false] at h
    rcases h with h | h <;> subst h <;> decide
  · split at h
    · simp only [List.mem_cons, List.mem_singleton, List.not_mem_nil, or_false] at h
      rcases h with h | h <;> subst h <;> decide
    · split at h
      · simp only [List.mem_cons, List.mem_singleton, List.not_mem_nil, or_false] at h
        rcases h with h | h <;> subst h <;> decide
      · rename_i h1 h2 h3
        simp only [List.mem_cons, List.mem_singleton, List.not_mem_nil, or_false] at h
        subst h
        exact ⟨h3, h2⟩

theorem encStr_clean (s : List Char) (x : Char) (h : x ∈ encStr s) : x ≠ ' ' ∧ x ≠ '.' := by
  induction s with
  | nil =>
    simp only [encStr, List.mem_cons, List.mem_singleton, List.not_mem_nil, or_false] at h
    rcases h with h | h <;> subst h <;> decide
  | cons c cs ih =>
    simp only [encStr, List.mem_append] at h
    rcases h with h | h
    · exact escChar_clean c x h
    · exact ih h

theorem natBits_clean (f n : Nat) (x : Char) (h : x ∈ natBits f n) : x ≠ ' ' ∧ x ≠ '.' := by
  induction f generalizing n with
  | zero => simp [natBits] at h
  | succ f ih =>
    unfold natBits at h
    split at h
    · simp at h
    · simp only [List.mem_cons] at h
      rcases h with h | h
      · split at h <;> subst h <;> decide
      · exact ih _ h

theorem encVal_clean (v : JVal) (x : Char) (h : x ∈ encVal v) : x ≠ ' ' ∧ x ≠ '.' := by
  cases v with
  | str s =>
    simp only [encVal, List.mem_cons] at h
    rcases h with h | h
    · subst h; decide
    · exact encStr_clean _ x h
  | num n =>
    simp only [encVal, List.mem_cons] at h
    rcases h with h | h
    · subst h; decide
    · exact encStr_clean _ x h
  | bool b =>
    cases b <;> simp [encVal] at h <;> rcases h with h | h <;> subst h <;> decide
  | null => simp [encVal] at h; subst h; decide
  | composite => simp [encVal] at h; subst h; decide

theorem encEntries_clean (m : MapClaims) (x : Char) (h : x ∈ encEntries m) :
    x ≠ ' ' ∧ x ≠ '.' := by
  induction m with
  | nil => simp [encEntries] at h; subst h; decide
  | cons kv m ih =>
    obtain ⟨k, v⟩ := kv
    simp only [encEntries, List.mem_cons, List.mem_append] at h
    rcases h with h | h | h | h
    · subst h; decide
    · exact encStr_clean _ x h
    · exact encVal_clean _ x h
    · exact ih h

theorem decodeJSON_encodeJSON (m : MapClaims) : decodeJSON (encodeJSON m) = some m := by
  unfold decodeJSON encodeJSON
  have hb : ¬ (' ' ∈ encEntries m) := fun h => (encEntries_clean m ' ' h).1 rfl
  simp only [hb, if_false]
  exact decEntries_encEntries m _ (length_lt_encEntries m)

end Ref

theorem refLib_RoundTrip : refLib.RoundTrip := by
  intro m
  exact ⟨⟨m, Ref.decodeJSON_encodeJSON m, fun _ => rfl⟩, ⟨m, Ref.decodeJSON_encodeJSON m, fun _ => rfl⟩⟩

theorem refLib_DotFree : refLib.DotFree := by
  constructor
  · intro m h
    exact (Ref.encEntries_clean m '.' h).2 rfl
  · intro alg key sstr h
    exact (Ref.natBits_clean _ _ '.' h).2 rfl

theorem refLib_SignVerify : refLib.SignVerify := by
  intro alg key sstr
  simp [refLib, Ref.Verify]

theorem refLib_RejectsBlank : refLib.RejectsBlank := by
  intro s h
  simp [refLib, Ref.decodeJSON, h]

/-! ## The decoder on an issued token -/

/-- The named algorithm is one of the HMAC family. -/
theorem GetSigningMethod_hmac (alg : String)
    (halg : alg = "HS256" ∨ alg = "HS384" ∨ alg = "HS512") :
    GetSigningMethod alg = some (.HMAC alg) := by
  unfold GetSigningMethod
  rw [if_pos halg]

/-- The second count `Time.Unix` gives is an `int64`, which the conversion of
a claim leaves as it is. -/
theorem int64OfFloat_Unix (t : Time) : int64OfFloat t.Unix = t.Unix := by
  unfold int64OfFloat Time.Unix
  rw [if_pos (by omega)]

/-- `Time.Unix` does not decrease with time. -/
theorem Unix_mono {s t : Time} (h : s ≤ t) : s.Unix ≤ t.Unix := by
  unfold Time.Unix
  have h1 : @LE.le Int _ s t := h
  omega

/-- The claims check of a set with a numeric `exp` and neither `iat` nor `nbf`
is the expiry check alone. -/
theorem Valid_exp_only (c : MapClaims) (exp : Int) (now : Time)
    (hexp : c.get "exp" = some (.num exp)) (hiat : c.get "iat" = none)
    (hnbf : c.get "nbf" = none) :
    c.Valid now = if verifyExp (int64OfFloat exp) now.Unix false then ("", 0)
      else ("Token is expired", ValidationErrorExpired) := by
  unfold MapClaims.Valid MapClaims.VerifyExpiresAt MapClaims.VerifyIssuedAt
    MapClaims.VerifyNotBefore
  simp only [hexp, hiat, hnbf]
  cases verifyExp (int64OfFloat exp) now.Unix false <;> simp [ValidationErrorExpired]

/-- What `ParseToken` returns on the signed string of a claims set that has a
string `id`, a boolean `is_admin`, a numeric `exp` and neither `iat` nor
`nbf`: the claims while `exp` holds, the expiry error after. -/
theorem ParseToken_signed (lib : JwtLib) (hrt : lib.RoundTrip) (hdf : lib.DotFree)
    (hsv : lib.SignVerify) (m : Middleware)
    (halg : m.jwt.SigningAlgorithm = "HS256" ∨ m.jwt.SigningAlgorithm = "HS384" ∨
      m.jwt.SigningAlgorithm = "HS512")
    (claims : MapClaims) (u : String) (a : Bool) (exp : Int)
    (hid : claims.get claimsID = some (.str u))
    (hadm : claims.get isAdminClaims = some (.bool a))
    (hexp : claims.get "exp" = some (.num exp))
    (hiat : claims.get "iat" = none) (hnbf : claims.get "nbf" = none) :
    ∃ tok s, NewWithClaims (GetSigningMethod m.jwt.SigningAlgorithm) claims = .ret tok ∧
      tok.SignedString lib m.jwt.Key = .ok s ∧
      ∀ (now : Time) (env : Env), ParseToken lib m now env s =
        if verifyExp (int64OfFloat exp) now.Unix false then .ret (u, a, none)
        else .ret ("", false, some (.ValidationError "Token is expired" ValidationErrorExpired)) := by
  rw [GetSigningMethod_hmac _ halg]
  refine ⟨_, _, rfl, rfl, ?_⟩
  intro now env
  simp only [Token.SigningString, SigningMethod.Alg]
  obtain ⟨⟨h', hh, hhk⟩, _⟩ := hrt [("typ", .str "JWT"), ("alg", .str m.jwt.SigningAlgorithm)]
  obtain ⟨_, ⟨c', hc, hck⟩⟩ := hrt claims
  have hsplit := Split_three (lib.encodeJSON [("typ", .str "JWT"), ("alg", .str m.jwt.SigningAlgorithm)])
    (lib.encodeJSON claims)
    (lib.Sign m.jwt.SigningAlgorithm m.jwt.Key
      (lib.encodeJSON [("typ", .str "JWT"), ("alg", .str m.jwt.SigningAlgorithm)] ++ "." ++
        lib.encodeJSON claims))
    (hdf.1 _) (hdf.1 _) (hdf.2 _ _ _)
  have halg' : h'.get "alg" = some (.str m.jwt.SigningAlgorithm) := by
    rw [hhk]; simp [MapClaims.get, List.lookup]
  unfold ParseToken Parse ParseUnverified
  simp only [hsplit, hh, hc, halg', GetSigningMethod_hmac _ halg, ParseToken.keyFunc,
    List.getD_cons_zero, List.getD_cons_succ, SigningMethod.Verify, hsv _ _ _, if_true]
  rw [Valid_exp_only c' exp now (by rw [hck, hexp]) (by rw [hck, hiat]) (by rw [hck, hnbf])]
  cases hv : verifyExp (int64OfFloat exp) now.Unix false
  · simp [ValidationErrorExpired]
  · simp only [if_true, hck, hid, hadm]

/-! ## The gate -/

theorem Context.Header_written (c : Context) (k v : String) :
    (c.Header k v).written = c.written := by
  unfold Context.Header; split <;> rfl

theorem Context.Header_Keys (c : Context) (k v : String) :
    (c.Header k v).Keys = c.Keys := by
  unfold Context.Header; split <;> rfl

theorem Sprint_ne_empty (b : Bool) : Sprint b ≠ "" := by
  cases b <;> simp [Sprint]

/-- A gate that reaches its final `c.Next()` went through every check. -/
theorem gate_admit_inv (lib : JwtLib) (m : Middleware) (now : Time) (onlyAdmin : Bool)
    (c : Context)
    (h : (Middleware.AuthMiddleware.gate lib m now onlyAdmin c).2 = true) :
    HasPrefix c.Authorization "Bearer " = true ∧
    ∃ userID isAdmin uID user,
      ParseToken lib m now m.env (TrimPrefix c.Authorization "Bearer ")
        = .ret (userID, isAdmin, none) ∧
      uuid.Parse userID = some uID ∧
      m.app uID = .ok user ∧
      EqualFold user.ID.String ZeroUUID = false ∧
      (onlyAdmin && !user.IsAdmin) = false := by
  unfold Middleware.AuthMiddleware.gate at h
  simp only at h
  split at h
  · simp [ErrorResponse] at h
  split at h
  · simp [ErrorResponse] at h
  rename_i h1 h2
  split at h
  · simp [Context.fault] at h
  · simp [ErrorResponse] at h
  rename_i userID isAdmin hp
  split at h
  · simp [ErrorResponse] at h
  rename_i uID hu
  split at h
  · simp [ErrorResponse] at h
  rename_i user hl
  split at h
  · simp [ErrorResponse] at h
  rename_i hz
  split at h
  · simp [ErrorResponse] at h
  rename_i ha
  exact ⟨by simpa using h2, userID, isAdmin, uID, user, hp, hu, hl, by simpa using hz,
    by simpa using ha⟩

/-- A gate that neither admits nor panics has written one rejection through
`ErrorResponse`, on a context that differs from the incoming one only by the
calls recorded in the trace. -/
theorem gate_reject_inv (lib : JwtLib) (m : Middleware) (now : Time) (onlyAdmin : Bool)
    (c : Context)
    (hrej : (Middleware.AuthMiddleware.gate lib m now onlyAdmin c).2 = false)
    (hnp : (Middleware.AuthMiddleware.gate lib m now onlyAdmin c).1.panicked = false) :
    ∃ c1 status d,
      (status = StatusBadRequest ∨ status = StatusUnauthorized ∨ status = StatusForbidden ∨
        status = StatusNotFound) ∧
      (Middleware.AuthMiddleware.gate lib m now onlyAdmin c).1 = ErrorResponse c1 status d ∧
      c1.written = c.written ∧ c1.handlersRun = c.handlersRun ∧ c1.panicked = false := by
  unfold Middleware.AuthMiddleware.gate at hrej hnp ⊢
  simp only at hrej hnp ⊢
  split
  · rename_i h1
    simp only [h1, if_true] at hnp
    exact ⟨c, _, _, Or.inr (Or.inl rfl), rfl, rfl, rfl, by simpa [ErrorResponse] using hnp⟩
  rename_i h1
  simp only [h1, if_false] at hnp hrej
  split
  · rename_i h2
    simp only [h2, if_true] at hnp
    exact ⟨c, _, _, Or.inr (Or.inl rfl), rfl, rfl, rfl, by simpa [ErrorResponse] using hnp⟩
  rename_i h2
  simp only [h2, if_false] at hnp hrej
  split
  · rename_i hp
    simp [hp, Context.fault] at hnp
  · rename_i hp
    simp only [hp] at hnp
    exact ⟨_, _, _, Or.inr (Or.inl rfl), rfl, by simp [Context.record],
      by simp [Context.record, Context.handlersRun, List.filterMap_append],
      by simpa [ErrorResponse, Context.record] using hnp⟩
  rename_i userID isAdmin hp
  simp only [hp] at hnp hrej
  split
  · rename_i hu
    simp only [hu] at hnp
    exact ⟨_, _, _, Or.inl rfl, rfl, by simp [Context.record],
      by simp [Context.record, Context.handlersRun, List.filterMap_append],
      by simpa [ErrorResponse, Context.record] using hnp⟩
  rename_i uID hu
  simp only [hu] at hnp hrej
  split
  · rename_i hl
    simp only [hl] at hnp
    exact ⟨_, _, _, Or.inr (Or.inr (Or.inr rfl)), rfl, by simp [Context.record],
      by simp [Context.record, Context.handlersRun, List.filterMap_append],
      by simpa [ErrorResponse, Context.record] using hnp⟩
  rename_i user hl
  simp only [hl] at hnp hrej
  split
  · rename_i hz
    simp only [hz, if_true] at hnp
    exact ⟨_, _, _, Or.inr (Or.inr (Or.inr rfl)), rfl, by simp [Context.record],
      by simp [Context.record, Context.handlersRun, List.filterMap_append],
      by simpa [ErrorResponse, Context.record] using hnp⟩
  rename_i hz
  simp only [hz] at hnp hrej
  split
  · rename_i ha
    simp only [ha, if_true] at hnp
    exact ⟨_, _, _, Or.inr (Or.inr (Or.inl rfl)), rfl, by simp [Context.record],
      by simp [Context.record, Context.handlersRun, List.filterMap_append],
      by simpa [ErrorResponse, Context.record] using hnp⟩
  · rename_i ha
    simp [ha] at hrej

theorem nextLoop_stop (hs : List HandlerFunc) (next : Context → Context) (k : Nat)
    (c : Context) (h : ¬ (0 ≤ c.index ∧ c.index < hs.length)) : nextLoop hs next k c = c := by
  cases k with
  | zero => rfl
  | succ k =>
    rw [nextLoop]
    split <;> rfl

theorem serve_cons (h : HandlerFunc) (rest : List HandlerFunc) (c : Context)
    (hc : c.panicked = false) :
    serve (h :: rest) c =
      (let c1 := h (Context.Next (h :: rest) (rest.length + 1)) (routerEntry c)
       if c1.panicked then c1
       else nextLoop (h :: rest) (Context.Next (h :: rest) (rest.length + 1)) (rest.length + 1)
          { c1 with index := c1.index + 1 }) := by
  have h1 : serve (h :: rest) c
      = nextLoop (h :: rest) (Context.Next (h :: rest) (rest.length + 1)) (rest.length + 1 + 1)
          { c with index := 0 } := rfl
  have hidx : (0 : Int) ≤ 0 ∧ (0 : Int) < (((h :: rest).length : Nat) : Int) := by
    constructor
    · omega
    · simp only [List.length_cons]; omega
  rw [h1, nextLoop]
  simp only [hc, hidx, Bool.false_eq_true, if_false, and_self, if_true, Int.toNat_zero,
    List.get?_cons_zero, routerEntry]

/-- A route whose gate rejects ends in the context the gate left, one past the
abort index, whatever handlers follow the gate. -/
theorem serve_of_reject (lib : JwtLib) (m : Middleware) (now : Time) (onlyAdmin : Bool)
    (rest : List HandlerFunc) (c : Context)
    (hlen : ((rest.length + 1 : Nat) : Int) < abortIndex)
    (hc : c.panicked = false)
    (hrej : (Middleware.AuthMiddleware.gate lib m now onlyAdmin (routerEntry c)).2 = false)
    (c1 : Context) (status : Nat) (d : ErrorData)
    (hg : (Middleware.AuthMiddleware.gate lib m now onlyAdmin (routerEntry c)).1
      = ErrorResponse c1 status d)
    (hp : c1.panicked = false) :
    serve (Middleware.AuthMiddleware lib m now onlyAdmin :: rest) c
      = { ErrorResponse c1 status d with index := abortIndex + 1 } := by
  rw [serve_cons _ _ _ hc]
  have ha : Middleware.AuthMiddleware lib m now onlyAdmin
      (Context.Next (Middleware.AuthMiddleware lib m now onlyAdmin :: rest) (rest.length + 1))
      (routerEntry c) = ErrorResponse c1 status d := by
    unfold Middleware.AuthMiddleware
    rw [← hg]
    split
    · rename_i heq
      rw [heq] at hrej
      simp at hrej
    · rename_i heq
      rw [heq]
  simp only [ha]
  have hp1 : (ErrorResponse c1 status d).panicked = false := by simpa [ErrorResponse] using hp
  simp only [hp1]
  rw [nextLoop_stop]
  · rfl
  · simp only [ErrorResponse, List.length_cons]
    unfold abortIndex at hlen ⊢
    omega

/-! ## The claims -/

set_option maxRecDepth 100000

theorem TrimPrefix_append (p t : String) : TrimPrefix (p ++ t) p = t := by
  unfold TrimPrefix HasPrefix
  have h : p.data.isPrefixOf (p ++ t).data = true := by
    rw [List.isPrefixOf_iff_prefix, String.data_append]
    exact List.prefix_append _ _
  rw [if_pos h]
  simp [String.data_append]

theorem HasPrefix_append (p t : String) : HasPrefix (p ++ t) p = true := by
  unfold HasPrefix
  rw [List.isPrefixOf_iff_prefix, String.data_append]
  exact List.prefix_append _ _

theorem Context.Header_trace (c : Context) (k v : String) :
    (c.Header k v).trace = c.trace := by
  unfold Context.Header; split <;> rfl

/-- The gate of middleware.go hands the decoder the header without its
`Bearer ` prefix. -/
theorem Middleware_gate_decodes_stripped (lib : JwtLib) (m : Middleware) (now : Time)
    (onlyAdmin : Bool) (c : Context) (t : String) (h : c.Authorization = "Bearer " ++ t) :
    ∃ evs, (Middleware.AuthMiddleware.gate lib m now onlyAdmin c).1.trace
      = c.trace ++ Event.ParseToken t :: evs := by
  have hpre : HasPrefix c.Authorization "Bearer " = true := by rw [h]; exact HasPrefix_append _ _
  have htrim : TrimPrefix c.Authorization "Bearer " = t := by rw [h]; exact TrimPrefix_append _ _
  unfold Middleware.AuthMiddleware.gate
  simp only [HasPrefix_ne_empty hpre, hpre, htrim, Bool.not_true, Bool.false_eq_true, if_false]
  split
  · exact ⟨[], by simp [Context.fault, Context.record]⟩
  · exact ⟨[], by simp [ErrorResponse, Context.record]⟩
  · split
    · exact ⟨[], by simp [ErrorResponse, Context.record]⟩
    · split
      · rename_i uID _ _ _ _
        exact ⟨[.GetUserByID uID], by simp [ErrorResponse, Context.record]⟩
      · rename_i uID _ _ _ _
        split
        · exact ⟨[.GetUserByID uID], by simp [ErrorResponse, Context.record]⟩
        · split
          · exact ⟨[.GetUserByID uID], by simp [ErrorResponse, Context.record]⟩
          · exact ⟨[.GetUserByID uID],
              by simp [Context.Header_trace, Context.Set, Context.record]⟩

/-- The gate of rest_auth.go hands the decoder the whole header, prefix
included. -/
theorem Rest_gate_decodes_whole_header (lib : JwtLib) (m : RestAuthMiddleware) (now : Time)
    (onlyAdmin : Bool) (c : Context) (t : String) (h : c.Authorization = "Bearer " ++ t) :
    ∃ evs, (RestAuthMiddleware.AuthMiddleware.gate lib m now onlyAdmin c).1.trace
      = c.trace ++ Event.ParseToken ("Bearer " ++ t) :: evs := by
  have hpre : HasPrefix c.Authorization "Bearer " = true := by rw [h]; exact HasPrefix_append _ _
  unfold RestAuthMiddleware.AuthMiddleware.gate
  simp only [HasPrefix_ne_empty hpre, hpre, Bool.not_true, Bool.false_eq_true, if_false]
  rw [← h]
  split
  · exact ⟨[], by simp [Context.fault, Context.record]⟩
  · exact ⟨[], by simp [ErrorResponse, Context.record]⟩
  · split
    · exact ⟨[], by simp [ErrorResponse, Context.record]⟩
    · split
      · rename_i uID _ _ _ _
        exact ⟨[.GetUserByID uID], by simp [ErrorResponse, Context.record]⟩
      · rename_i uID _ _ _ _
        split
        · exact ⟨[.GetUserByID uID], by simp [ErrorResponse, Context.record]⟩
        · split
          · exact ⟨[.GetUserByID uID], by simp [ErrorResponse, Context.record]⟩
          · exact ⟨[.GetUserByID uID],
              by simp [Context.Header_trace, Context.Set, Context.record]⟩

/-- The gate of rest_auth.go admits no request: a header that passes its
prefix check is handed whole to the decoder, which rejects the blank. -/
theorem Rest_gate_never_admits (lib : JwtLib) (hb : lib.RejectsBlank) (m : RestAuthMiddleware)
    (now : Time) (onlyAdmin : Bool) (c : Context) :
    (RestAuthMiddleware.AuthMiddleware.gate lib m now onlyAdmin c).2 = false := by
  unfold RestAuthMiddleware.AuthMiddleware.gate
  simp only
  split
  · rfl
  · split
    · rfl
    · rename_i h1 h2
      have hpre : HasPrefix c.Authorization "Bearer " = true := by simpa using h2
      obtain ⟨e, he⟩ := ParseToken_bearer lib hb m.middleware now m.middleware.env _ hpre
      simp only [he]

/-- `CreateToken` returns the two signed strings of its two claims sets when
both are made. -/
theorem CreateToken_signed (lib : JwtLib) (m : Middleware)
    (clock : Nat → Time) (env : Env) (u : String) (a : Bool)
    (tokA tokR : Token) (sA sR : String)
    (hA : NewWithClaims (GetSigningMethod m.jwt.SigningAlgorithm)
      [ (claimsID, .str u),
        (claimsExpiry, .num ((clock 0).Add (jwtAccessTokenExpiry env)).Unix),
        (claimsCreatedAt, .num (clock 1).Unix),
        (isAdminClaims, .bool a) ] = .ret tokA)
    (hsA : tokA.SignedString lib m.jwt.Key = .ok sA)
    (hR : NewWithClaims (GetSigningMethod m.jwt.SigningAlgorithm)
      [ (claimsID, .str u),
        (claimsExpiry, .num ((clock 2).Add (jwtRefreshTokenExpiry env)).Unix),
        (claimsCreatedAt, .num (clock 3).Unix),
        (isAdminClaims, .bool a) ] = .ret tokR)
    (hsR : tokR.SignedString lib m.jwt.Key = .ok sR) :
    CreateToken lib m clock env u a = .ret (.ok
      { AccessToken := sA, RefreshToken := sR,
        AccessTokenExpiry := (clock 4).Add (jwtAccessTokenExpiry env),
        RefreshTokenExpiry := (clock 5).Add (jwtRefreshTokenExpiry env) }) := by
  unfold CreateToken
  simp only [hA, hsA, hR, hsR]

/-- The decoder on the two tokens of an issued pair: each yields the subject
and the flag while its `exp` holds and the expiry error after. -/
theorem ParseToken_issued (lib : JwtLib) (hrt : lib.RoundTrip) (hdf : lib.DotFree)
    (hsv : lib.SignVerify) (m : Middleware)
    (halg : m.jwt.SigningAlgorithm = "HS256" ∨ m.jwt.SigningAlgorithm = "HS384" ∨
      m.jwt.SigningAlgorithm = "HS512")
    (clock : Nat → Time) (env : Env) (u : String) (a : Bool) :
    ∃ t, CreateToken lib m clock env u a = .ret (.ok t) ∧
      ∀ (now : Time) (env1 : Env),
        (ParseToken lib m now env1 t.AccessToken =
          if verifyExp ((clock 0).Add (jwtAccessTokenExpiry env)).Unix now.Unix false
          then .ret (u, a, none)
          else .ret ("", false,
            some (.ValidationError "Token is expired" ValidationErrorExpired))) ∧
        (ParseToken lib m now env1 t.RefreshToken =
          if verifyExp ((clock 2).Add (jwtRefreshTokenExpiry env)).Unix now.Unix false
          then .ret (u, a, none)
          else .ret ("", false,
            some (.ValidationError "Token is expired" ValidationErrorExpired))) := by
  obtain ⟨tokA, sA, hA, hsA, hpA⟩ := ParseToken_signed lib hrt hdf hsv m halg
    [ (claimsID, .str u),
      (claimsExpiry, .num ((clock 0).Add (jwtAccessTokenExpiry env)).Unix),
      (claimsCreatedAt, .num (clock 1).Unix),
      (isAdminClaims, .bool a) ] u a ((clock 0).Add (jwtAccessTokenExpiry env)).Unix
    rfl rfl rfl rfl rfl
  obtain ⟨tokR, sR, hR, hsR, hpR⟩ := ParseToken_signed lib hrt hdf hsv m halg
    [ (claimsID, .str u),
      (claimsExpiry, .num ((clock 2).Add (jwtRefreshTokenExpiry env)).Unix),
      (claimsCreatedAt, .num (clock 3).Unix),
      (isAdminClaims, .bool a) ] u a ((clock 2).Add (jwtRefreshTokenExpiry env)).Unix
    rfl rfl rfl rfl rfl
  refine ⟨_, CreateToken_signed lib m clock env u a tokA tokR sA sR hA hsA hR hsR, ?_⟩
  intro now env1
  have eA := hpA now env1
  have eR := hpR now env1
  rw [int64OfFloat_Unix] at eA eR
  exact ⟨eA, eR⟩

/-- C1 (gate soundness): for every request, every `onlyAdmin` flag and every
user lookup, if `AuthMiddleware` reaches its final `c.Next()` then the
`Authorization` header started with `Bearer `, `ParseToken` returned a nil
error on the stripped token, the returned subject parsed as a UUID,
`GetUserByID` returned without error a user whose ID is not the zero UUID, and
`onlyAdmin` is false or that user's `IsAdmin` is true. -/
theorem gate_soundness (lib : JwtLib) (m : Middleware) (now : Time) (onlyAdmin : Bool)
    (c : Context)
    (h : (Middleware.AuthMiddleware.gate lib m now onlyAdmin c).2 = true) :
    HasPrefix c.Authorization "Bearer " = true ∧
    ∃ userID isAdmin uID user,
      ParseToken lib m now m.env (TrimPrefix c.Authorization "Bearer ")
        = .ret (userID, isAdmin, none) ∧
      uuid.Parse userID = some uID ∧
      m.app uID = .ok user ∧
      EqualFold user.ID.String ZeroUUID = false ∧
      (onlyAdmin = false ∨ user.IsAdmin = true) := by
  obtain ⟨hpre, userID, isAdmin, uID, user, hp, hu, hl, hz, ha⟩ :=
    gate_admit_inv lib m now onlyAdmin c h
  refine ⟨hpre, userID, isAdmin, uID, user, hp, hu, hl, hz, ?_⟩
  cases onlyAdmin <;> cases hia : user.IsAdmin <;> simp_all

/-- Witness of `gate_soundness`: the request that carries the token issued to
the stored principal is admitted on an ordinary route. -/
theorem gate_soundness_witness :
    (Middleware.AuthMiddleware.gate refLib testMiddleware testNow false
        (request (bearerOf aliceID true))).2 = true ∧
    HasPrefix (request (bearerOf aliceID true)).Authorization "Bearer " = true ∧
    ∃ userID isAdmin uID user,
      ParseToken refLib testMiddleware testNow testMiddleware.env
          (TrimPrefix (request (bearerOf aliceID true)).Authorization "Bearer ")
        = .ret (userID, isAdmin, none) ∧
      uuid.Parse userID = some uID ∧
      testMiddleware.app uID = .ok user ∧
      EqualFold user.ID.String ZeroUUID = false ∧
      ((false : Bool) = false ∨ user.IsAdmin = true) :=
  ⟨by decide,
   gate_soundness refLib testMiddleware testNow false (request (bearerOf aliceID true))
     (by decide)⟩

/-- C2 (header enforcement): for either value of `onlyAdmin`, when the
`Authorization` header is absent or empty, or does not start with `Bearer `,
or is `Bearer ` followed by a string on which `ParseToken` returns an error,
`AuthMiddleware` returns before `c.Next()` having written a 401 response, and
the user lookup is not called. -/
theorem header_enforcement (lib : JwtLib) (m : Middleware) (now : Time) (onlyAdmin : Bool)
    (c : Context)
    (h : c.Authorization = "" ∨ HasPrefix c.Authorization "Bearer " = false ∨
      ∃ u a e, ParseToken lib m now m.env (TrimPrefix c.Authorization "Bearer ")
        = .ret (u, a, some e)) :
    (Middleware.AuthMiddleware.gate lib m now onlyAdmin c).2 = false ∧
    (∃ d, (Middleware.AuthMiddleware.gate lib m now onlyAdmin c).1.written
        = c.written ++ [(StatusUnauthorized, d)]) ∧
    (Middleware.AuthMiddleware.gate lib m now onlyAdmin c).1.lookups = c.lookups := by
  unfold Middleware.AuthMiddleware.gate
  simp only
  rcases h with h | h | ⟨u, a, e, h⟩
  · simp [h, ErrorResponse, Context.lookups]
  · split
    · simp [ErrorResponse, Context.lookups]
    · simp [h, ErrorResponse, Context.lookups]
  · split
    · simp [ErrorResponse, Context.lookups]
    · split
      · simp [ErrorResponse, Context.lookups]
      · simp [h, ErrorResponse, Context.lookups, Context.record, List.filterMap_append]

/-- Witness of `header_enforcement`: a request without the header, one with a
`Basic` header, and one with `Bearer garbage`, on which `ParseToken` returns
`ErrInvalidToken`. -/
theorem header_enforcement_witness :
    ((Middleware.AuthMiddleware.gate refLib testMiddleware testNow true (request "")).2 = false ∧
      (∃ d, (Middleware.AuthMiddleware.gate refLib testMiddleware testNow true
          (request "")).1.written = (request "").written ++ [(StatusUnauthorized, d)]) ∧
      (Middleware.AuthMiddleware.gate refLib testMiddleware testNow true (request "")).1.lookups
        = (request "").lookups) ∧
    ((Middleware.AuthMiddleware.gate refLib testMiddleware testNow true
        (request "Basic abc")).2 = false ∧
      (∃ d, (Middleware.AuthMiddleware.gate refLib testMiddleware testNow true
          (request "Basic abc")).1.written
        = (request "Basic abc").written ++ [(StatusUnauthorized, d)]) ∧
      (Middleware.AuthMiddleware.gate refLib testMiddleware testNow true
          (request "Basic abc")).1.lookups = (request "Basic abc").lookups) ∧
    ((Middleware.AuthMiddleware.gate refLib testMiddleware testNow false
        (request "Bearer garbage")).2 = false ∧
      (∃ d, (Middleware.AuthMiddleware.gate refLib testMiddleware testNow false
          (request "Bearer garbage")).1.written
        = (request "Bearer garbage").written ++ [(StatusUnauthorized, d)]) ∧
      (Middleware.AuthMiddleware.gate refLib testMiddleware testNow false
          (request "Bearer garbage")).1.lookups = (request "Bearer garbage").lookups) :=
  ⟨header_enforcement refLib testMiddleware testNow true (request "") (Or.inl rfl),
   header_enforcement refLib testMiddleware testNow true (request "Basic abc")
     (Or.inr (Or.inl (by decide))),
   header_enforcement refLib testMiddleware testNow false (request "Bearer garbage")
     (Or.inr (Or.inr ⟨"", false, .ErrInvalidToken, by decide⟩))⟩

/-- C3 (code defect; the claim holds of middleware.go only): on one request
that carries the access token just issued to a stored principal, the gate of
middleware.go decodes the stripped token and admits, while the gate of
rest_auth.go decodes the whole header, `Bearer ` included, and answers 401. -/
theorem rest_gate_rejects_issued_token :
    (Middleware.AuthMiddleware.gate refLib testMiddleware testNow false
        (request (bearerOf aliceID false))).2 = true ∧
    (Middleware.AuthMiddleware.gate refLib testMiddleware testNow false
        (request (bearerOf aliceID false))).1.trace
      = [.ParseToken (accessTokenOf refLib testMiddleware testClock testEnv aliceID false),
         .GetUserByID aliceUUID] ∧
    RestAuthMiddleware.AuthMiddleware.gate refLib ⟨testMiddleware⟩ testNow false
        (request (bearerOf aliceID false))
      = ({ (request (bearerOf aliceID false)) with
            written := [(401, ⟨"req-1", "middleware", "token supplied is invalid/expired"⟩)]
            index := 63
            trace := [.ParseToken (bearerOf aliceID false)] }, false) := by
  decide

/-- C4 (role enforcement): for every request whose token decodes and whose
subject resolves to a principal, `AuthMiddleware(true)` answers 403 exactly
when the resolved principal's `IsAdmin` is false and admits exactly when it is
true, whatever `is_admin` flag the token carries; `AuthMiddleware(false)`
admits the same request and writes no response. -/
theorem role_enforcement (lib : JwtLib) (m : Middleware) (now : Time) (c : Context)
    (userID : String) (isAdmin : Bool) (uID : UUID) (user : User)
    (hpre : HasPrefix c.Authorization "Bearer " = true)
    (hparse : ParseToken lib m now m.env (TrimPrefix c.Authorization "Bearer ")
      = .ret (userID, isAdmin, none))
    (huuid : uuid.Parse userID = some uID)
    (hlookup : m.app uID = .ok user)
    (hnz : EqualFold user.ID.String ZeroUUID = false) :
    ((∃ d, (Middleware.AuthMiddleware.gate lib m now true c).1.written
        = c.written ++ [(StatusForbidden, d)]) ↔ user.IsAdmin = false) ∧
    ((Middleware.AuthMiddleware.gate lib m now true c).2 = true ↔ user.IsAdmin = true) ∧
    (Middleware.AuthMiddleware.gate lib m now false c).2 = true ∧
    (Middleware.AuthMiddleware.gate lib m now false c).1.written = c.written := by
  unfold Middleware.AuthMiddleware.gate
  simp only [HasPrefix_ne_empty hpre, hpre, hparse, huuid, hlookup, hnz]
  cases hia : user.IsAdmin <;>
    simp [ErrorResponse, Context.record, Context.Set, Context.Header_written]

/-- Witness of `role_enforcement`: the token says administrator, the store says
not. -/
theorem role_enforcement_witness :
    ((∃ d, (Middleware.AuthMiddleware.gate refLib testMiddleware testNow true
        (request (bearerOf aliceID true))).1.written
        = (request (bearerOf aliceID true)).written ++ [(StatusForbidden, d)])
      ↔ (⟨aliceUUID, false⟩ : User).IsAdmin = false) ∧
    ((Middleware.AuthMiddleware.gate refLib testMiddleware testNow true
        (request (bearerOf aliceID true))).2 = true
      ↔ (⟨aliceUUID, false⟩ : User).IsAdmin = true) ∧
    (Middleware.AuthMiddleware.gate refLib testMiddleware testNow false
        (request (bearerOf aliceID true))).2 = true ∧
    (Middleware.AuthMiddleware.gate refLib testMiddleware testNow false
        (request (bearerOf aliceID true))).1.written
      = (request (bearerOf aliceID true)).written :=
  role_enforcement refLib testMiddleware testNow (request (bearerOf aliceID true))
    aliceID true aliceUUID ⟨aliceUUID, false⟩ (by decide) (by decide) (by decide) rfl
    (by decide)

/-- C5 (unknown subject): for every request whose token decodes to a subject
that parses as a UUID, if `GetUserByID` returns an error, or a user whose ID
is the zero UUID, then `AuthMiddleware` answers 404 and does not admit, for
either value of `onlyAdmin`. -/
theorem unknown_subject (lib : JwtLib) (m : Middleware) (now : Time) (onlyAdmin : Bool)
    (c : Context) (userID : String) (isAdmin : Bool) (uID : UUID)
    (hpre : HasPrefix c.Authorization "Bearer " = true)
    (hparse : ParseToken lib m now m.env (TrimPrefix c.Authorization "Bearer ")
      = .ret (userID, isAdmin, none))
    (huuid : uuid.Parse userID = some uID)
    (hlookup : (∃ e, m.app uID = .error e) ∨
      ∃ user, m.app uID = .ok user ∧ EqualFold user.ID.String ZeroUUID = true) :
    (Middleware.AuthMiddleware.gate lib m now onlyAdmin c).2 = false ∧
    ∃ d, (Middleware.AuthMiddleware.gate lib m now onlyAdmin c).1.written
        = c.written ++ [(StatusNotFound, d)] := by
  unfold Middleware.AuthMiddleware.gate
  simp only [HasPrefix_ne_empty hpre, hpre, hparse, huuid]
  rcases hlookup with ⟨e, he⟩ | ⟨user, hu, hz⟩
  · simp [he, ErrorResponse, Context.record]
  · simp [hu, hz, ErrorResponse, Context.record]

/-- Witness of `unknown_subject`: a token issued to an identifier the store
does not hold. -/
theorem unknown_subject_witness :
    (Middleware.AuthMiddleware.gate refLib testMiddleware testNow false
        (request (bearerOf bobID false))).2 = false ∧
    ∃ d, (Middleware.AuthMiddleware.gate refLib testMiddleware testNow false
        (request (bearerOf bobID false))).1.written
      = (request (bearerOf bobID false)).written ++ [(StatusNotFound, d)] :=
  unknown_subject refLib testMiddleware testNow false (request (bearerOf bobID false))
    bobID false [26, 27, 28, 29, 30, 31, 74, 75, 140, 141, 32, 33, 34, 35, 36, 37]
    (by decide) (by decide) (by decide) (Or.inl ⟨.other "record not found", rfl⟩)

/-- C6 (subject parsing): for every request whose token decodes but whose
subject is not a UUID, `AuthMiddleware` answers 400, does not admit, and does
not call the user lookup. -/
theorem subject_parsing (lib : JwtLib) (m : Middleware) (now : Time) (onlyAdmin : Bool)
    (c : Context) (userID : String) (isAdmin : Bool)
    (hpre : HasPrefix c.Authorization "Bearer " = true)
    (hparse : ParseToken lib m now m.env (TrimPrefix c.Authorization "Bearer ")
      = .ret (userID, isAdmin, none))
    (huuid : uuid.Parse userID = none) :
    (Middleware.AuthMiddleware.gate lib m now onlyAdmin c).2 = false ∧
    (∃ d, (Middleware.AuthMiddleware.gate lib m now onlyAdmin c).1.written
        = c.written ++ [(StatusBadRequest, d)]) ∧
    (Middleware.AuthMiddleware.gate lib m now onlyAdmin c).1.lookups = c.lookups := by
  unfold Middleware.AuthMiddleware.gate
  simp only [HasPrefix_ne_empty hpre, hpre, hparse, huuid]
  simp [ErrorResponse, Context.record, Context.lookups, List.filterMap_append]

/-- Witness of `subject_parsing`: a token issued to the subject `u1`, and one
issued to a subject of 38 characters that is 39 bytes long, which is no length
of a UUID. -/
theorem subject_parsing_witness :
    ((Middleware.AuthMiddleware.gate refLib testMiddleware testNow true
        (request (bearerOf "u1" false))).2 = false ∧
    (∃ d, (Middleware.AuthMiddleware.gate refLib testMiddleware testNow true
        (request (bearerOf "u1" false))).1.written
      = (request (bearerOf "u1" false)).written ++ [(StatusBadRequest, d)]) ∧
    (Middleware.AuthMiddleware.gate refLib testMiddleware testNow true
        (request (bearerOf "u1" false))).1.lookups = (request (bearerOf "u1" false)).lookups) ∧
    ((bytesOf braceID).length = 39 ∧ braceID.length = 38) ∧
    ((Middleware.AuthMiddleware.gate refLib testMiddleware testNow false
        (request (bearerOf braceID false))).2 = false ∧
    (∃ d, (Middleware.AuthMiddleware.gate refLib testMiddleware testNow false
        (request (bearerOf braceID false))).1.written
      = (request (bearerOf braceID false)).written ++ [(StatusBadRequest, d)]) ∧
    (Middleware.AuthMiddleware.gate refLib testMiddleware testNow false
        (request (bearerOf braceID false))).1.lookups
      = (request (bearerOf braceID false)).lookups) :=
  ⟨subject_parsing refLib testMiddleware testNow true (request (bearerOf "u1" false))
    "u1" false (by decide) (by decide) (by decide),
   ⟨by decide, by decide⟩,
   subject_parsing refLib testMiddleware testNow false (request (bearerOf braceID false))
    braceID false (by decide) (by decide) (by decide)⟩

/-- C7 (spec-modelled `ErrorResponse`; every rejection short-circuits): on a
route whose chain is `AuthMiddleware` followed by any handlers, when the gate
neither admits nor panics, the request ends with exactly one more response
written, its status 400, 401, 403 or 404; the only handler the router ran is
the gate at position 0, and the outcome is the one of the route with no
downstream handler at all. -/
theorem rejection_short_circuits (lib : JwtLib) (m : Middleware) (now : Time)
    (onlyAdmin : Bool) (rest : List HandlerFunc) (c : Context)
    (hlen : ((rest.length + 1 : Nat) : Int) < abortIndex)
    (hc : c.panicked = false)
    (hrej : (Middleware.AuthMiddleware.gate lib m now onlyAdmin (routerEntry c)).2 = false)
    (hnp : (Middleware.AuthMiddleware.gate lib m now onlyAdmin (routerEntry c)).1.panicked
      = false) :
    ∃ status d,
      (status = StatusBadRequest ∨ status = StatusUnauthorized ∨ status = StatusForbidden ∨
        status = StatusNotFound) ∧
      (serve (Middleware.AuthMiddleware lib m now onlyAdmin :: rest) c).written
        = c.written ++ [(status, d)] ∧
      (serve (Middleware.AuthMiddleware lib m now onlyAdmin :: rest) c).handlersRun
        = c.handlersRun ++ [0] ∧
      serve (Middleware.AuthMiddleware lib m now onlyAdmin :: rest) c
        = serve [Middleware.AuthMiddleware lib m now onlyAdmin] c := by
  obtain ⟨c1, status, d, hs, hg, hw, hh, hp⟩ :=
    gate_reject_inv lib m now onlyAdmin (routerEntry c) hrej hnp
  refine ⟨status, d, hs, ?_⟩
  have hserve := serve_of_reject lib m now onlyAdmin rest c hlen hc hrej c1 status d hg hp
  have hserve0 := serve_of_reject lib m now onlyAdmin [] c (by decide) hc hrej c1 status d hg hp
  rw [hserve, hserve0]
  refine ⟨?_, ?_, rfl⟩
  · simp [ErrorResponse, hw, routerEntry, Context.record]
  · have : ({ ErrorResponse c1 status d with index := abortIndex + 1 } : Context).handlersRun
        = c1.handlersRun := rfl
    rw [this, hh]
    simp [routerEntry, Context.record, Context.handlersRun, List.filterMap_append]

/-- Witness of `rejection_short_circuits`: a request without the header on a
route with one downstream handler. -/
theorem rejection_short_circuits_witness :
    ∃ status d,
      (status = StatusBadRequest ∨ status = StatusUnauthorized ∨ status = StatusForbidden ∨
        status = StatusNotFound) ∧
      (serve [Middleware.AuthMiddleware refLib testMiddleware testNow false, okHandler]
          (request "")).written = (request "").written ++ [(status, d)] ∧
      (serve [Middleware.AuthMiddleware refLib testMiddleware testNow false, okHandler]
          (request "")).handlersRun = (request "").handlersRun ++ [0] ∧
      serve [Middleware.AuthMiddleware refLib testMiddleware testNow false, okHandler]
          (request "")
        = serve [Middleware.AuthMiddleware refLib testMiddleware testNow false] (request "") :=
  rejection_short_circuits refLib testMiddleware testNow false [okHandler] (request "")
    (by decide) rfl (by decide) (by decide)

/-- C8 (admit populates the context from the token): whenever `AuthMiddleware`
admits, the context value under `UserIDInContext` is the subject `ParseToken`
returned, the value under `IsAdminInContext` is the `is_admin` flag
`ParseToken` returned (the token's, not the resolved principal's), and the
response header `is_admin` is the text of that flag. -/
theorem admit_populates (lib : JwtLib) (m : Middleware) (now : Time) (onlyAdmin : Bool)
    (c : Context)
    (h : (Middleware.AuthMiddleware.gate lib m now onlyAdmin c).2 = true) :
    ∃ userID isAdmin,
      ParseToken lib m now m.env (TrimPrefix c.Authorization "Bearer ")
        = .ret (userID, isAdmin, none) ∧
      (Middleware.AuthMiddleware.gate lib m now onlyAdmin c).1.Get UserIDInContext
        = some (.str userID) ∧
      (Middleware.AuthMiddleware.gate lib m now onlyAdmin c).1.Get IsAdminInContext
        = some (.bool isAdmin) ∧
      (Middleware.AuthMiddleware.gate lib m now onlyAdmin c).1.respHeader.lookup IsAdminOnHeaders
        = some (Sprint isAdmin) := by
  obtain ⟨hpre, userID, isAdmin, uID, user, hp, hu, hl, hz, ha⟩ :=
    gate_admit_inv lib m now onlyAdmin c h
  refine ⟨userID, isAdmin, hp, ?_⟩
  unfold Middleware.AuthMiddleware.gate
  simp only [HasPrefix_ne_empty hpre, hpre, hp, hu, hl, hz, ha]
  refine ⟨?_, ?_, ?_⟩
  · simp [Context.Get, Context.Header_Keys, Context.Set, List.lookup, UserIDInContext,
      IsAdminInContext]
  · simp [Context.Get, Context.Header_Keys, Context.Set, List.lookup]
  · simp [Context.Header, Sprint_ne_empty, List.lookup]

/-- Witness of `admit_populates`: the token says administrator, the store says
not, and the request is admitted on an ordinary route. -/
theorem admit_populates_witness :
    ∃ userID isAdmin,
      ParseToken refLib testMiddleware testNow testMiddleware.env
          (TrimPrefix (request (bearerOf aliceID true)).Authorization "Bearer ")
        = .ret (userID, isAdmin, none) ∧
      (Middleware.AuthMiddleware.gate refLib testMiddleware testNow false
          (request (bearerOf aliceID true))).1.Get UserIDInContext = some (.str userID) ∧
      (Middleware.AuthMiddleware.gate refLib testMiddleware testNow false
          (request (bearerOf aliceID true))).1.Get IsAdminInContext = some (.bool isAdmin) ∧
      (Middleware.AuthMiddleware.gate refLib testMiddleware testNow false
          (request (bearerOf aliceID true))).1.respHeader.lookup IsAdminOnHeaders
        = some (Sprint isAdmin) :=
  admit_populates refLib testMiddleware testNow false (request (bearerOf aliceID true))
    (by decide)

/-- C9 (round trip): under an HMAC signing configuration `CreateToken` returns
a pair, and `ParseToken` at any time before the issue time plus the lifetime
returns the user id and the flag the token was issued with and a nil error,
for the access token and for the refresh token. -/
theorem round_trip (lib : JwtLib) (hrt : lib.RoundTrip) (hdf : lib.DotFree)
    (hsv : lib.SignVerify) (m : Middleware)
    (halg : m.jwt.SigningAlgorithm = "HS256" ∨ m.jwt.SigningAlgorithm = "HS384" ∨
      m.jwt.SigningAlgorithm = "HS512")
    (clock : Nat → Time) (env : Env) (u : String) (a : Bool) :
    ∃ t, CreateToken lib m clock env u a = .ret (.ok t) ∧
      ∀ (now1 : Time) (env1 : Env),
        (now1 < (clock 0).Add (jwtAccessTokenExpiry env) →
          ParseToken lib m now1 env1 t.AccessToken = .ret (u, a, none)) ∧
        (now1 < (clock 2).Add (jwtRefreshTokenExpiry env) →
          ParseToken lib m now1 env1 t.RefreshToken = .ret (u, a, none)) := by
  obtain ⟨t, ht, hp⟩ := ParseToken_issued lib hrt hdf hsv m halg clock env u a
  refine ⟨t, ht, ?_⟩
  intro now1 env1
  obtain ⟨hA, hR⟩ := hp now1 env1
  constructor
  · intro hlt
    rw [hA, if_pos]
    have hlt1 : @LT.lt Int _ now1 (@HAdd.hAdd Int Int Int _ (clock 0) (jwtAccessTokenExpiry env)) :=
      hlt
    unfold verifyExp Time.Unix Time.Add
    split
    · rfl
    · simp only [decide_eq_true_eq]; omega
  · intro hlt
    rw [hR, if_pos]
    have hlt1 : @LT.lt Int _ now1 (@HAdd.hAdd Int Int Int _ (clock 2) (jwtRefreshTokenExpiry env)) :=
      hlt
    unfold verifyExp Time.Unix Time.Add
    split
    · rfl
    · simp only [decide_eq_true_eq]; omega

/-- Witness of `round_trip`: the reference primitives, an HS256 key, a clock at
1000 s and a ten minute access lifetime; the access token is decoded one
nanosecond before the issue time plus the lifetime. -/
theorem round_trip_witness :
    (1599999999999 : Time) < (testClock 0).Add (jwtAccessTokenExpiry testEnv) ∧
    ParseToken refLib testMiddleware 1599999999999 testEnv
        (accessTokenOf refLib testMiddleware testClock testEnv aliceID true)
      = .ret (aliceID, true, none) := by
  obtain ⟨t, ht, h⟩ := round_trip refLib refLib_RoundTrip refLib_DotFree refLib_SignVerify
    testMiddleware (Or.inl rfl) testClock testEnv aliceID true
  have hlt : (1599999999999 : Time) < (testClock 0).Add (jwtAccessTokenExpiry testEnv) := by
    decide
  have ha : accessTokenOf refLib testMiddleware testClock testEnv aliceID true
      = t.AccessToken := by
    unfold accessTokenOf
    rw [ht]
  rw [ha]
  exact ⟨hlt, (h 1599999999999 testEnv).1 hlt⟩

/-- C10, the claim as stated fails: the access token issued at 1000 s with a
ten minute lifetime has `exp` 1600, and `ParseToken` at exactly 1600 s returns
its claims with a nil error, not an expiry error. -/
theorem expiry_boundary_counterexample :
    ((testClock 0).Add (jwtAccessTokenExpiry testEnv)).Unix = 1600 ∧
    ParseToken refLib testMiddleware (1600 * 1000000000) testEnv
        (accessTokenOf refLib testMiddleware testClock testEnv aliceID false)
      = .ret (aliceID, false, none) := by
  decide

/-- C10 (expiry boundary, amended): for each token of an issued pair, with
`expiresAt` its `exp` claim in whole Unix seconds, `ParseToken` at a time whose
Unix second is at most `expiresAt` returns the claims with a nil error, in
particular at exactly `expiresAt` and at `expiresAt` less one millisecond; at a
time whose Unix second is later than `expiresAt` it returns the expiry error,
provided `expiresAt` is not 0. -/
theorem expiry_boundary (lib : JwtLib) (hrt : lib.RoundTrip) (hdf : lib.DotFree)
    (hsv : lib.SignVerify) (m : Middleware)
    (halg : m.jwt.SigningAlgorithm = "HS256" ∨ m.jwt.SigningAlgorithm = "HS384" ∨
      m.jwt.SigningAlgorithm = "HS512")
    (clock : Nat → Time) (env : Env) (u : String) (a : Bool) :
    ∃ t, CreateToken lib m clock env u a = .ret (.ok t) ∧
      ∀ (tokenStr : String) (expiresAt : Int),
        (tokenStr, expiresAt) ∈
          [ (t.AccessToken, ((clock 0).Add (jwtAccessTokenExpiry env)).Unix),
            (t.RefreshToken, ((clock 2).Add (jwtRefreshTokenExpiry env)).Unix) ] →
        ∀ (now1 : Time) (env1 : Env),
          (now1.Unix ≤ expiresAt →
            ParseToken lib m now1 env1 tokenStr = .ret (u, a, none)) ∧
          (expiresAt ≠ 0 → expiresAt < now1.Unix →
            ParseToken lib m now1 env1 tokenStr = .ret ("", false,
              some (.ValidationError "Token is expired" ValidationErrorExpired))) ∧
          ParseToken lib m (expiresAt * 1000000000) env1 tokenStr = .ret (u, a, none) ∧
          ParseToken lib m (expiresAt * 1000000000 - 1000000) env1 tokenStr
            = .ret (u, a, none) := by
  obtain ⟨t, ht, hp⟩ := ParseToken_issued lib hrt hdf hsv m halg clock env u a
  refine ⟨t, ht, ?_⟩
  intro tokenStr expiresAt hmem
  have hrange : -9223372036854775808 ≤ expiresAt ∧ expiresAt ≤ 9223372036854775807 := by
    have hU : ∀ x : Time, -9223372036854775808 ≤ x.Unix ∧ x.Unix ≤ 9223372036854775807 := by
      intro x
      unfold Time.Unix
      omega
    simp only [List.mem_cons, Prod.mk.injEq, List.mem_singleton, List.not_mem_nil,
      or_false] at hmem
    rcases hmem with ⟨_, h2⟩ | ⟨_, h2⟩ <;> rw [h2] <;> exact hU _
  have key : ∀ (now1 : Time) (env1 : Env), ParseToken lib m now1 env1 tokenStr =
      if verifyExp expiresAt now1.Unix false then .ret (u, a, none)
      else .ret ("", false,
        some (.ValidationError "Token is expired" ValidationErrorExpired)) := by
    intro now1 env1
    simp only [List.mem_cons, Prod.mk.injEq, List.mem_singleton, List.not_mem_nil,
      or_false] at hmem
    rcases hmem with ⟨h1, h2⟩ | ⟨h1, h2⟩
    · rw [h1, h2]; exact (hp now1 env1).1
    · rw [h1, h2]; exact (hp now1 env1).2
  have hle : ∀ (now1 : Time), now1.Unix ≤ expiresAt →
      verifyExp expiresAt now1.Unix false = true := by
    intro now1 h
    unfold verifyExp
    split
    · rfl
    · simpa using h
  intro now1 env1
  refine ⟨?_, ?_, ?_, ?_⟩
  · intro h
    rw [key, if_pos (hle now1 h)]
  · intro h0 h
    rw [key, if_neg]
    unfold verifyExp
    rw [if_neg h0]
    simp only [decide_eq_true_eq]
    omega
  · rw [key, if_pos (hle _ ?_)]
    unfold Time.Unix
    omega
  · rw [key, if_pos (hle _ ?_)]
    unfold Time.Unix
    omega

/-- Witness of `expiry_boundary`: the access token with `exp` 1600 decoded at
1601 s is expired. -/
theorem expiry_boundary_witness :
    ParseToken refLib testMiddleware 1601000000000 testEnv
        (accessTokenOf refLib testMiddleware testClock testEnv aliceID false)
      = .ret ("", false, some (.ValidationError "Token is expired" ValidationErrorExpired)) := by
  obtain ⟨t, ht, h⟩ := expiry_boundary refLib refLib_RoundTrip refLib_DotFree
    refLib_SignVerify testMiddleware (Or.inl rfl) testClock testEnv aliceID false
  have ha : accessTokenOf refLib testMiddleware testClock testEnv aliceID false
      = t.AccessToken := by
    unfold accessTokenOf
    rw [ht]
  rw [ha]
  exact (h t.AccessToken _ (List.mem_cons_self _ _) 1601000000000 testEnv).2.1
    (by decide) (by decide)

/-! ## The decoder on any token string -/

theorem ParseUnverified_decoded (lib : JwtLib) (s p0 p1 p2 : String) (header claims : MapClaims)
    (alg : String) (sm : SigningMethod) (h : Decoded lib s p0 p1 p2 header claims alg sm) :
    ParseUnverified lib s = (some (unverifiedToken s header claims sm), [p0, p1, p2], none) := by
  obtain ⟨hs, hh, hc, ha, hm⟩ := h
  unfold ParseUnverified unverifiedToken
  simp only [hs, hh, hc, ha, hm]

/-- Every token string either decodes, or `ParseUnverified` returns an error
with the `Malformed` or the `Unverifiable` bit alone; it returns no token
exactly when the string has not three segments, and a token that is not
valid otherwise. -/
theorem ParseUnverified_cases (lib : JwtLib) (s : String) :
    (∃ p0 p1 p2 header claims alg sm, Decoded lib s p0 p1 p2 header claims alg sm) ∨
    (∃ parts inner, ParseUnverified lib s
        = (none, parts, some (.ValidationError inner ValidationErrorMalformed))) ∨
    (∃ tok parts inner flags, ParseUnverified lib s
        = (some tok, parts, some (.ValidationError inner flags)) ∧ tok.Valid = false ∧
      (flags = ValidationErrorMalformed ∨ flags = ValidationErrorUnverifiable)) := by
  unfold Decoded
  rcases hs : Split s '.' with _ | ⟨p0, _ | ⟨p1, _ | ⟨p2, _ | ⟨p3, rest⟩⟩⟩⟩
  · right; left; unfold ParseUnverified; simp only [hs]; exact ⟨_, _, rfl⟩
  · right; left; unfold ParseUnverified; simp only [hs]; exact ⟨_, _, rfl⟩
  · right; left; unfold ParseUnverified; simp only [hs]; exact ⟨_, _, rfl⟩
  · cases hh : lib.decodeHeader p0 with
    | none =>
      right; right; unfold ParseUnverified; simp only [hs, hh]
      by_cases hl : HasPrefix (ToLower s) "bearer " = true
      · simp only [hl, if_true]; exact ⟨_, _, _, _, rfl, rfl, Or.inl rfl⟩
      · simp only [hl, if_false]; exact ⟨_, _, _, _, rfl, rfl, Or.inl rfl⟩
    | some header =>
      cases hc : lib.decodeClaims p1 with
      | none =>
        right; right; unfold ParseUnverified; simp only [hs, hh, hc]
        exact ⟨_, _, _, _, rfl, rfl, Or.inl rfl⟩
      | some claims =>
        cases ha : header.get "alg" with
        | none =>
          right; right; unfold ParseUnverified; simp only [hs, hh, hc, ha]
          exact ⟨_, _, _, _, rfl, rfl, Or.inr rfl⟩
        | some v =>
          cases v with
          | str alg =>
            cases hm : GetSigningMethod alg with
            | none =>
              right; right; unfold ParseUnverified; simp only [hs, hh, hc, ha, hm]
              exact ⟨_, _, _, _, rfl, rfl, Or.inr rfl⟩
            | some sm =>
              left
              exact ⟨p0, p1, p2, header, claims, alg, sm, rfl, hh, hc, ha, hm⟩
          | num n =>
            right; right; unfold ParseUnverified; simp only [hs, hh, hc, ha]
            exact ⟨_, _, _, _, rfl, rfl, Or.inr rfl⟩
          | bool b =>
            right; right; unfold ParseUnverified; simp only [hs, hh, hc, ha]
            exact ⟨_, _, _, _, rfl, rfl, Or.inr rfl⟩
          | null =>
            right; right; unfold ParseUnverified; simp only [hs, hh, hc, ha]
            exact ⟨_, _, _, _, rfl, rfl, Or.inr rfl⟩
          | composite =>
            right; right; unfold ParseUnverified; simp only [hs, hh, hc, ha]
            exact ⟨_, _, _, _, rfl, rfl, Or.inr rfl⟩
  · right; left; unfold ParseUnverified; simp only [hs]; exact ⟨_, _, rfl⟩

/-- The decoding of a token string is unique. -/
theorem Decoded_unique (lib : JwtLib) (s p0 p1 p2 q0 q1 q2 : String)
    (header claims header1 claims1 : MapClaims) (alg alg1 : String) (sm sm1 : SigningMethod)
    (h : Decoded lib s p0 p1 p2 header claims alg sm)
    (h1 : Decoded lib s q0 q1 q2 header1 claims1 alg1 sm1) :
    p0 = q0 ∧ p1 = q1 ∧ p2 = q2 ∧ header = header1 ∧ claims = claims1 ∧ alg = alg1 ∧ sm = sm1 := by
  obtain ⟨hs, hh, hc, ha, hm⟩ := h
  obtain ⟨hs1, hh1, hc1, ha1, hm1⟩ := h1
  rw [hs] at hs1
  simp only [List.cons.injEq, and_true] at hs1
  obtain ⟨e0, e1, e2⟩ := hs1
  subst e0 e1 e2
  rw [hh] at hh1; cases hh1
  rw [hc] at hc1; cases hc1
  rw [ha] at ha1; cases ha1
  rw [hm] at hm1; cases hm1
  exact ⟨rfl, rfl, rfl, rfl, rfl, rfl, rfl⟩


/-- The bits `MapClaims.Valid` can set. -/
theorem Valid_flags (c : MapClaims) (now : Time) :
    (c.Valid now).2 = 0 ∨ (c.Valid now).2 = 16 ∨ (c.Valid now).2 = 32 ∨ (c.Valid now).2 = 48 ∨
    (c.Valid now).2 = 128 ∨ (c.Valid now).2 = 144 ∨ (c.Valid now).2 = 160 ∨
    (c.Valid now).2 = 176 := by
  unfold MapClaims.Valid
  simp only
  generalize c.VerifyExpiresAt now.Unix false = e1
  generalize c.VerifyIssuedAt now.Unix false = e2
  generalize c.VerifyNotBefore now.Unix false = e3
  cases e1 <;> cases e2 <;> cases e3 <;> decide

/-- `jwt.Parse` on a token of an HMAC method, with a key function that hands
out `key` for it: the token is valid when the claims check and the signature
check both pass; otherwise the error carries the bits of the claims check and
the `SignatureInvalid` bit of a failed signature check. -/
theorem Parse_hmac (lib : JwtLib) (now : Time) (s p0 p1 p2 : String) (header claims : MapClaims)
    (alg x : String) (kf : Token → Except GoError Key) (key : Key)
    (h : Decoded lib s p0 p1 p2 header claims alg (.HMAC x))
    (hk : kf (unverifiedToken s header claims (.HMAC x)) = .ok key) :
    Parse lib now s kf =
      if lib.Verify x key (p0 ++ "." ++ p1) p2 = true then
        if (claims.Valid now).2 = 0 then
          (some { unverifiedToken s header claims (.HMAC x) with Signature := p2, Valid := true },
            none)
        else
          (some { unverifiedToken s header claims (.HMAC x) with Signature := p2 },
            some (.ValidationError (claims.Valid now).1 (claims.Valid now).2))
      else
        (some { unverifiedToken s header claims (.HMAC x) with Signature := p2 },
          some (.ValidationError (lib.verifyError p2).text
            ((claims.Valid now).2 ||| ValidationErrorSignatureInvalid))) := by
  unfold Parse
  rw [ParseUnverified_decoded lib s p0 p1 p2 header claims alg _ h]
  simp only [hk]
  by_cases hv : lib.Verify x key (p0 ++ "." ++ p1) p2 = true
  · simp only [unverifiedToken, SigningMethod.Verify, List.getD_cons_zero, List.getD_cons_succ,
      hv, if_true]
  · simp only [unverifiedToken, SigningMethod.Verify, List.getD_cons_zero, List.getD_cons_succ,
      hv, if_false]
    have hne : ((claims.Valid now).2 ||| ValidationErrorSignatureInvalid) ≠ 0 := by
      rcases Valid_flags claims now with h | h | h | h | h | h | h | h <;> rw [h] <;> decide
    simp only [Bool.false_eq_true, if_false, hne]

/-- `jwt.Parse` on a token of a method outside the HMAC family, with a key
function that answers it with the plain error `e`. -/
theorem Parse_nonHMAC (lib : JwtLib) (now : Time) (s p0 p1 p2 : String)
    (header claims : MapClaims) (alg x : String) (kf : Token → Except GoError Key)
    (e : GoError) (h : Decoded lib s p0 p1 p2 header claims alg (.nonHMAC x))
    (hk : kf (unverifiedToken s header claims (.nonHMAC x)) = .error e)
    (he : ∀ inner flags, e ≠ .ValidationError inner flags) :
    Parse lib now s kf =
      (some (unverifiedToken s header claims (.nonHMAC x)),
        some (.ValidationError e.text ValidationErrorUnverifiable)) := by
  unfold Parse
  rw [ParseUnverified_decoded lib s p0 p1 p2 header claims alg _ h]
  simp only [hk]

/-- `jwt.Parse` on a token string that does not decode: the error of
`ParseUnverified`, with any key function. -/
theorem Parse_undecoded (lib : JwtLib) (now : Time) (s : String)
    (kf : Token → Except GoError Key) (tok : Option Token) (parts : List String) (e : GoError)
    (h : ParseUnverified lib s = (tok, parts, some e)) :
    Parse lib now s kf = (tok, some e) := by
  unfold Parse
  simp only [h]


theorem ParseToken_hmac (lib : JwtLib) (m : Middleware) (now : Time) (env : Env)
    (s p0 p1 p2 : String) (header claims : MapClaims) (alg x : String)
    (h : Decoded lib s p0 p1 p2 header claims alg (.HMAC x)) :
    ParseToken lib m now env s =
      if lib.Verify x m.jwt.Key (p0 ++ "." ++ p1) p2 = true then
        if (claims.Valid now).2 = 0 then ParseToken.readClaims claims
        else .ret ("", false,
          some (.ValidationError (claims.Valid now).1 (claims.Valid now).2))
      else .ret ("", false,
        some (.ValidationError (lib.verifyError p2).text
          ((claims.Valid now).2 ||| ValidationErrorSignatureInvalid))) := by
  unfold ParseToken
  rw [Parse_hmac lib now s p0 p1 p2 header claims alg x (ParseToken.keyFunc m) m.jwt.Key h rfl]
  by_cases hv : lib.Verify x m.jwt.Key (p0 ++ "." ++ p1) p2 = true
  · simp only [hv, if_true]
    by_cases hz : (claims.Valid now).2 = 0
    · simp only [hz, if_true, unverifiedToken, ParseToken.readClaims]
    · simp only [hz, if_false, unverifiedToken]
      rfl
  · simp only [hv, if_false, unverifiedToken]
    rfl

theorem ParseToken_nonHMAC (lib : JwtLib) (m : Middleware) (now : Time) (env : Env)
    (s p0 p1 p2 : String) (header claims : MapClaims) (alg x : String)
    (h : Decoded lib s p0 p1 p2 header claims alg (.nonHMAC x)) :
    ParseToken lib m now env s = .ret ("", false,
      some (.ValidationError ("unexpected signing method: " ++ alg)
        ValidationErrorUnverifiable)) := by
  have hk : ParseToken.keyFunc m (unverifiedToken s header claims (.nonHMAC x))
      = .error (.other ("unexpected signing method: " ++ alg)) := by
    unfold ParseToken.keyFunc unverifiedToken
    simp only [h.2.2.2.1, formatValue]
  unfold ParseToken
  rw [Parse_nonHMAC lib now s p0 p1 p2 header claims alg x (ParseToken.keyFunc m)
    (.other ("unexpected signing method: " ++ alg)) h hk (fun _ _ hh => by cases hh)]
  rfl

theorem ParseToken_undecoded_none (lib : JwtLib) (m : Middleware) (now : Time) (env : Env)
    (s : String) (parts : List String) (e : GoError)
    (h : ParseUnverified lib s = (none, parts, some e)) :
    ParseToken lib m now env s = .ret ("", false, some .ErrInvalidToken) := by
  unfold ParseToken
  rw [Parse_undecoded lib now s _ none parts e h]

theorem ParseToken_undecoded_some (lib : JwtLib) (m : Middleware) (now : Time) (env : Env)
    (s : String) (tok : Token) (parts : List String) (e : GoError)
    (h : ParseUnverified lib s = (some tok, parts, some e)) (hv : tok.Valid = false) :
    ParseToken lib m now env s = .ret ("", false, some e) := by
  unfold ParseToken
  rw [Parse_undecoded lib now s _ (some tok) parts e h]
  simp only [hv, Bool.false_eq_true, if_false]

theorem ValidateRefreshToken_hmac (lib : JwtLib) (m : Middleware) (clock : Nat → Time)
    (env : Env) (s p0 p1 p2 : String) (header claims : MapClaims) (alg x : String)
    (h : Decoded lib s p0 p1 p2 header claims alg (.HMAC x)) :
    ValidateRefreshToken lib m clock env s =
      if lib.Verify x m.jwt.Key (p0 ++ "." ++ p1) p2 = true then
        if (claims.Valid (clock 0)).2 = 0 then ValidateRefreshToken.readClaims claims (clock 1)
        else .ret (none,
          some (.ValidationError (claims.Valid (clock 0)).1 (claims.Valid (clock 0)).2))
      else .ret (none,
        some (.ValidationError (lib.verifyError p2).text
          ((claims.Valid (clock 0)).2 ||| ValidationErrorSignatureInvalid))) := by
  unfold ValidateRefreshToken
  rw [Parse_hmac lib (clock 0) s p0 p1 p2 header claims alg x (ValidateRefreshToken.keyFunc m)
    m.jwt.Key h rfl]
  by_cases hv : lib.Verify x m.jwt.Key (p0 ++ "." ++ p1) p2 = true
  · simp only [hv, if_true]
    by_cases hz : (claims.Valid (clock 0)).2 = 0
    · simp only [hz, if_true, unverifiedToken, ValidateRefreshToken.readClaims]
    · simp only [hz, if_false, unverifiedToken]
  · simp only [hv, Bool.false_eq_true, if_false, unverifiedToken]

theorem ValidateRefreshToken_nonHMAC (lib : JwtLib) (m : Middleware) (clock : Nat → Time)
    (env : Env) (s p0 p1 p2 : String) (header claims : MapClaims) (alg x : String)
    (h : Decoded lib s p0 p1 p2 header claims alg (.nonHMAC x)) :
    ValidateRefreshToken lib m clock env s = .ret (none,
      some (.ValidationError "unexpected signing method" ValidationErrorUnverifiable)) := by
  unfold ValidateRefreshToken
  rw [Parse_nonHMAC lib (clock 0) s p0 p1 p2 header claims alg x
    (ValidateRefreshToken.keyFunc m) .ErrUnexpectedSigningMethod h rfl
    (fun _ _ hh => by cases hh)]
  rfl

theorem ValidateRefreshToken_undecoded (lib : JwtLib) (m : Middleware) (clock : Nat → Time)
    (env : Env) (s : String) (tok : Option Token) (parts : List String) (e : GoError)
    (h : ParseUnverified lib s = (tok, parts, some e)) :
    ValidateRefreshToken lib m clock env s = .ret (none, some e) := by
  unfold ValidateRefreshToken
  rw [Parse_undecoded lib (clock 0) s _ tok parts e h]
  cases tok <;> rfl

/-- The claims check passes exactly when its three time checks pass. -/
theorem Valid_eq_zero (c : MapClaims) (now : Time) :
    (c.Valid now).2 = 0 ↔
      (c.VerifyExpiresAt now.Unix false = true ∧ c.VerifyIssuedAt now.Unix false = true ∧
        c.VerifyNotBefore now.Unix false = true) := by
  unfold MapClaims.Valid
  simp only
  generalize c.VerifyExpiresAt now.Unix false = e1
  generalize c.VerifyIssuedAt now.Unix false = e2
  generalize c.VerifyNotBefore now.Unix false = e3
  cases e1 <;> cases e2 <;> cases e3 <;> decide

theorem GetSigningMethod_eq_hmac (alg x : String) (h : GetSigningMethod alg = some (.HMAC x)) :
    x = alg ∧ (alg = "HS256" ∨ alg = "HS384" ∨ alg = "HS512") := by
  unfold GetSigningMethod at h
  split at h
  · rename_i h1
    simp only [Option.some.injEq, SigningMethod.HMAC.injEq] at h
    exact ⟨h.symm, h1⟩
  · split at h <;> simp at h

/-- The type assertions of `ParseToken` succeed exactly on a string `id` and a
boolean or absent `is_admin`. -/
theorem readClaims_eq_ret (claims : MapClaims) (u : String) (a : Bool) (e : Option GoError) :
    ParseToken.readClaims claims = .ret (u, a, e) ↔
      e = none ∧ claims.get claimsID = some (.str u) ∧
      (claims.get isAdminClaims = some (.bool a) ∨
        (claims.get isAdminClaims = none ∧ a = false)) := by
  unfold ParseToken.readClaims
  cases hid : claims.get claimsID with
  | none => simp
  | some v =>
    cases v with
    | str id =>
      cases had : claims.get isAdminClaims with
      | none =>
        simp only [Outcome.ret.injEq, Prod.mk.injEq, Option.some.injEq, JVal.str.injEq, true_and,
          false_or, reduceCtorEq]
        constructor
        · rintro ⟨h1, h2, h3⟩; exact ⟨h3.symm, h1, h2.symm⟩
        · rintro ⟨h1, h2, h3⟩; exact ⟨h2, h3.symm, h1.symm⟩
      | some w =>
        cases w with
        | bool b =>
          simp only [Outcome.ret.injEq, Prod.mk.injEq, Option.some.injEq, JVal.str.injEq,
            JVal.bool.injEq, false_and, or_false, reduceCtorEq]
          constructor
          · rintro ⟨h1, h2, h3⟩; exact ⟨h3.symm, h1, h2⟩
          · rintro ⟨h1, h2, h3⟩; exact ⟨h2, h3, h1.symm⟩
        | str _ => simp
        | num _ => simp
        | null => simp
        | composite => simp
    | num _ => simp
    | bool _ => simp
    | null => simp
    | composite => simp

/-- The expiry check passes exactly when `exp` is absent, is no number, or is
a number whose `int64` is zero or not earlier than the time compared with. -/
theorem VerifyExpiresAt_iff (c : MapClaims) (cmp : Int) :
    c.VerifyExpiresAt cmp false = true ↔
      ∀ exp, c.get "exp" = some (.num exp) → int64OfFloat exp = 0 ∨ cmp ≤ int64OfFloat exp := by
  unfold MapClaims.VerifyExpiresAt verifyExp
  cases h : c.get "exp" with
  | none => simp
  | some v =>
    cases v with
    | num n =>
      by_cases h0 : int64OfFloat n = 0
      · simp [h0]
      · simp [h0]
    | str x => simp
    | bool x => simp
    | null => simp
    | composite => simp

/-- The issue check passes exactly when `iat` is absent, is no number, or is a
number whose `int64` is zero or not later than the time compared with. -/
theorem VerifyIssuedAt_iff (c : MapClaims) (cmp : Int) :
    c.VerifyIssuedAt cmp false = true ↔
      ∀ iat, c.get "iat" = some (.num iat) → int64OfFloat iat = 0 ∨ int64OfFloat iat ≤ cmp := by
  unfold MapClaims.VerifyIssuedAt verifyIat
  cases h : c.get "iat" with
  | none => simp
  | some v =>
    cases v with
    | num n =>
      by_cases h0 : int64OfFloat n = 0
      · simp [h0]
      · simp [h0]
    | str x => simp
    | bool x => simp
    | null => simp
    | composite => simp

/-- The not-before check passes exactly when `nbf` is absent, is no number, or
is a number whose `int64` is zero or not later than the time compared with. -/
theorem VerifyNotBefore_iff (c : MapClaims) (cmp : Int) :
    c.VerifyNotBefore cmp false = true ↔
      ∀ nbf, c.get "nbf" = some (.num nbf) → int64OfFloat nbf = 0 ∨ int64OfFloat nbf ≤ cmp := by
  unfold MapClaims.VerifyNotBefore verifyNbf
  cases h : c.get "nbf" with
  | none => simp
  | some v =>
    cases v with
    | num n =>
      by_cases h0 : int64OfFloat n = 0
      · simp [h0]
      · simp [h0]
    | str x => simp
    | bool x => simp
    | null => simp
    | composite => simp

/-- C11 (decode invariant, amended): `ParseToken` returns the subject, the
flag and a nil error if and only if the token string has three segments, its
header and claims decode, the header names a method of the HMAC family, the
signature verifies against the configured key under that method, the claims
pass the time checks of jwt-go, the `id` claim is that string and the
`is_admin` claim is that boolean, or is absent and the flag false. The time
checks read a claim that is a number through the conversion to `int64`, under
which a number no `int64` holds becomes the smallest one: `exp` is absent, is
no number, or converts to zero or to a second not earlier than that of the
validation time; `iat` and `nbf` are absent, are no numbers, or convert to
zero or to a second not later. A correctly signed token with no `exp` claim
is accepted. -/
theorem decode_invariant (lib : JwtLib) (m : Middleware) (now : Time) (env : Env)
    (s u : String) (a : Bool) :
    ParseToken lib m now env s = .ret (u, a, none) ↔
      ∃ p0 p1 p2 header claims alg,
        Split s '.' = [p0, p1, p2] ∧
        lib.decodeHeader p0 = some header ∧
        lib.decodeClaims p1 = some claims ∧
        header.get "alg" = some (.str alg) ∧
        (alg = "HS256" ∨ alg = "HS384" ∨ alg = "HS512") ∧
        lib.Verify alg m.jwt.Key (p0 ++ "." ++ p1) p2 = true ∧
        (∀ exp, claims.get "exp" = some (.num exp) →
          int64OfFloat exp = 0 ∨ now.Unix ≤ int64OfFloat exp) ∧
        (∀ iat, claims.get "iat" = some (.num iat) →
          int64OfFloat iat = 0 ∨ int64OfFloat iat ≤ now.Unix) ∧
        (∀ nbf, claims.get "nbf" = some (.num nbf) →
          int64OfFloat nbf = 0 ∨ int64OfFloat nbf ≤ now.Unix) ∧
        claims.get claimsID = some (.str u) ∧
        (claims.get isAdminClaims = some (.bool a) ∨
          (claims.get isAdminClaims = none ∧ a = false)) := by
  constructor
  · intro h
    rcases ParseUnverified_cases lib s with
      ⟨p0, p1, p2, header, claims, alg, sm, hd⟩ | ⟨parts, inner, hu⟩ |
      ⟨tok, parts, inner, flags, hu, hv, _⟩
    · cases sm with
      | HMAC x =>
        obtain ⟨hx, halg⟩ := GetSigningMethod_eq_hmac alg x hd.2.2.2.2
        subst hx
        rw [ParseToken_hmac lib m now env s p0 p1 p2 header claims _ _ hd] at h
        by_cases hver : lib.Verify x m.jwt.Key (p0 ++ "." ++ p1) p2 = true
        · rw [if_pos hver] at h
          by_cases hz : (claims.Valid now).2 = 0
          · rw [if_pos hz] at h
            obtain ⟨_, hid, had⟩ := (readClaims_eq_ret claims u a none).mp h
            obtain ⟨h1, h2, h3⟩ := (Valid_eq_zero claims now).mp hz
            exact ⟨p0, p1, p2, header, claims, x, hd.1, hd.2.1, hd.2.2.1, hd.2.2.2.1, halg,
              hver, (VerifyExpiresAt_iff claims _).mp h1, (VerifyIssuedAt_iff claims _).mp h2,
              (VerifyNotBefore_iff claims _).mp h3, hid, had⟩
          · rw [if_neg hz] at h
            simp at h
        · rw [if_neg hver] at h
          simp at h
      | nonHMAC x =>
        rw [ParseToken_nonHMAC lib m now env s p0 p1 p2 header claims _ _ hd] at h
        simp at h
    · rw [ParseToken_undecoded_none lib m now env s parts _ hu] at h
      simp at h
    · rw [ParseToken_undecoded_some lib m now env s tok parts _ hu hv] at h
      simp at h
  · rintro ⟨p0, p1, p2, header, claims, alg, hs, hh, hc, ha, halg, hver, h1, h2, h3, hid, had⟩
    have hd : Decoded lib s p0 p1 p2 header claims alg (.HMAC alg) :=
      ⟨hs, hh, hc, ha, GetSigningMethod_hmac alg halg⟩
    rw [ParseToken_hmac lib m now env s p0 p1 p2 header claims _ _ hd, if_pos hver,
      if_pos ((Valid_eq_zero claims now).mpr ⟨(VerifyExpiresAt_iff claims _).mpr h1,
        (VerifyIssuedAt_iff claims _).mpr h2, (VerifyNotBefore_iff claims _).mpr h3⟩)]
    exact (readClaims_eq_ret claims u a none).mpr ⟨rfl, hid, had⟩

/-- C11, the claim as stated fails in both directions. Tokens signed with the
configured key are accepted without the `exp` the claim asks for: one that
carries no `exp` claim, one whose `exp` is a string, and one whose `exp` is
the second of the validation time itself. And one whose `exp`, ten to the
power 30, is later than the validation time is answered with the expiry
error, because no `int64` holds that number. -/
theorem decode_invariant_counterexample :
    ParseToken refLib testMiddleware testNow testEnv
        (signedWith refLib "HS256" testMiddleware.jwt.Key
          [(claimsID, .str aliceID), (isAdminClaims, .bool false)])
      = .ret (aliceID, false, none) ∧
    ParseToken refLib testMiddleware testNow testEnv
        (signedWith refLib "HS256" testMiddleware.jwt.Key
          [(claimsID, .str aliceID), (claimsExpiry, .str "never"), (isAdminClaims, .bool false)])
      = .ret (aliceID, false, none) ∧
    testNow.Unix = 1000 ∧
    ParseToken refLib testMiddleware testNow testEnv
        (signedWith refLib "HS256" testMiddleware.jwt.Key
          [(claimsID, .str aliceID), (claimsExpiry, .num 1000), (isAdminClaims, .bool false)])
      = .ret (aliceID, false, none) ∧
    ParseToken refLib testMiddleware testNow testEnv
        (signedWith refLib "HS256" testMiddleware.jwt.Key
          [(claimsID, .str aliceID),
           (claimsExpiry, .num 1000000000000000000000000000000),
           (isAdminClaims, .bool false)])
      = .ret ("", false, some (.ValidationError "Token is expired" ValidationErrorExpired)) := by
  refine ⟨by decide, by decide, by decide, by decide, by decide⟩

/-- C12 (algorithm confusion, amended): a token whose header names no method of
the HMAC family (a registered RSA, ECDSA, RSA-PSS or `none` method, an
unregistered name, or no `alg` string at all) is answered with an error by
`ParseToken` and by `ValidateRefreshToken`; neither consults the configured
`SigningAlgorithm`, so a token of another HMAC method is judged like one of
the configured method. -/
theorem algorithm_confusion (lib : JwtLib) (m : Middleware) (now : Time) (clock : Nat → Time)
    (env : Env) (s p0 p1 p2 : String) (header : MapClaims)
    (hs : Split s '.' = [p0, p1, p2]) (hh : lib.decodeHeader p0 = some header)
    (hn : ∀ alg, header.get "alg" = some (.str alg) →
      alg ≠ "HS256" ∧ alg ≠ "HS384" ∧ alg ≠ "HS512") :
    (∃ e, ParseToken lib m now env s = .ret ("", false, some e)) ∧
    (∃ e, ValidateRefreshToken lib m clock env s = .ret (none, some e)) ∧
    (∀ (alg1 : String) (t : String),
      ParseToken lib { m with jwt := { m.jwt with SigningAlgorithm := alg1 } } now env t
        = ParseToken lib m now env t ∧
      ValidateRefreshToken lib { m with jwt := { m.jwt with SigningAlgorithm := alg1 } }
          clock env t
        = ValidateRefreshToken lib m clock env t) := by
  refine ⟨?_, ?_, fun _ _ => ⟨rfl, rfl⟩⟩
  · rcases ParseUnverified_cases lib s with
      ⟨q0, q1, q2, header1, claims, alg, sm, hd⟩ | ⟨parts, inner, hu⟩ |
      ⟨tok, parts, inner, flags, hu, hv, _⟩
    · cases sm with
      | HMAC x =>
        exfalso
        obtain ⟨hx, halg⟩ := GetSigningMethod_eq_hmac alg x hd.2.2.2.2
        have e := hd.1
        rw [hs] at e
        simp only [List.cons.injEq, and_true] at e
        have hh1 := hd.2.1
        rw [← e.1, hh] at hh1
        cases hh1
        obtain ⟨h1, h2, h3⟩ := hn alg hd.2.2.2.1
        rcases halg with h | h | h
        · exact h1 h
        · exact h2 h
        · exact h3 h
      | nonHMAC x =>
        exact ⟨_, ParseToken_nonHMAC lib m now env s q0 q1 q2 header1 claims _ _ hd⟩
    · exact ⟨_, ParseToken_undecoded_none lib m now env s parts _ hu⟩
    · exact ⟨_, ParseToken_undecoded_some lib m now env s tok parts _ hu hv⟩
  · rcases ParseUnverified_cases lib s with
      ⟨q0, q1, q2, header1, claims, alg, sm, hd⟩ | ⟨parts, inner, hu⟩ |
      ⟨tok, parts, inner, flags, hu, hv, _⟩
    · cases sm with
      | HMAC x =>
        exfalso
        obtain ⟨hx, halg⟩ := GetSigningMethod_eq_hmac alg x hd.2.2.2.2
        have e := hd.1
        rw [hs] at e
        simp only [List.cons.injEq, and_true] at e
        have hh1 := hd.2.1
        rw [← e.1, hh] at hh1
        cases hh1
        obtain ⟨h1, h2, h3⟩ := hn alg hd.2.2.2.1
        rcases halg with h | h | h
        · exact h1 h
        · exact h2 h
        · exact h3 h
      | nonHMAC x =>
        exact ⟨_, ValidateRefreshToken_nonHMAC lib m clock env s q0 q1 q2 header1 claims _ _ hd⟩
    · exact ⟨_, ValidateRefreshToken_undecoded lib m clock env s none parts _ hu⟩
    · exact ⟨_, ValidateRefreshToken_undecoded lib m clock env s (some tok) parts _ hu⟩

/-- Witness of `algorithm_confusion`: an unsigned token whose header says
`none`. -/
theorem algorithm_confusion_witness :
    (∃ e, ParseToken refLib testMiddleware testNow testEnv
        (assemble refLib [("typ", .str "JWT"), ("alg", .str "none")]
          [(claimsID, .str aliceID), (isAdminClaims, .bool true)] "")
      = .ret ("", false, some e)) ∧
    (∃ e, ValidateRefreshToken refLib testMiddleware testClock testEnv
        (assemble refLib [("typ", .str "JWT"), ("alg", .str "none")]
          [(claimsID, .str aliceID), (isAdminClaims, .bool true)] "")
      = .ret (none, some e)) := by
  have h := algorithm_confusion refLib testMiddleware testNow testClock testEnv
    (assemble refLib [("typ", .str "JWT"), ("alg", .str "none")]
      [(claimsID, .str aliceID), (isAdminClaims, .bool true)] "")
    (refLib.encodeJSON [("typ", .str "JWT"), ("alg", .str "none")])
    (refLib.encodeJSON [(claimsID, .str aliceID), (isAdminClaims, .bool true)]) ""
    [("typ", .str "JWT"), ("alg", .str "none")] (by decide) (by decide)
    (by
      intro alg ha
      have : alg = "none" := by
        simp only [MapClaims.get, List.lookup] at ha
        have hb : ("alg" == "typ") = false := by decide
        simp only [hb, beq_self_eq_true, Option.some.injEq, JVal.str.injEq] at ha
        exact ha.symm
      subst this
      decide)
  exact ⟨h.1, h.2.1⟩

/-- C12, the claim as stated fails: HS256 is configured, and a token whose
header says HS384, signed with the configured key under HS384, is accepted by
`ParseToken` and by `ValidateRefreshToken`. -/
theorem algorithm_confusion_counterexample :
    testMiddleware.jwt.SigningAlgorithm = "HS256" ∧
    ParseToken refLib testMiddleware testNow testEnv
        (signedWith refLib "HS384" testMiddleware.jwt.Key
          [(claimsID, .str aliceID), (claimsExpiry, .num 5000), (isAdminClaims, .bool true)])
      = .ret (aliceID, true, none) ∧
    ValidateRefreshToken refLib testMiddleware testClock testEnv
        (signedWith refLib "HS384" testMiddleware.jwt.Key
          [(claimsID, .str aliceID), (claimsExpiry, .num 5000), (isAdminClaims, .bool true)])
      = .ret (some aliceUUID, none) := by
  decide

theorem splitChars_of_mem (sep : Char) (c : List Char) (h : sep ∈ c) :
    ∃ x y r, splitChars sep c = x :: y :: r := by
  induction c with
  | nil => simp at h
  | cons d cs ih =>
    by_cases hd : d = sep
    · cases hcs : splitChars sep cs with
      | nil => exact absurd hcs (splitChars_ne_nil sep cs)
      | cons p ps =>
        refine ⟨[], p, ps, ?_⟩
        rw [splitChars, if_pos hd, hcs]
    · have hmem : sep ∈ cs := by
        rcases List.mem_cons.mp h with h1 | h1
        · exact absurd h1.symm hd
        · exact h1
      obtain ⟨x, y, r, hxy⟩ := ih hmem
      refine ⟨d :: x, y, r, ?_⟩
      rw [splitChars, if_neg hd, hxy]

/-- A token string whose third segment contains a dot has more than three
segments. -/
theorem Split_four (a b c : String) (ha : '.' ∉ a.data) (hb : '.' ∉ b.data)
    (hc : '.' ∈ c.data) :
    ∃ x y r, Split (a ++ "." ++ b ++ "." ++ c) '.' = a :: b :: x :: y :: r := by
  unfold Split
  have : (a ++ "." ++ b ++ "." ++ c).data = a.data ++ '.' :: (b.data ++ '.' :: c.data) := by
    simp [String.data_append]
  obtain ⟨x, y, r, hxy⟩ := splitChars_of_mem '.' c.data hc
  rw [this, splitChars_append _ _ _ ha, splitChars_append _ _ _ hb, hxy]
  exact ⟨String.mk x, String.mk y, r.map String.mk, rfl⟩

/-- The header `NewWithClaims` gives a token names its method. -/
theorem jwtHeader_get_alg (alg : String) :
    (jwtHeader alg).get "alg" = some (.str alg) := by
  simp [jwtHeader, MapClaims.get, List.lookup]

/-- The token an HMAC issuer makes of `claims` is the assembly of its header,
its claims and its signature; with any dot-free signature segment in place of
its own it still decodes, to a header and a claims set with the same entries. -/
theorem issued_decoded (lib : JwtLib) (hrt : lib.RoundTrip) (hdf : lib.DotFree)
    (alg : String) (halg : alg = "HS256" ∨ alg = "HS384" ∨ alg = "HS512")
    (claims : MapClaims) :
    ∃ header1 claims1,
      (∀ k, claims1.get k = claims.get k) ∧
      (∀ k, header1.get k = (jwtHeader alg).get k) ∧
      ∀ sig1 : String, '.' ∉ sig1.data →
        Decoded lib (assemble lib (jwtHeader alg) claims sig1)
          (lib.encodeJSON (jwtHeader alg)) (lib.encodeJSON claims) sig1
          header1 claims1 alg (.HMAC alg) := by
  obtain ⟨⟨h', hh, hhk⟩, _⟩ := hrt (jwtHeader alg)
  obtain ⟨_, ⟨c', hc, hck⟩⟩ := hrt claims
  refine ⟨h', c', hck, hhk, ?_⟩
  intro sig1 hs1
  refine ⟨Split_three _ _ _ (hdf.1 _) (hdf.1 _) hs1, hh, hc, ?_, GetSigningMethod_hmac _ halg⟩
  rw [hhk, jwtHeader_get_alg]

/-- `CreateToken` under an HMAC configuration returns the assemblies of the
header with the two claims sets and their signatures. -/
theorem CreateToken_hmac (lib : JwtLib) (m : Middleware)
    (halg : m.jwt.SigningAlgorithm = "HS256" ∨ m.jwt.SigningAlgorithm = "HS384" ∨
      m.jwt.SigningAlgorithm = "HS512")
    (clock : Nat → Time) (env : Env) (u : String) (a : Bool) :
    CreateToken lib m clock env u a = .ret (.ok
      { AccessToken := assemble lib (jwtHeader m.jwt.SigningAlgorithm)
          (CreateToken.accessClaims clock env u a)
          (signatureOf lib m.jwt.SigningAlgorithm m.jwt.Key
            (CreateToken.accessClaims clock env u a)),
        RefreshToken := assemble lib (jwtHeader m.jwt.SigningAlgorithm)
          (CreateToken.refreshClaims clock env u a)
          (signatureOf lib m.jwt.SigningAlgorithm m.jwt.Key
            (CreateToken.refreshClaims clock env u a)),
        AccessTokenExpiry := (clock 4).Add (jwtAccessTokenExpiry env),
        RefreshTokenExpiry := (clock 5).Add (jwtRefreshTokenExpiry env) }) := by
  unfold CreateToken
  rw [GetSigningMethod_hmac _ halg]
  rfl

/-- `CreateToken` returns a pair only under a method of the HMAC family. -/
theorem CreateToken_ok_hmac (lib : JwtLib) (m : Middleware) (clock : Nat → Time) (env : Env)
    (u : String) (a : Bool) (t : Tokens) (h : CreateToken lib m clock env u a = .ret (.ok t)) :
    m.jwt.SigningAlgorithm = "HS256" ∨ m.jwt.SigningAlgorithm = "HS384" ∨
      m.jwt.SigningAlgorithm = "HS512" := by
  unfold CreateToken at h
  cases hm : GetSigningMethod m.jwt.SigningAlgorithm with
  | none => rw [hm] at h; simp [NewWithClaims] at h
  | some sm =>
    cases sm with
    | HMAC x => exact (GetSigningMethod_eq_hmac _ x hm).2
    | nonHMAC x =>
      rw [hm] at h
      simp only [NewWithClaims, Token.SignedString, SigningMethod.Sign] at h
      by_cases h1 : x = "none"
      · simp [h1] at h
      · by_cases h2 : x = "RS256" ∨ x = "RS384" ∨ x = "RS512"
        · simp [h1, h2] at h
        · simp [h1, h2] at h

/-- The claims check of the claims `CreateToken` issues is the expiry check. -/
theorem Valid_issued (c : MapClaims) (claims : MapClaims) (exp : Int) (now : Time)
    (hck : ∀ k, c.get k = claims.get k)
    (hexp : claims.get "exp" = some (.num exp)) (hiat : claims.get "iat" = none)
    (hnbf : claims.get "nbf" = none) :
    (c.Valid now).2 = 0 ∨ (c.Valid now).2 = 16 := by
  rw [Valid_exp_only c exp now (by rw [hck, hexp]) (by rw [hck, hiat]) (by rw [hck, hnbf])]
  split
  · exact Or.inl rfl
  · exact Or.inr rfl

/-- C13 (tamper rejection, amended): each token of an issued pair is the
assembly of the header, its claims and their signature, which verifies. Of
the same header and claims with another signature segment `sig1`: when `sig1`
contains a dot the string has four segments and is answered with
`ErrInvalidToken`; when it has no dot and does not verify, the answer is never
claims but the validation error of the signature check, with the
`SignatureInvalid` bit alone or with the `Expired` bit when the token is also
expired, whose text is the error of `DecodeSegment` when the segment is no
base64url and `signature is invalid` when it is; and when it has no dot and
still verifies, the answer is that to the issued token itself, the user id and
the flag with a nil error while the expiry check passes. -/
theorem tamper_rejection (lib : JwtLib) (hrt : lib.RoundTrip) (hdf : lib.DotFree)
    (hsv : lib.SignVerify) (m : Middleware)
    (halg : m.jwt.SigningAlgorithm = "HS256" ∨ m.jwt.SigningAlgorithm = "HS384" ∨
      m.jwt.SigningAlgorithm = "HS512")
    (clock : Nat → Time) (env : Env) (u : String) (a : Bool) :
    ∃ t, CreateToken lib m clock env u a = .ret (.ok t) ∧
      t.AccessToken = assemble lib (jwtHeader m.jwt.SigningAlgorithm)
        (CreateToken.accessClaims clock env u a)
        (signatureOf lib m.jwt.SigningAlgorithm m.jwt.Key
          (CreateToken.accessClaims clock env u a)) ∧
      t.RefreshToken = assemble lib (jwtHeader m.jwt.SigningAlgorithm)
        (CreateToken.refreshClaims clock env u a)
        (signatureOf lib m.jwt.SigningAlgorithm m.jwt.Key
          (CreateToken.refreshClaims clock env u a)) ∧
      ∀ claims, claims ∈ [CreateToken.accessClaims clock env u a,
          CreateToken.refreshClaims clock env u a] →
        lib.Verify m.jwt.SigningAlgorithm m.jwt.Key
          (lib.encodeJSON (jwtHeader m.jwt.SigningAlgorithm) ++ "." ++ lib.encodeJSON claims)
          (signatureOf lib m.jwt.SigningAlgorithm m.jwt.Key claims) = true ∧
        ∀ (sig1 : String) (now : Time) (env1 : Env),
          ('.' ∈ sig1.data →
            ParseToken lib m now env1
                (assemble lib (jwtHeader m.jwt.SigningAlgorithm) claims sig1)
              = .ret ("", false, some .ErrInvalidToken)) ∧
          ('.' ∉ sig1.data →
            lib.Verify m.jwt.SigningAlgorithm m.jwt.Key
              (lib.encodeJSON (jwtHeader m.jwt.SigningAlgorithm) ++ "." ++
                lib.encodeJSON claims) sig1 = false →
            ∃ inner flags, ParseToken lib m now env1
                  (assemble lib (jwtHeader m.jwt.SigningAlgorithm) claims sig1)
                = .ret ("", false, some (.ValidationError inner flags)) ∧
              (flags = 4 ∨ flags = 20) ∧
              (∀ text, lib.signatureError sig1 = some text → inner = text) ∧
              (lib.signatureError sig1 = none → inner = "signature is invalid")) ∧
          ('.' ∉ sig1.data →
            lib.Verify m.jwt.SigningAlgorithm m.jwt.Key
              (lib.encodeJSON (jwtHeader m.jwt.SigningAlgorithm) ++ "." ++
                lib.encodeJSON claims) sig1 = true →
            ParseToken lib m now env1
                (assemble lib (jwtHeader m.jwt.SigningAlgorithm) claims sig1)
              = ParseToken lib m now env1
                (assemble lib (jwtHeader m.jwt.SigningAlgorithm) claims
                  (signatureOf lib m.jwt.SigningAlgorithm m.jwt.Key claims)) ∧
            (claims.VerifyExpiresAt now.Unix false = true →
              ParseToken lib m now env1
                  (assemble lib (jwtHeader m.jwt.SigningAlgorithm) claims sig1)
                = .ret (u, a, none))) := by
  refine ⟨_, CreateToken_hmac lib m halg clock env u a, rfl, rfl, ?_⟩
  have main : ∀ claims : MapClaims, ∀ exp : Int, claims.get "exp" = some (.num exp) →
      claims.get "iat" = none → claims.get "nbf" = none →
      claims.get claimsID = some (.str u) → claims.get isAdminClaims = some (.bool a) →
      lib.Verify m.jwt.SigningAlgorithm m.jwt.Key
          (lib.encodeJSON (jwtHeader m.jwt.SigningAlgorithm) ++ "." ++ lib.encodeJSON claims)
          (signatureOf lib m.jwt.SigningAlgorithm m.jwt.Key claims) = true ∧
        ∀ (sig1 : String) (now : Time) (env1 : Env),
          ('.' ∈ sig1.data →
            ParseToken lib m now env1
                (assemble lib (jwtHeader m.jwt.SigningAlgorithm) claims sig1)
              = .ret ("", false, some .ErrInvalidToken)) ∧
          ('.' ∉ sig1.data →
            lib.Verify m.jwt.SigningAlgorithm m.jwt.Key
              (lib.encodeJSON (jwtHeader m.jwt.SigningAlgorithm) ++ "." ++
                lib.encodeJSON claims) sig1 = false →
            ∃ inner flags, ParseToken lib m now env1
                  (assemble lib (jwtHeader m.jwt.SigningAlgorithm) claims sig1)
                = .ret ("", false, some (.ValidationError inner flags)) ∧
              (flags = 4 ∨ flags = 20) ∧
              (∀ text, lib.signatureError sig1 = some text → inner = text) ∧
              (lib.signatureError sig1 = none → inner = "signature is invalid")) ∧
          ('.' ∉ sig1.data →
            lib.Verify m.jwt.SigningAlgorithm m.jwt.Key
              (lib.encodeJSON (jwtHeader m.jwt.SigningAlgorithm) ++ "." ++
                lib.encodeJSON claims) sig1 = true →
            ParseToken lib m now env1
                (assemble lib (jwtHeader m.jwt.SigningAlgorithm) claims sig1)
              = ParseToken lib m now env1
                (assemble lib (jwtHeader m.jwt.SigningAlgorithm) claims
                  (signatureOf lib m.jwt.SigningAlgorithm m.jwt.Key claims)) ∧
            (claims.VerifyExpiresAt now.Unix false = true →
              ParseToken lib m now env1
                  (assemble lib (jwtHeader m.jwt.SigningAlgorithm) claims sig1)
                = .ret (u, a, none))) := by
    intro claims exp hexp hiat hnbf hid hadm
    obtain ⟨header1, claims1, hck, _, hdec⟩ :=
      issued_decoded lib hrt hdf m.jwt.SigningAlgorithm halg claims
    refine ⟨hsv _ _ _, ?_⟩
    intro sig1 now env1
    refine ⟨?_, ?_, ?_⟩
    · intro hdot
      obtain ⟨x, y, r, hsp⟩ := Split_four (lib.encodeJSON (jwtHeader m.jwt.SigningAlgorithm))
        (lib.encodeJSON claims) sig1 (hdf.1 _) (hdf.1 _) hdot
      apply ParseToken_undecoded_none lib m now env1 _
        (lib.encodeJSON (jwtHeader m.jwt.SigningAlgorithm) :: lib.encodeJSON claims :: x :: y :: r)
        (.ValidationError "token contains an invalid number of segments"
          ValidationErrorMalformed)
      unfold ParseUnverified assemble
      simp only [hsp]
    · intro hdot hver
      rw [ParseToken_hmac lib m now env1 _ _ _ _ header1 claims1 _ _ (hdec sig1 hdot)]
      simp only [hver, Bool.false_eq_true, if_false]
      have htext : (∀ text, lib.signatureError sig1 = some text →
            (lib.verifyError sig1).text = text) ∧
          (lib.signatureError sig1 = none →
            (lib.verifyError sig1).text = "signature is invalid") := by
        unfold JwtLib.verifyError
        constructor
        · intro text ht
          rw [ht]
          rfl
        · intro ht
          rw [ht]
          rfl
      rcases Valid_issued claims1 claims exp now hck hexp hiat hnbf with h | h
      · exact ⟨_, _, rfl, Or.inl (by rw [h]; rfl), htext⟩
      · exact ⟨_, _, rfl, Or.inr (by rw [h]; rfl), htext⟩
    · intro hdot hver
      have e1 := ParseToken_hmac lib m now env1 _ _ _ _ header1 claims1 _ _ (hdec sig1 hdot)
      have e2 := ParseToken_hmac lib m now env1 _ _ _ _ header1 claims1 _ _
        (hdec (signatureOf lib m.jwt.SigningAlgorithm m.jwt.Key claims) (hdf.2 _ _ _))
      have hsig : lib.Verify m.jwt.SigningAlgorithm m.jwt.Key
          (lib.encodeJSON (jwtHeader m.jwt.SigningAlgorithm) ++ "." ++ lib.encodeJSON claims)
          (signatureOf lib m.jwt.SigningAlgorithm m.jwt.Key claims) = true := hsv _ _ _
      simp only [hver, if_true] at e1
      simp only [hsig, if_true] at e2
      refine ⟨by rw [e1, e2], ?_⟩
      intro hexpOk
      rw [e1]
      have hv0 : (claims1.Valid now).2 = 0 := by
        rw [Valid_exp_only claims1 exp now (by rw [hck, hexp]) (by rw [hck, hiat])
          (by rw [hck, hnbf])]
        have : verifyExp (int64OfFloat exp) now.Unix false = true := by
          unfold MapClaims.VerifyExpiresAt at hexpOk
          rw [hexp] at hexpOk
          exact hexpOk
        rw [this]
        rfl
      rw [if_pos hv0]
      unfold ParseToken.readClaims
      rw [hck, hck, hid, hadm]
  intro claims hmem
  simp only [List.mem_cons, List.mem_singleton, List.not_mem_nil, or_false] at hmem
  rcases hmem with h | h
  · rw [h]; exact main _ _ rfl rfl rfl rfl rfl
  · rw [h]; exact main _ _ rfl rfl rfl rfl rfl

/-- Witness of `tamper_rejection`: the issued access token with its signature
segment replaced by `0`, which is no base64url, by `AAAA`, which is, and by
`0.0`. -/
theorem tamper_rejection_witness :
    (∃ flags, ParseToken refLib testMiddleware testNow testEnv
        (assemble refLib (jwtHeader testMiddleware.jwt.SigningAlgorithm)
          (CreateToken.accessClaims testClock testEnv aliceID false) "0")
      = .ret ("", false, some (.ValidationError "illegal base64 data at input byte 1" flags)) ∧
      (flags = 4 ∨ flags = 20)) ∧
    (∃ flags, ParseToken refLib testMiddleware testNow testEnv
        (assemble refLib (jwtHeader testMiddleware.jwt.SigningAlgorithm)
          (CreateToken.accessClaims testClock testEnv aliceID false) "AAAA")
      = .ret ("", false, some (.ValidationError "signature is invalid" flags)) ∧
      (flags = 4 ∨ flags = 20)) ∧
    ParseToken refLib testMiddleware testNow testEnv
        (assemble refLib (jwtHeader testMiddleware.jwt.SigningAlgorithm)
          (CreateToken.accessClaims testClock testEnv aliceID false) "0.0")
      = .ret ("", false, some .ErrInvalidToken) := by
  obtain ⟨t, _, _, _, h⟩ := tamper_rejection refLib refLib_RoundTrip refLib_DotFree
    refLib_SignVerify testMiddleware (Or.inl rfl) testClock testEnv aliceID false
  obtain ⟨_, hall⟩ := h (CreateToken.accessClaims testClock testEnv aliceID false)
    (List.mem_cons_self _ _)
  refine ⟨?_, ?_, (hall "0.0" testNow testEnv).1 (by decide)⟩
  · obtain ⟨inner, flags, he, hf, ht, _⟩ :=
      (hall "0" testNow testEnv).2.1 (by decide) (by decide)
    rw [ht "illegal base64 data at input byte 1" (by decide)] at he
    exact ⟨flags, he, hf⟩
  · obtain ⟨inner, flags, he, hf, _, ht⟩ :=
      (hall "AAAA" testNow testEnv).2.1 (by decide) (by decide)
    rw [ht (by decide)] at he
    exact ⟨flags, he, hf⟩

/-- C13, the claim as stated fails: with the signature segment in base64url,
the access token issued under HS256 ends in `4`; the same token with that one
character changed to `5` is a different string whose signature decodes to the
same bytes, and `ParseToken` returns its claims with a nil error. -/
theorem tamper_rejection_counterexample :
    lastChar (accessTokenOf b64Lib testMiddleware testClock testEnv aliceID false) = '4' ∧
    replaceLast (accessTokenOf b64Lib testMiddleware testClock testEnv aliceID false) '5'
      ≠ accessTokenOf b64Lib testMiddleware testClock testEnv aliceID false ∧
    ParseToken b64Lib testMiddleware testNow testEnv
        (replaceLast (accessTokenOf b64Lib testMiddleware testClock testEnv aliceID false) '5')
      = .ret (aliceID, false, none) := by
  decide

/-- C14 (no kind discriminator, amended): the two tokens of an issued pair
decode to the same header and to claims sets with the keys `id`, `exp`,
`orig_iat` and `is_admin` and no other; the two sets agree on every key but
`exp` and `orig_iat`, so nothing in them tells an access token from a refresh
token. The refresh token presented to `ParseToken` before its own expiry is
answered with the subject and the flag, and presented as the bearer token of
a request on an ordinary route it is admitted like an access token. -/
theorem no_kind_discriminator (lib : JwtLib) (hrt : lib.RoundTrip) (hdf : lib.DotFree)
    (hsv : lib.SignVerify) (m : Middleware)
    (halg : m.jwt.SigningAlgorithm = "HS256" ∨ m.jwt.SigningAlgorithm = "HS384" ∨
      m.jwt.SigningAlgorithm = "HS512")
    (clock : Nat → Time) (env : Env) (u : String) (a : Bool) :
    ∃ t, CreateToken lib m clock env u a = .ret (.ok t) ∧
      (∃ a0 a1 a2 r0 r1 r2 hA cA hR cR,
        Decoded lib t.AccessToken a0 a1 a2 hA cA m.jwt.SigningAlgorithm
          (.HMAC m.jwt.SigningAlgorithm) ∧
        Decoded lib t.RefreshToken r0 r1 r2 hR cR m.jwt.SigningAlgorithm
          (.HMAC m.jwt.SigningAlgorithm) ∧
        (∀ k, hA.get k = hR.get k) ∧
        (∀ k, k ≠ claimsExpiry → k ≠ claimsCreatedAt → cA.get k = cR.get k) ∧
        (∀ k, k ∉ [claimsID, claimsExpiry, claimsCreatedAt, isAdminClaims] →
          cA.get k = none ∧ cR.get k = none)) ∧
      (∀ (now : Time) (env1 : Env), now < (clock 2).Add (jwtRefreshTokenExpiry env) →
        ParseToken lib m now env1 t.RefreshToken = .ret (u, a, none)) ∧
      (∀ (now : Time) (c : Context) (uID : UUID) (user : User),
        c.Authorization = "Bearer " ++ t.RefreshToken →
        now < (clock 2).Add (jwtRefreshTokenExpiry env) →
        uuid.Parse u = some uID → m.app uID = .ok user →
        EqualFold user.ID.String ZeroUUID = false →
        (Middleware.AuthMiddleware.gate lib m now false c).2 = true) := by
  obtain ⟨t, ht, hp⟩ := ParseToken_issued lib hrt hdf hsv m halg clock env u a
  have ht2 := CreateToken_hmac lib m halg clock env u a
  rw [ht] at ht2
  simp only [Outcome.ret.injEq, Except.ok.injEq] at ht2
  have hrefresh : ∀ (now : Time) (env1 : Env), now < (clock 2).Add (jwtRefreshTokenExpiry env) →
      ParseToken lib m now env1 t.RefreshToken = .ret (u, a, none) := by
    intro now env1 hlt
    rw [(hp now env1).2, if_pos]
    have hlt1 : @LT.lt Int _ now (@HAdd.hAdd Int Int Int _ (clock 2) (jwtRefreshTokenExpiry env)) :=
      hlt
    unfold verifyExp Time.Unix Time.Add
    split
    · rfl
    · simp only [decide_eq_true_eq]; omega
  refine ⟨t, ht, ?_, hrefresh, ?_⟩
  · obtain ⟨hA, cA, hcA, hhA, hdA⟩ := issued_decoded lib hrt hdf m.jwt.SigningAlgorithm halg
      (CreateToken.accessClaims clock env u a)
    obtain ⟨hR, cR, hcR, hhR, hdR⟩ := issued_decoded lib hrt hdf m.jwt.SigningAlgorithm halg
      (CreateToken.refreshClaims clock env u a)
    subst ht2
    refine ⟨_, _, _, _, _, _, hA, cA, hR, cR, hdA _ (hdf.2 _ _ _), hdR _ (hdf.2 _ _ _),
      ?_, ?_, ?_⟩
    · intro k; rw [hhA, hhR]
    · intro k h1 h2
      rw [hcA, hcR]
      simp only [CreateToken.accessClaims, CreateToken.refreshClaims, MapClaims.get, List.lookup]
      by_cases e1 : k = claimsID
      · simp [e1]
      · have b1 : (k == claimsID) = false := by simpa using e1
        have b2 : (k == claimsExpiry) = false := by simpa using h1
        have b3 : (k == claimsCreatedAt) = false := by simpa using h2
        simp only [b1, b2, b3]
    · intro k hk
      simp only [List.mem_cons, List.mem_singleton, List.not_mem_nil, or_false, not_or] at hk
      obtain ⟨e1, e2, e3, e4⟩ := hk
      have b1 : (k == claimsID) = false := by simpa using e1
      have b2 : (k == claimsExpiry) = false := by simpa using e2
      have b3 : (k == claimsCreatedAt) = false := by simpa using e3
      have b4 : (k == isAdminClaims) = false := by simpa using e4
      rw [hcA, hcR]
      simp only [CreateToken.accessClaims, CreateToken.refreshClaims, MapClaims.get, List.lookup,
        b1, b2, b3, b4, and_self]
  · intro now c uID user hauth hlt huuid hlookup hnz
    have hpre : HasPrefix c.Authorization "Bearer " = true := by
      rw [hauth]; exact HasPrefix_append _ _
    have htrim : TrimPrefix c.Authorization "Bearer " = t.RefreshToken := by
      rw [hauth]; exact TrimPrefix_append _ _
    unfold Middleware.AuthMiddleware.gate
    simp only [HasPrefix_ne_empty hpre, hpre, htrim, hrefresh now m.env hlt, huuid, hlookup, hnz]
    simp

/-- Witness of `no_kind_discriminator`: the refresh token of the pair issued to
the stored principal, decoded at the issue time. -/
theorem no_kind_discriminator_witness :
    ParseToken refLib testMiddleware testNow testEnv
        (refreshTokenOf refLib testMiddleware testClock testEnv aliceID true)
      = .ret (aliceID, true, none) := by
  obtain ⟨t, ht, _, h, _⟩ := no_kind_discriminator refLib refLib_RoundTrip refLib_DotFree
    refLib_SignVerify testMiddleware (Or.inl rfl) testClock testEnv aliceID true
  have hr : refreshTokenOf refLib testMiddleware testClock testEnv aliceID true
      = t.RefreshToken := by
    unfold refreshTokenOf
    rw [ht]
  rw [hr]
  exact h testNow testEnv (by decide)

/-- C14, the claim as stated fails: with equal lifetimes and a clock that
stands still the access token and the refresh token of one pair are the same
string, and the refresh token of the pair issued to the stored principal,
sent as a bearer token, is admitted. -/
theorem no_kind_discriminator_counterexample :
    accessTokenOf refLib testMiddleware testClock equalEnv aliceID false
      = refreshTokenOf refLib testMiddleware testClock equalEnv aliceID false ∧
    ParseToken refLib testMiddleware testNow testEnv
        (refreshTokenOf refLib testMiddleware testClock testEnv aliceID false)
      = .ret (aliceID, false, none) ∧
    (Middleware.AuthMiddleware.gate refLib testMiddleware testNow false
        (request ("Bearer " ++
          refreshTokenOf refLib testMiddleware testClock testEnv aliceID false))).2 = true := by
  decide

/-- C15 (one snapshot in both tokens, no partial pair): when `CreateToken`
returns a pair, both tokens decode to claims with `id` the user id and
`is_admin` the flag it was called with; when the signing of the access token
fails, or that of the refresh token after it, `CreateToken` returns the error
and no `Tokens` value. -/
theorem pair_claims (lib : JwtLib) (hrt : lib.RoundTrip) (hdf : lib.DotFree) (m : Middleware)
    (clock : Nat → Time) (env : Env) (u : String) (a : Bool) :
    (∀ t, CreateToken lib m clock env u a = .ret (.ok t) →
      ∃ a0 a1 a2 r0 r1 r2 hA cA hR cR,
        Decoded lib t.AccessToken a0 a1 a2 hA cA m.jwt.SigningAlgorithm
          (.HMAC m.jwt.SigningAlgorithm) ∧
        Decoded lib t.RefreshToken r0 r1 r2 hR cR m.jwt.SigningAlgorithm
          (.HMAC m.jwt.SigningAlgorithm) ∧
        cA.get claimsID = some (.str u) ∧ cA.get isAdminClaims = some (.bool a) ∧
        cR.get claimsID = some (.str u) ∧ cR.get isAdminClaims = some (.bool a)) ∧
    (∀ tokA err,
      NewWithClaims (GetSigningMethod m.jwt.SigningAlgorithm)
        (CreateToken.accessClaims clock env u a) = .ret tokA →
      tokA.SignedString lib m.jwt.Key = .error err →
      CreateToken lib m clock env u a = .ret (.error err)) ∧
    (∀ tokA sA tokR err,
      NewWithClaims (GetSigningMethod m.jwt.SigningAlgorithm)
        (CreateToken.accessClaims clock env u a) = .ret tokA →
      tokA.SignedString lib m.jwt.Key = .ok sA →
      NewWithClaims (GetSigningMethod m.jwt.SigningAlgorithm)
        (CreateToken.refreshClaims clock env u a) = .ret tokR →
      tokR.SignedString lib m.jwt.Key = .error err →
      CreateToken lib m clock env u a = .ret (.error err)) := by
  refine ⟨?_, ?_, ?_⟩
  · intro t ht
    have halg := CreateToken_ok_hmac lib m clock env u a t ht
    have ht2 := CreateToken_hmac lib m halg clock env u a
    rw [ht] at ht2
    simp only [Outcome.ret.injEq, Except.ok.injEq] at ht2
    obtain ⟨hA, cA, hcA, _, hdA⟩ := issued_decoded lib hrt hdf m.jwt.SigningAlgorithm halg
      (CreateToken.accessClaims clock env u a)
    obtain ⟨hR, cR, hcR, _, hdR⟩ := issued_decoded lib hrt hdf m.jwt.SigningAlgorithm halg
      (CreateToken.refreshClaims clock env u a)
    subst ht2
    refine ⟨_, _, _, _, _, _, hA, cA, hR, cR, hdA _ (hdf.2 _ _ _), hdR _ (hdf.2 _ _ _),
      ?_, ?_, ?_, ?_⟩
    · rw [hcA]; rfl
    · rw [hcA]; rfl
    · rw [hcR]; rfl
    · rw [hcR]; rfl
  · intro tokA err hA hsA
    unfold CreateToken.accessClaims at hA
    unfold CreateToken
    simp only [hA, hsA]
  · intro tokA sA tokR err hA hsA hR hsR
    unfold CreateToken.accessClaims at hA
    unfold CreateToken.refreshClaims at hR
    unfold CreateToken
    simp only [hA, hsA, hR, hsR]

/-- Witness of `pair_claims`: a pair issued under HS256, and no pair under an
RSA method with a byte-string key, which `SigningMethodRSA.Sign` answers with
`ErrInvalidKey`. -/
theorem pair_claims_witness :
    (∃ t, CreateToken refLib testMiddleware testClock testEnv aliceID true = .ret (.ok t) ∧
      ∃ a0 a1 a2 r0 r1 r2 hA cA hR cR,
        Decoded refLib t.AccessToken a0 a1 a2 hA cA "HS256" (.HMAC "HS256") ∧
        Decoded refLib t.RefreshToken r0 r1 r2 hR cR "HS256" (.HMAC "HS256") ∧
        cA.get claimsID = some (.str aliceID) ∧ cA.get isAdminClaims = some (.bool true) ∧
        cR.get claimsID = some (.str aliceID) ∧ cR.get isAdminClaims = some (.bool true)) ∧
    CreateToken refLib rsaMiddleware testClock testEnv aliceID true
      = .ret (.error (.other "key is invalid")) := by
  have h := pair_claims refLib refLib_RoundTrip refLib_DotFree testMiddleware testClock testEnv
    aliceID true
  have h2 := pair_claims refLib refLib_RoundTrip refLib_DotFree rsaMiddleware testClock testEnv
    aliceID true
  exact ⟨⟨_, rfl, h.1 _ rfl⟩, h2.2.1 _ _ rfl rfl⟩

/-- C20 (encode timestamps, amended): the access token carries `exp`, the
whole Unix second of the first clock reading plus the access lifetime, and
`orig_iat`, the whole second of the second reading; the refresh token carries
the same of the third and fourth readings and the refresh lifetime; the two
expiry fields of `Tokens` are the fifth and the sixth reading plus the
lifetimes. When all readings are one instant `now`, `orig_iat` is `now` and
`exp` is `now` plus the lifetime, in whole seconds, in both tokens, and each
expiry field lies in the second its token's `exp` names. -/
theorem encode_timestamps (lib : JwtLib) (hrt : lib.RoundTrip) (hdf : lib.DotFree)
    (m : Middleware)
    (halg : m.jwt.SigningAlgorithm = "HS256" ∨ m.jwt.SigningAlgorithm = "HS384" ∨
      m.jwt.SigningAlgorithm = "HS512")
    (clock : Nat → Time) (env : Env) (u : String) (a : Bool) :
    ∃ t a0 a1 a2 r0 r1 r2 hA cA hR cR,
      CreateToken lib m clock env u a = .ret (.ok t) ∧
      Decoded lib t.AccessToken a0 a1 a2 hA cA m.jwt.SigningAlgorithm
        (.HMAC m.jwt.SigningAlgorithm) ∧
      Decoded lib t.RefreshToken r0 r1 r2 hR cR m.jwt.SigningAlgorithm
        (.HMAC m.jwt.SigningAlgorithm) ∧
      cA.get claimsExpiry = some (.num ((clock 0).Add (jwtAccessTokenExpiry env)).Unix) ∧
      cA.get claimsCreatedAt = some (.num (clock 1).Unix) ∧
      cR.get claimsExpiry = some (.num ((clock 2).Add (jwtRefreshTokenExpiry env)).Unix) ∧
      cR.get claimsCreatedAt = some (.num (clock 3).Unix) ∧
      t.AccessTokenExpiry = (clock 4).Add (jwtAccessTokenExpiry env) ∧
      t.RefreshTokenExpiry = (clock 5).Add (jwtRefreshTokenExpiry env) ∧
      ∀ now : Time, (∀ k, clock k = now) →
        cA.get claimsCreatedAt = some (.num now.Unix) ∧
        cA.get claimsExpiry = some (.num (now.Add (jwtAccessTokenExpiry env)).Unix) ∧
        cR.get claimsCreatedAt = some (.num now.Unix) ∧
        cR.get claimsExpiry = some (.num (now.Add (jwtRefreshTokenExpiry env)).Unix) ∧
        cA.get claimsExpiry = some (.num t.AccessTokenExpiry.Unix) ∧
        cR.get claimsExpiry = some (.num t.RefreshTokenExpiry.Unix) := by
  obtain ⟨hA, cA, hcA, _, hdA⟩ := issued_decoded lib hrt hdf m.jwt.SigningAlgorithm halg
    (CreateToken.accessClaims clock env u a)
  obtain ⟨hR, cR, hcR, _, hdR⟩ := issued_decoded lib hrt hdf m.jwt.SigningAlgorithm halg
    (CreateToken.refreshClaims clock env u a)
  have e1 : cA.get claimsExpiry
      = some (.num ((clock 0).Add (jwtAccessTokenExpiry env)).Unix) := by rw [hcA]; rfl
  have e2 : cA.get claimsCreatedAt = some (.num (clock 1).Unix) := by rw [hcA]; rfl
  have e3 : cR.get claimsExpiry
      = some (.num ((clock 2).Add (jwtRefreshTokenExpiry env)).Unix) := by rw [hcR]; rfl
  have e4 : cR.get claimsCreatedAt = some (.num (clock 3).Unix) := by rw [hcR]; rfl
  refine ⟨_, _, _, _, _, _, _, hA, cA, hR, cR, CreateToken_hmac lib m halg clock env u a,
    hdA _ (hdf.2 _ _ _), hdR _ (hdf.2 _ _ _), e1, e2, e3, e4, rfl, rfl, ?_⟩
  intro now hnow
  rw [e1, e2, e3, e4]
  simp only [hnow, and_self]

/-- Witness of `encode_timestamps`: a clock that stands at 1000 s, a ten
minute access lifetime and a one hour refresh lifetime. -/
theorem encode_timestamps_witness :
    ∃ t a0 a1 a2 r0 r1 r2 hA cA hR cR,
      CreateToken refLib testMiddleware testClock testEnv aliceID false = .ret (.ok t) ∧
      Decoded refLib t.AccessToken a0 a1 a2 hA cA "HS256" (.HMAC "HS256") ∧
      Decoded refLib t.RefreshToken r0 r1 r2 hR cR "HS256" (.HMAC "HS256") ∧
      cA.get claimsCreatedAt = some (.num 1000) ∧
      cA.get claimsExpiry = some (.num 1600) ∧
      cR.get claimsCreatedAt = some (.num 1000) ∧
      cR.get claimsExpiry = some (.num 4600) ∧
      t.AccessTokenExpiry.Unix = 1600 ∧ t.RefreshTokenExpiry.Unix = 4600 := by
  obtain ⟨t, a0, a1, a2, r0, r1, r2, hA, cA, hR, cR, ht, hdA, hdR, _, _, _, _, x1, x2, h⟩ :=
    encode_timestamps refLib refLib_RoundTrip refLib_DotFree testMiddleware (Or.inl rfl)
      testClock testEnv aliceID false
  obtain ⟨y1, y2, y3, y4, _, _⟩ := h testNow (fun _ => rfl)
  refine ⟨t, a0, a1, a2, r0, r1, r2, hA, cA, hR, cR, ht, hdA, hdR, ?_, ?_, ?_, ?_, ?_, ?_⟩
  · rw [y1]; decide
  · rw [y2]; decide
  · rw [y3]; decide
  · rw [y4]; decide
  · rw [x1]; decide
  · rw [x2]; decide

/-- C20, the claim as stated fails: the clock reads 999.9999 s when the `exp`
of the access token is taken and 1000.0001 s from then on; with a ten minute
lifetime the token carries `exp` 1599 and `orig_iat` 1000, which are not 600 s
apart, and `AccessTokenExpiry` lies in the second 1600, not in 1599. -/
theorem encode_timestamps_counterexample :
    (jwtAccessTokenExpiry testEnv) = 600 * 1000000000 ∧
    (ParseUnverified refLib
        (accessTokenOf refLib testMiddleware tickingClock testEnv aliceID false)).1.map
      (fun tok => (tok.Claims.get claimsExpiry, tok.Claims.get claimsCreatedAt))
      = some (some (.num 1599), some (.num 1000)) ∧
    (match CreateToken refLib testMiddleware tickingClock testEnv aliceID false with
      | .ret (.ok t) => t.AccessTokenExpiry.Unix
      | _ => 0) = 1600 := by
  decide

/-- C16 (refresh validation, amended): `ValidateRefreshToken` issues no token.
For a refresh token string that decodes to a token of an HMAC method whose
signature verifies under the configured key, whose claims pass the time checks
at both clock readings and whose `id` claim is the string `id`, it returns the
UUID that `uuid.Parse` reads from `id` with a nil error, or a nil identifier
with `ErrInvalidToken` when `id` is not a UUID; the `is_admin` claim is not
read, and the result does not depend on the application the middleware holds,
so the user store is not called. -/
theorem refresh_validation (lib : JwtLib) (m : Middleware) (clock : Nat → Time) (env : Env)
    (s p0 p1 p2 : String) (header claims : MapClaims) (alg x id : String)
    (h : Decoded lib s p0 p1 p2 header claims alg (.HMAC x))
    (hv : lib.Verify x m.jwt.Key (p0 ++ "." ++ p1) p2 = true)
    (h0 : (claims.Valid (clock 0)).2 = 0) (h1 : (claims.Valid (clock 1)).2 = 0)
    (hid : claims.get claimsID = some (.str id)) :
    ValidateRefreshToken lib m clock env s =
      (match uuid.Parse id with
        | some parsedUUID => .ret (some parsedUUID, none)
        | none => .ret (none, some .ErrInvalidToken)) ∧
    ∀ app1 : App, ValidateRefreshToken lib { m with app := app1 } clock env s
      = ValidateRefreshToken lib m clock env s := by
  refine ⟨?_, fun _ => rfl⟩
  rw [ValidateRefreshToken_hmac lib m clock env s p0 p1 p2 header claims alg x h]
  simp only [hv, h0, if_true]
  unfold ValidateRefreshToken.readClaims
  simp only [h1, ne_eq, not_true_eq_false, if_false, hid]
  cases uuid.Parse id <;> rfl

/-- Witness of `refresh_validation`: the refresh token issued for a user id
gives back that id as a UUID, and the refresh token issued for an id of 38
characters that is 39 bytes long, which is no length of a UUID, gives
`ErrInvalidToken`. -/
theorem refresh_validation_witness :
    ValidateRefreshToken refLib testMiddleware testClock testEnv
        (refreshTokenOf refLib testMiddleware testClock testEnv aliceID true)
      = .ret (some aliceUUID, none) ∧
    ValidateRefreshToken refLib testMiddleware testClock testEnv
        (refreshTokenOf refLib testMiddleware testClock testEnv braceID true)
      = .ret (none, some .ErrInvalidToken) :=
  ⟨(refresh_validation refLib testMiddleware testClock testEnv
    (refreshTokenOf refLib testMiddleware testClock testEnv aliceID true)
    (refLib.encodeJSON (jwtHeader "HS256"))
    (refLib.encodeJSON (CreateToken.refreshClaims testClock testEnv aliceID true))
    (signatureOf refLib "HS256" testMiddleware.jwt.Key
      (CreateToken.refreshClaims testClock testEnv aliceID true))
    (jwtHeader "HS256") (CreateToken.refreshClaims testClock testEnv aliceID true)
    "HS256" "HS256" aliceID (by unfold Decoded; decide) (by decide) (by decide) (by decide)
    (by decide)).1,
   (refresh_validation refLib testMiddleware testClock testEnv
    (refreshTokenOf refLib testMiddleware testClock testEnv braceID true)
    (refLib.encodeJSON (jwtHeader "HS256"))
    (refLib.encodeJSON (CreateToken.refreshClaims testClock testEnv braceID true))
    (signatureOf refLib "HS256" testMiddleware.jwt.Key
      (CreateToken.refreshClaims testClock testEnv braceID true))
    (jwtHeader "HS256") (CreateToken.refreshClaims testClock testEnv braceID true)
    "HS256" "HS256" braceID (by unfold Decoded; decide) (by decide) (by decide) (by decide)
    (by decide)).1⟩

/-- C16, the claim as stated fails: on the refresh tokens issued for an
administrator and for a plain user of the same id, `ValidateRefreshToken`
returns the same value, the UUID of the id, which carries no `is_admin` and is
no token: `ParseToken` rejects its text. -/
theorem refresh_validation_counterexample :
    ValidateRefreshToken refLib testMiddleware testClock testEnv
        (refreshTokenOf refLib testMiddleware testClock testEnv aliceID true)
      = .ret (some aliceUUID, none) ∧
    ValidateRefreshToken refLib testMiddleware testClock testEnv
        (refreshTokenOf refLib testMiddleware testClock testEnv aliceID false)
      = .ret (some aliceUUID, none) ∧
    refreshTokenOf refLib testMiddleware testClock testEnv aliceID true
      ≠ refreshTokenOf refLib testMiddleware testClock testEnv aliceID false ∧
    ParseToken refLib testMiddleware testNow testEnv aliceUUID.String
      = .ret ("", false, some .ErrInvalidToken) := by
  decide

/-- C17 (refresh error propagation): when `jwt.Parse` with the HMAC key
function returns the error `e` on a refresh token string, with or without a
token, `ValidateRefreshToken` returns a nil identifier and exactly `e`. -/
theorem refresh_error_propagation (lib : JwtLib) (m : Middleware) (clock : Nat → Time)
    (env : Env) (s : String) (tok : Option Token) (e : GoError)
    (h : Parse lib (clock 0) s (ValidateRefreshToken.keyFunc m) = (tok, some e)) :
    ValidateRefreshToken lib m clock env s = .ret (none, some e) := by
  unfold ValidateRefreshToken
  rw [h]
  cases tok <;> rfl

/-- Witness of `refresh_error_propagation`: a string of one segment, a refresh
token under a foreign signature, and a refresh token after its expiry give
three different errors. -/
theorem refresh_error_propagation_witness :
    ValidateRefreshToken refLib testMiddleware testClock testEnv "abc"
      = .ret (none, some (.ValidationError "token contains an invalid number of segments"
          ValidationErrorMalformed)) ∧
    ValidateRefreshToken refLib testMiddleware testClock testEnv
        (assemble refLib (jwtHeader "HS256")
          (CreateToken.refreshClaims testClock testEnv aliceID false) "AAAA")
      = .ret (none, some (.ValidationError "signature is invalid"
          ValidationErrorSignatureInvalid)) ∧
    ValidateRefreshToken refLib testMiddleware (fun _ => 5000000000000) testEnv
        (refreshTokenOf refLib testMiddleware testClock testEnv aliceID false)
      = .ret (none, some (.ValidationError "Token is expired" ValidationErrorExpired)) :=
  ⟨refresh_error_propagation refLib testMiddleware testClock testEnv "abc" none _ (by decide),
   refresh_error_propagation refLib testMiddleware testClock testEnv _
     (some { unverifiedToken
        (assemble refLib (jwtHeader "HS256")
          (CreateToken.refreshClaims testClock testEnv aliceID false) "AAAA")
        (jwtHeader "HS256") (CreateToken.refreshClaims testClock testEnv aliceID false)
        (.HMAC "HS256") with Signature := "AAAA" }) _ (by decide),
   refresh_error_propagation refLib testMiddleware (fun _ => 5000000000000) testEnv _
     (some { unverifiedToken
        (refreshTokenOf refLib testMiddleware testClock testEnv aliceID false)
        (jwtHeader "HS256") (CreateToken.refreshClaims testClock testEnv aliceID false)
        (.HMAC "HS256") with
        Signature := signatureOf refLib "HS256" testMiddleware.jwt.Key
          (CreateToken.refreshClaims testClock testEnv aliceID false) }) _ (by decide)⟩

/-- A token string that has not three segments gets no token from
`ParseUnverified`. -/
theorem ParseUnverified_segments (lib : JwtLib) (s : String)
    (h : (Split s '.').length ≠ 3) :
    ParseUnverified lib s = (none, Split s '.',
      some (.ValidationError "token contains an invalid number of segments"
        ValidationErrorMalformed)) := by
  unfold ParseUnverified
  rcases hs : Split s '.' with _ | ⟨p0, _ | ⟨p1, _ | ⟨p2, _ | ⟨p3, rest⟩⟩⟩⟩
  · rfl
  · rfl
  · rfl
  · rw [hs] at h; exact absurd rfl h
  · rfl

/-- The bits of the claims check: never `SignatureInvalid`, and `Expired`
exactly when the expiry check fails. -/
theorem Valid_bits (c : MapClaims) (now : Time) :
    (c.Valid now).2 &&& ValidationErrorSignatureInvalid = 0 ∧
    ((c.Valid now).2 ||| ValidationErrorSignatureInvalid) &&& ValidationErrorSignatureInvalid
      = ValidationErrorSignatureInvalid ∧
    ((c.Valid now).2 &&& ValidationErrorExpired = ValidationErrorExpired ↔
      c.VerifyExpiresAt now.Unix false = false) ∧
    (((c.Valid now).2 ||| ValidationErrorSignatureInvalid) &&& ValidationErrorExpired
        = ValidationErrorExpired ↔
      c.VerifyExpiresAt now.Unix false = false) := by
  unfold MapClaims.Valid
  simp only
  generalize c.VerifyExpiresAt now.Unix false = e1
  generalize c.VerifyIssuedAt now.Unix false = e2
  generalize c.VerifyNotBefore now.Unix false = e3
  cases e1 <;> cases e2 <;> cases e3 <;> decide

/-- The type assertions of `ParseToken` either panic or return the claims with
a nil error. -/
theorem readClaims_cases (claims : MapClaims) :
    (∃ msg, ParseToken.readClaims claims = .panic msg) ∨
    (∃ u a, ParseToken.readClaims claims = .ret (u, a, none)) := by
  unfold ParseToken.readClaims
  cases claims.get claimsID with
  | none => exact Or.inl ⟨_, rfl⟩
  | some v =>
    cases v with
    | str id =>
      cases claims.get isAdminClaims with
      | none => exact Or.inr ⟨_, _, rfl⟩
      | some w => cases w <;> first | exact Or.inr ⟨_, _, rfl⟩ | exact Or.inl ⟨_, rfl⟩
    | num n => exact Or.inl ⟨_, rfl⟩
    | bool b => exact Or.inl ⟨_, rfl⟩
    | null => exact Or.inl ⟨_, rfl⟩
    | composite => exact Or.inl ⟨_, rfl⟩

/-- With a string `id` and an `is_admin` that is a boolean or absent, the
type assertions of `ParseToken` hold and it returns the claims. -/
theorem readClaims_typed (claims : MapClaims)
    (h : (∃ id, claims.get claimsID = some (.str id)) ∧
      (claims.get isAdminClaims = none ∨ ∃ b, claims.get isAdminClaims = some (.bool b))) :
    ∃ u a, ParseToken.readClaims claims = .ret (u, a, none) := by
  obtain ⟨⟨id, hid⟩, hadm⟩ := h
  unfold ParseToken.readClaims
  rw [hid]
  rcases hadm with h | ⟨b, h⟩
  · rw [h]; exact ⟨_, _, rfl⟩
  · rw [h]; exact ⟨_, _, rfl⟩

/-- C18 (decode outcomes, amended): on every token string whose claims, when
it decodes, have a string `id` and an `is_admin` that is a boolean or absent,
`ParseToken` returns claims with a nil error, or `ErrInvalidToken`, or a jwt
validation error whose bits are `Malformed` alone, `Unverifiable` alone, or a
combination of `SignatureInvalid`, `Expired`, `IssuedAt` and `NotValidYet`. A
string that has not three segments gives `ErrInvalidToken`; a decoded token of
a method outside the HMAC family gives the `Unverifiable` error of the key
function, which names the method; a decoded HMAC token whose signature does
not verify gives the error of the signature check with the `SignatureInvalid`
bit, and with the `Expired` bit as well when it is expired; one whose
signature verifies and whose claims check fails gives the error of the claims
check, which never has the `SignatureInvalid` bit and has the `Expired` bit
exactly when the expiry check fails. -/
theorem decode_outcomes (lib : JwtLib) (m : Middleware) (now : Time) (env : Env) (s : String)
    (hty : ∀ p0 p1 p2 header claims alg sm, Decoded lib s p0 p1 p2 header claims alg sm →
      (∃ id, claims.get claimsID = some (.str id)) ∧
      (claims.get isAdminClaims = none ∨ ∃ b, claims.get isAdminClaims = some (.bool b))) :
    ((∃ u a, ParseToken lib m now env s = .ret (u, a, none)) ∨
     ParseToken lib m now env s = .ret ("", false, some .ErrInvalidToken) ∨
     (∃ inner flags, ParseToken lib m now env s
         = .ret ("", false, some (.ValidationError inner flags)) ∧
       flags ∈ [1, 2, 4, 16, 20, 32, 36, 48, 52, 128, 132, 144, 148, 160, 164, 176, 180])) ∧
    ((Split s '.').length ≠ 3 →
      ParseToken lib m now env s = .ret ("", false, some .ErrInvalidToken)) ∧
    (∀ p0 p1 p2 header claims alg x, Decoded lib s p0 p1 p2 header claims alg (.nonHMAC x) →
      ParseToken lib m now env s = .ret ("", false,
        some (.ValidationError ("unexpected signing method: " ++ alg)
          ValidationErrorUnverifiable))) ∧
    (∀ p0 p1 p2 header claims alg x, Decoded lib s p0 p1 p2 header claims alg (.HMAC x) →
      (lib.Verify x m.jwt.Key (p0 ++ "." ++ p1) p2 = false →
        ParseToken lib m now env s = .ret ("", false,
          some (.ValidationError (lib.verifyError p2).text
            ((claims.Valid now).2 ||| ValidationErrorSignatureInvalid)))) ∧
      (lib.Verify x m.jwt.Key (p0 ++ "." ++ p1) p2 = true → (claims.Valid now).2 ≠ 0 →
        ParseToken lib m now env s = .ret ("", false,
          some (.ValidationError (claims.Valid now).1 (claims.Valid now).2))) ∧
      (lib.Verify x m.jwt.Key (p0 ++ "." ++ p1) p2 = true → (claims.Valid now).2 = 0 →
        ∃ u a, ParseToken lib m now env s = .ret (u, a, none)) ∧
      (claims.Valid now).2 &&& ValidationErrorSignatureInvalid = 0 ∧
      ((claims.Valid now).2 ||| ValidationErrorSignatureInvalid)
          &&& ValidationErrorSignatureInvalid = ValidationErrorSignatureInvalid ∧
      ((claims.Valid now).2 &&& ValidationErrorExpired = ValidationErrorExpired ↔
        claims.VerifyExpiresAt now.Unix false = false) ∧
      (((claims.Valid now).2 ||| ValidationErrorSignatureInvalid) &&& ValidationErrorExpired
          = ValidationErrorExpired ↔
        claims.VerifyExpiresAt now.Unix false = false)) := by
  refine ⟨?_, ?_, ?_, ?_⟩
  · rcases ParseUnverified_cases lib s with
      ⟨p0, p1, p2, header, claims, alg, sm, hd⟩ | ⟨parts, inner, hp⟩ |
      ⟨tok, parts, inner, flags, hp, hval, hfl⟩
    · cases sm with
      | HMAC x =>
        rw [ParseToken_hmac lib m now env s p0 p1 p2 header claims alg x hd]
        by_cases hv : lib.Verify x m.jwt.Key (p0 ++ "." ++ p1) p2 = true
        · simp only [hv, if_true]
          by_cases hz : (claims.Valid now).2 = 0
          · simp only [hz, if_true]
            exact Or.inl (readClaims_typed claims (hty _ _ _ _ _ _ _ hd))
          · simp only [hz, if_false]
            refine Or.inr (Or.inr ⟨_, _, rfl, ?_⟩)
            rcases Valid_flags claims now with h | h | h | h | h | h | h | h
            · exact absurd h hz
            all_goals rw [h]; decide
        · simp only [hv, Bool.false_eq_true, if_false]
          refine Or.inr (Or.inr ⟨_, _, rfl, ?_⟩)
          rcases Valid_flags claims now with h | h | h | h | h | h | h | h <;> rw [h] <;> decide
      | nonHMAC x =>
        rw [ParseToken_nonHMAC lib m now env s p0 p1 p2 header claims alg x hd]
        exact Or.inr (Or.inr ⟨_, _, rfl, by decide⟩)
    · rw [ParseToken_undecoded_none lib m now env s parts _ hp]
      exact Or.inr (Or.inl rfl)
    · rw [ParseToken_undecoded_some lib m now env s tok parts _ hp hval]
      refine Or.inr (Or.inr ⟨_, _, rfl, ?_⟩)
      rcases hfl with h | h <;> rw [h] <;> decide
  · intro h
    exact ParseToken_undecoded_none lib m now env s _ _ (ParseUnverified_segments lib s h)
  · intro p0 p1 p2 header claims alg x hd
    exact ParseToken_nonHMAC lib m now env s p0 p1 p2 header claims alg x hd
  · intro p0 p1 p2 header claims alg x hd
    have hb := Valid_bits claims now
    refine ⟨?_, ?_, ?_, hb.1, hb.2.1, hb.2.2.1, hb.2.2.2⟩
    · intro hv
      rw [ParseToken_hmac lib m now env s p0 p1 p2 header claims alg x hd]
      simp only [hv, Bool.false_eq_true, if_false]
    · intro hv hz
      rw [ParseToken_hmac lib m now env s p0 p1 p2 header claims alg x hd]
      simp only [hv, hz, if_true, if_false]
    · intro hv hz
      rw [ParseToken_hmac lib m now env s p0 p1 p2 header claims alg x hd]
      simp only [hv, hz, if_true]
      exact readClaims_typed claims (hty _ _ _ _ _ _ _ hd)

/-- Witness of `decode_outcomes`: a string of one segment, and an issued token
under a foreign signature. -/
theorem decode_outcomes_witness :
    ParseToken refLib testMiddleware testNow testEnv "abc"
      = .ret ("", false, some .ErrInvalidToken) ∧
    ParseToken refLib testMiddleware testNow testEnv
        (assemble refLib (jwtHeader "HS256")
          (CreateToken.accessClaims testClock testEnv aliceID false) "AAAA")
      = .ret ("", false, some (.ValidationError (refLib.verifyError "AAAA").text
          (((CreateToken.accessClaims testClock testEnv aliceID false).Valid testNow).2 |||
            ValidationErrorSignatureInvalid))) :=
  ⟨(decode_outcomes refLib testMiddleware testNow testEnv "abc"
      (fun p0 p1 p2 header claims alg sm hd => by
        have h1 : Split "abc" '.' = ["abc"] := by decide
        have h2 := hd.1
        rw [h1] at h2
        simp at h2)).2.1 (by decide),
   ((decode_outcomes refLib testMiddleware testNow testEnv
      (assemble refLib (jwtHeader "HS256")
        (CreateToken.accessClaims testClock testEnv aliceID false) "AAAA")
      (fun p0 p1 p2 header claims alg sm hd => by
        have hd0 : Decoded refLib
            (assemble refLib (jwtHeader "HS256")
              (CreateToken.accessClaims testClock testEnv aliceID false) "AAAA")
            (refLib.encodeJSON (jwtHeader "HS256"))
            (refLib.encodeJSON (CreateToken.accessClaims testClock testEnv aliceID false))
            "AAAA" (jwtHeader "HS256")
            (CreateToken.accessClaims testClock testEnv aliceID false) "HS256"
            (.HMAC "HS256") := by unfold Decoded; decide
        obtain ⟨_, _, _, _, hc, _, _⟩ := Decoded_unique refLib _ _ _ _ _ _ _ _ _ _ _ _ _ _ _
          hd hd0
        rw [hc]
        exact ⟨⟨_, rfl⟩, Or.inr ⟨_, rfl⟩⟩)).2.2.2
      (refLib.encodeJSON (jwtHeader "HS256"))
      (refLib.encodeJSON (CreateToken.accessClaims testClock testEnv aliceID false)) "AAAA"
      (jwtHeader "HS256") (CreateToken.accessClaims testClock testEnv aliceID false)
      "HS256" "HS256" (by unfold Decoded; decide)).1 (by decide)⟩

/-- C18, the claim as stated fails: a token of the method `none` gets an
`Unverifiable` error, which is none of the three; an expired token under a
foreign signature gets one error that is both `SignatureInvalid` and
`Expired`; a signed token with `iat` ahead of the clock gets an `IssuedAt`
error; and two unparsable strings get different errors, `ErrInvalidToken` and
a `Malformed` validation error. -/
theorem decode_outcomes_counterexample :
    ParseToken refLib testMiddleware testNow testEnv
        (assemble refLib (jwtHeader "none")
          (CreateToken.accessClaims testClock testEnv aliceID false) "")
      = .ret ("", false,
          some (.ValidationError "unexpected signing method: none"
            ValidationErrorUnverifiable)) ∧
    ParseToken refLib testMiddleware 5000000000000 testEnv
        (assemble refLib (jwtHeader "HS256")
          (CreateToken.accessClaims testClock testEnv aliceID false) "AAAA")
      = .ret ("", false, some (.ValidationError "signature is invalid"
          (ValidationErrorExpired ||| ValidationErrorSignatureInvalid))) ∧
    ParseToken refLib testMiddleware testNow testEnv
        (signedWith refLib "HS256" testMiddleware.jwt.Key
          [(claimsID, .str aliceID), ("iat", .num 9999)])
      = .ret ("", false,
          some (.ValidationError "Token used before issued" ValidationErrorIssuedAt)) ∧
    ParseToken refLib testMiddleware testNow testEnv "abc"
      = .ret ("", false, some .ErrInvalidToken) ∧
    ParseToken refLib testMiddleware testNow testEnv "a.b.c"
      = .ret ("", false, some (.ValidationError "illegal base64 data at input byte 1"
          ValidationErrorMalformed)) := by
  refine ⟨by decide, by decide, by decide, by decide, by decide⟩

/-- On a decoded HMAC token whose signature verifies and whose claims pass the
time checks, `ParseToken` panics when the `id` claim is absent or not a
string. -/
theorem ParseToken_panics_of_id (lib : JwtLib) (m : Middleware) (now : Time) (env : Env)
    (s p0 p1 p2 : String) (header claims : MapClaims) (alg x : String)
    (h : Decoded lib s p0 p1 p2 header claims alg (.HMAC x))
    (hv : lib.Verify x m.jwt.Key (p0 ++ "." ++ p1) p2 = true)
    (h0 : (claims.Valid now).2 = 0)
    (hid : ∀ id, claims.get claimsID ≠ some (.str id)) :
    ParseToken lib m now env s = .panic "interface conversion: interface {} is not string" := by
  rw [ParseToken_hmac lib m now env s p0 p1 p2 header claims alg x h]
  simp only [hv, h0, if_true]
  unfold ParseToken.readClaims
  cases hc : claims.get claimsID with
  | none => rfl
  | some v =>
    cases v with
    | str id => exact absurd hc (hid id)
    | num n => rfl
    | bool b => rfl
    | null => rfl
    | composite => rfl

/-- C19 (no unhandled faults) fails on tokens signed with the configured key
and unexpired: without an `id` claim, or with one that is a number,
`ParseToken` and `ValidateRefreshToken` panic at `claims[claimsID].(string)`;
with a string `id` and an `is_admin` that is not a boolean, `ParseToken`
panics at `found.(bool)`; and the gate of middleware.go, given the first of
them as a bearer token, writes no response and does not reach `c.Next()`: the
panic unwinds the request. -/
theorem claim_assertion_panics :
    (∃ msg, ParseToken refLib testMiddleware testNow testEnv
        (signedWith refLib "HS256" testMiddleware.jwt.Key [(claimsExpiry, .num 5000)])
      = .panic msg) ∧
    (∃ msg, ValidateRefreshToken refLib testMiddleware testClock testEnv
        (signedWith refLib "HS256" testMiddleware.jwt.Key [(claimsExpiry, .num 5000)])
      = .panic msg) ∧
    (∃ msg, ParseToken refLib testMiddleware testNow testEnv
        (signedWith refLib "HS256" testMiddleware.jwt.Key
          [(claimsID, .num 7), (claimsExpiry, .num 5000)])
      = .panic msg) ∧
    (∃ msg, ValidateRefreshToken refLib testMiddleware testClock testEnv
        (signedWith refLib "HS256" testMiddleware.jwt.Key
          [(claimsID, .num 7), (claimsExpiry, .num 5000)])
      = .panic msg) ∧
    (∃ msg, ParseToken refLib testMiddleware testNow testEnv
        (signedWith refLib "HS256" testMiddleware.jwt.Key
          [(claimsID, .str aliceID), (claimsExpiry, .num 5000), (isAdminClaims, .str "yes")])
      = .panic msg) ∧
    Middleware.AuthMiddleware.gate refLib testMiddleware testNow false
        (request ("Bearer " ++
          signedWith refLib "HS256" testMiddleware.jwt.Key [(claimsExpiry, .num 5000)]))
      = ({ (request ("Bearer " ++
              signedWith refLib "HS256" testMiddleware.jwt.Key [(claimsExpiry, .num 5000)])) with
            written := []
            trace := [.ParseToken
              (signedWith refLib "HS256" testMiddleware.jwt.Key [(claimsExpiry, .num 5000)])]
            panicked := true }, false) := by
  refine ⟨⟨_, rfl⟩, ⟨_, rfl⟩, ⟨_, rfl⟩, ⟨_, rfl⟩, ⟨_, rfl⟩, by decide⟩

/-- C21 (encode determinism): two runs of `CreateToken` under the same signing
configuration, with the same two lifetime settings, the same user id and flag,
and clocks that read the same instant `now` at every call, have the same
outcome; when they return pairs, the two access tokens are the same string and
the two refresh tokens are the same string. The application, the rest of the
environment, and the environment the middleware itself holds play no part. -/
theorem encode_determinism (lib : JwtLib) (m1 m2 : Middleware) (clock1 clock2 : Nat → Time)
    (env1 env2 : Env) (u : String) (a : Bool) (now : Time)
    (hj : m1.jwt = m2.jwt)
    (ha : env1.JWTAccessTokenExpiry = env2.JWTAccessTokenExpiry)
    (hr : env1.JWTRefreshTokenExpiry = env2.JWTRefreshTokenExpiry)
    (h1 : ∀ k, clock1 k = now) (h2 : ∀ k, clock2 k = now) :
    CreateToken lib m1 clock1 env1 u a = CreateToken lib m2 clock2 env2 u a ∧
    ∀ t1 t2, CreateToken lib m1 clock1 env1 u a = .ret (.ok t1) →
      CreateToken lib m2 clock2 env2 u a = .ret (.ok t2) →
      t1.AccessToken = t2.AccessToken ∧ t1.RefreshToken = t2.RefreshToken := by
  have hEq : CreateToken lib m1 clock1 env1 u a = CreateToken lib m2 clock2 env2 u a := by
    unfold CreateToken jwtAccessTokenExpiry jwtRefreshTokenExpiry
    simp only [hj, ha, hr, h1, h2]
  refine ⟨hEq, ?_⟩
  intro t1 t2 e1 e2
  rw [hEq, e2] at e1
  simp only [Outcome.ret.injEq, Except.ok.injEq] at e1
  subst e1
  exact ⟨rfl, rfl⟩

/-- Witness of `encode_determinism`: the same configuration and clock with
another application and another signing-secret setting in the environment. -/
theorem encode_determinism_witness :
    CreateToken refLib testMiddleware testClock testEnv aliceID false
      = CreateToken refLib ⟨testMiddleware.jwt, equalEnv, fun _ => .error .ErrInvalidToken⟩
          (fun _ => testNow) ⟨"10", "1", "another"⟩ aliceID false ∧
    ∃ t, CreateToken refLib testMiddleware testClock testEnv aliceID false = .ret (.ok t) :=
  ⟨(encode_determinism refLib testMiddleware
      ⟨testMiddleware.jwt, equalEnv, fun _ => .error .ErrInvalidToken⟩ testClock
      (fun _ => testNow) testEnv ⟨"10", "1", "another"⟩ aliceID false testNow rfl rfl rfl
      (fun _ => rfl) (fun _ => rfl)).1,
   ⟨_, rfl⟩⟩

/-- Looking up a key that a filter on the keys keeps. -/
theorem lookup_filter_keep (p : String → Bool) (key : String) (hk : p key = true)
    (l : List (String × CtxVal)) :
    List.lookup key (l.filter fun a => p a.1) = List.lookup key l := by
  induction l with
  | nil => rfl
  | cons x xs ih =>
    by_cases hx : p x.1 = true
    · rw [List.filter_cons_of_pos (by simpa using hx)]
      simp only [List.lookup]
      rw [ih]
    · have hne : (key == x.1) = false := by
        cases hb : key == x.1 with
        | false => rfl
        | true =>
          have : key = x.1 := by simpa using hb
          rw [this] at hk
          exact absurd hk hx
      rw [List.filter_cons_of_neg (by simpa using hx)]
      simp only [List.lookup, hne]
      exact ih

/-- The gate leaves every key of the context but its own two as it found it. -/
theorem gate_admit_Get (lib : JwtLib) (m : Middleware) (now : Time) (onlyAdmin : Bool)
    (c : Context) (h : (Middleware.AuthMiddleware.gate lib m now onlyAdmin c).2 = true)
    (key : String) (h1 : key ≠ UserIDInContext) (h2 : key ≠ IsAdminInContext) :
    (Middleware.AuthMiddleware.gate lib m now onlyAdmin c).1.Get key = c.Get key := by
  obtain ⟨hpre, userID, isAdmin, uID, user, hp, hu, hl, hz, ha⟩ :=
    gate_admit_inv lib m now onlyAdmin c h
  unfold Middleware.AuthMiddleware.gate
  simp only [HasPrefix_ne_empty hpre, hpre, hp, hu, hl, hz, ha]
  have e1 : (key == IsAdminInContext) = false := by simpa using h2
  have e2 : (key == UserIDInContext) = false := by simpa using h1
  simp [Context.Get, Context.Header_Keys, Context.Set, Context.record, List.lookup,
    List.filter_filter, e1, e2]
  exact lookup_filter_keep (fun k => k != IsAdminInContext && k != UserIDInContext) key
    (by simp [h1, h2]) c.Keys

/-- On every admitted request `userHandler.me` reads what the context held
under `userId` before the gate ran, the empty string on a context in which
nothing is stored under that key, while `videoHandler.getMyVideos` reads the
subject of the token. -/
theorem me_userID_of_admitted (lib : JwtLib) (m : Middleware) (now : Time) (onlyAdmin : Bool)
    (c : Context) (h : (Middleware.AuthMiddleware.gate lib m now onlyAdmin c).2 = true) :
    userHandler.me.userID (Middleware.AuthMiddleware.gate lib m now onlyAdmin c).1
      = c.GetString "userId" ∧
    (c.Get "userId" = none →
      userHandler.me.userID (Middleware.AuthMiddleware.gate lib m now onlyAdmin c).1 = "") ∧
    ∃ userID isAdmin uID,
      ParseToken lib m now m.env (TrimPrefix c.Authorization "Bearer ")
        = .ret (userID, isAdmin, none) ∧
      uuid.Parse userID = some uID ∧
      videoHandler.getMyVideos.userUUID (Middleware.AuthMiddleware.gate lib m now onlyAdmin c).1
        = .ret (.ok uID) := by
  have hg := gate_admit_Get lib m now onlyAdmin c h "userId" (by decide) (by decide)
  have e : userHandler.me.userID (Middleware.AuthMiddleware.gate lib m now onlyAdmin c).1
      = c.GetString "userId" := by
    unfold userHandler.me.userID Context.GetString
    rw [hg]
  refine ⟨e, ?_, ?_⟩
  · intro hn
    rw [e]
    unfold Context.GetString
    rw [hn]
  · obtain ⟨hpre, userID, isAdmin, uID, user, hp, hu, hl, hz, ha⟩ :=
      gate_admit_inv lib m now onlyAdmin c h
    refine ⟨userID, isAdmin, uID, hp, hu, ?_⟩
    have hget : (Middleware.AuthMiddleware.gate lib m now onlyAdmin c).1.Get UserIDInContext
        = some (.str userID) := by
      unfold Middleware.AuthMiddleware.gate
      simp only [HasPrefix_ne_empty hpre, hpre, hp, hu, hl, hz, ha]
      simp [Context.Get, Context.Header_Keys, Context.Set, List.lookup, UserIDInContext,
        IsAdminInContext]
    unfold videoHandler.getMyVideos.userUUID
    rw [hget]
    simp only [hu]

/-- C22 (the injected id is the id consumed) fails for `userHandler.me`: on
the request that carries the access token just issued to a stored principal
the gate admits and stores the subject under `UserIDInContext`, from where
`videoHandler.getMyVideos` reads it; `userHandler.me` reads the key `userId`,
which nothing writes, and gets the empty string. -/
theorem me_reads_unset_key :
    (Middleware.AuthMiddleware.gate refLib testMiddleware testNow false
        (request (bearerOf aliceID false))).2 = true ∧
    (Middleware.AuthMiddleware.gate refLib testMiddleware testNow false
        (request (bearerOf aliceID false))).1.Get UserIDInContext = some (.str aliceID) ∧
    videoHandler.getMyVideos.userUUID
        (Middleware.AuthMiddleware.gate refLib testMiddleware testNow false
          (request (bearerOf aliceID false))).1 = .ret (.ok aliceUUID) ∧
    userHandler.me.userID
        (Middleware.AuthMiddleware.gate refLib testMiddleware testNow false
          (request (bearerOf aliceID false))).1 = "" := by
  refine ⟨by decide, by decide, rfl, by decide⟩

/-- C24 (rejection precedence): the gate reports the first failing check in
the order header, decode, subject parse, principal lookup, role, as the one
response it writes. A missing or malformed header gives 401 and the decoder is
not called; with a well-formed header, an error of `ParseToken` gives 401,
whatever the route; a subject that is not a UUID gives 400; a subject the
lookup does not resolve, or resolves to the zero UUID, gives 404, whatever
`onlyAdmin` is; only then a principal that is no administrator on an
admin-only route gives 403; and otherwise the request is admitted with no
response written. -/
theorem rejection_precedence (lib : JwtLib) (m : Middleware) (now : Time) (onlyAdmin : Bool)
    (c : Context) :
    (c.Authorization.length = 0 ∨ HasPrefix c.Authorization "Bearer " = false →
      ∃ d, Middleware.AuthMiddleware.gate lib m now onlyAdmin c
        = (ErrorResponse c StatusUnauthorized d, false)) ∧
    (HasPrefix c.Authorization "Bearer " = true →
      (∀ u a e, ParseToken lib m now m.env (TrimPrefix c.Authorization "Bearer ")
          = .ret (u, a, some e) →
        ∃ d, Middleware.AuthMiddleware.gate lib m now onlyAdmin c
          = (ErrorResponse (c.record (.ParseToken (TrimPrefix c.Authorization "Bearer ")))
              StatusUnauthorized d, false)) ∧
      (∀ u a, ParseToken lib m now m.env (TrimPrefix c.Authorization "Bearer ")
          = .ret (u, a, none) →
        (uuid.Parse u = none →
          ∃ d, Middleware.AuthMiddleware.gate lib m now onlyAdmin c
            = (ErrorResponse (c.record (.ParseToken (TrimPrefix c.Authorization "Bearer ")))
                StatusBadRequest d, false)) ∧
        (∀ uID, uuid.Parse u = some uID →
          (((∃ e, m.app uID = .error e) ∨
              ∃ user, m.app uID = .ok user ∧ EqualFold user.ID.String ZeroUUID = true) →
            ∃ d, Middleware.AuthMiddleware.gate lib m now onlyAdmin c
              = (ErrorResponse
                  ((c.record (.ParseToken (TrimPrefix c.Authorization "Bearer "))).record
                    (.GetUserByID uID))
                  StatusNotFound d, false)) ∧
          (∀ user, m.app uID = .ok user → EqualFold user.ID.String ZeroUUID = false →
            (onlyAdmin = true → user.IsAdmin = false →
              ∃ d, Middleware.AuthMiddleware.gate lib m now onlyAdmin c
                = (ErrorResponse
                    ((c.record (.ParseToken (TrimPrefix c.Authorization "Bearer "))).record
                      (.GetUserByID uID))
                    StatusForbidden d, false)) ∧
            (onlyAdmin = false ∨ user.IsAdmin = true →
              (Middleware.AuthMiddleware.gate lib m now onlyAdmin c).2 = true ∧
              (Middleware.AuthMiddleware.gate lib m now onlyAdmin c).1.written
                = c.written))))) := by
  refine ⟨?_, ?_⟩
  · intro h
    unfold Middleware.AuthMiddleware.gate
    simp only
    rcases h with h | h
    · simp only [h, if_true]
      exact ⟨_, rfl⟩
    · split
      · exact ⟨_, rfl⟩
      · simp only [h, Bool.not_false, if_true]
        exact ⟨_, rfl⟩
  · intro hpre
    refine ⟨?_, ?_⟩
    · intro u a e hp
      unfold Middleware.AuthMiddleware.gate
      simp only [HasPrefix_ne_empty hpre, hpre, hp]
      exact ⟨_, rfl⟩
    · intro u a hp
      refine ⟨?_, ?_⟩
      · intro hu
        unfold Middleware.AuthMiddleware.gate
        simp only [HasPrefix_ne_empty hpre, hpre, hp, hu]
        exact ⟨_, rfl⟩
      · intro uID hu
        refine ⟨?_, ?_⟩
        · intro hl
          unfold Middleware.AuthMiddleware.gate
          simp only [HasPrefix_ne_empty hpre, hpre, hp, hu]
          rcases hl with ⟨e, he⟩ | ⟨user, hl, hz⟩
          · simp only [he]
            exact ⟨_, rfl⟩
          · simp only [hl, hz, if_true]
            exact ⟨_, rfl⟩
        · intro user hl hz
          refine ⟨?_, ?_⟩
          · intro ho ha
            unfold Middleware.AuthMiddleware.gate
            simp only [HasPrefix_ne_empty hpre, hpre, hp, hu, hl, hz, ho, ha]
            exact ⟨_, rfl⟩
          · intro hoa
            have hb : (onlyAdmin && !user.IsAdmin) = false := by
              rcases hoa with h | h <;> simp [h]
            unfold Middleware.AuthMiddleware.gate
            simp only [HasPrefix_ne_empty hpre, hpre, hp, hu, hl, hz, hb]
            simp [Context.Header, Context.Set, Context.record, Sprint_ne_empty]

/-- Witness of `rejection_precedence`, both on an admin-only route: the
expired token of a stored principal who is no administrator gets 401, and the
token of an unknown subject gets 404. -/
theorem rejection_precedence_witness :
    (∃ d, Middleware.AuthMiddleware.gate refLib testMiddleware 5000000000000 true
        (request (bearerOf aliceID false))
      = (ErrorResponse
          ((request (bearerOf aliceID false)).record
            (.ParseToken (TrimPrefix (request (bearerOf aliceID false)).Authorization "Bearer ")))
          StatusUnauthorized d, false)) ∧
    (∃ d, Middleware.AuthMiddleware.gate refLib testMiddleware testNow true
        (request (bearerOf bobID false))
      = (ErrorResponse
          (((request (bearerOf bobID false)).record
            (.ParseToken (TrimPrefix (request (bearerOf bobID false)).Authorization "Bearer "))).record
            (.GetUserByID [26, 27, 28, 29, 30, 31, 74, 75, 140, 141, 32, 33, 34, 35, 36, 37]))
          StatusNotFound d, false)) :=
  ⟨((rejection_precedence refLib testMiddleware 5000000000000 true
      (request (bearerOf aliceID false))).2 (by decide)).1 "" false
      (.ValidationError "Token is expired" ValidationErrorExpired) (by decide),
   ((((rejection_precedence refLib testMiddleware testNow true
      (request (bearerOf bobID false))).2 (by decide)).2 bobID false (by decide)).2
      [26, 27, 28, 29, 30, 31, 74, 75, 140, 141, 32, 33, 34, 35, 36, 37] (by decide)).1
      (Or.inl ⟨.other "record not found", rfl⟩)⟩

/-- C25 (configured lifetimes, amended): `jwtAccessTokenExpiry` returns 10000
minutes when the setting is no decimal integer, and otherwise the product of
a minute and the integer `n` in 64-bit wrap-around arithmetic: exactly `n`
minutes when `n` is at most 153722867 in absolute value, positive when `n` is
positive and at most 153722867, and negative when `n` is from 153722868 to
307445734. `jwtRefreshTokenExpiry` returns 240000 hours when the setting is no
decimal integer, and otherwise the wrapped product of an hour and `n`: exactly
`n` hours up to 2562047 in absolute value, positive for positive `n` up to
2562047, and negative from 2562048 to 5124095. -/
theorem configured_lifetimes (env : Env) :
    (Atoi env.JWTAccessTokenExpiry = none → jwtAccessTokenExpiry env = 10000 * Minute) ∧
    (∀ n : Int, Atoi env.JWTAccessTokenExpiry = some n →
      jwtAccessTokenExpiry env = wrapInt64 (Minute * n) ∧
      (-153722867 ≤ n → n ≤ 153722867 → jwtAccessTokenExpiry env = n * Minute) ∧
      (0 < n → n ≤ 153722867 → 0 < jwtAccessTokenExpiry env) ∧
      (153722868 ≤ n → n ≤ 307445734 → jwtAccessTokenExpiry env < 0)) ∧
    (Atoi env.JWTRefreshTokenExpiry = none → jwtRefreshTokenExpiry env = 240000 * Hour) ∧
    (∀ n : Int, Atoi env.JWTRefreshTokenExpiry = some n →
      jwtRefreshTokenExpiry env = wrapInt64 (Hour * n) ∧
      (-2562047 ≤ n → n ≤ 2562047 → jwtRefreshTokenExpiry env = n * Hour) ∧
      (0 < n → n ≤ 2562047 → 0 < jwtRefreshTokenExpiry env) ∧
      (2562048 ≤ n → n ≤ 5124095 → jwtRefreshTokenExpiry env < 0)) := by
  refine ⟨?_, ?_, ?_, ?_⟩
  · intro h
    unfold jwtAccessTokenExpiry
    rw [h]
    decide
  · intro n h
    have e : jwtAccessTokenExpiry env = wrapInt64 (Minute * n) := by
      unfold jwtAccessTokenExpiry
      rw [h]
    rw [e]
    unfold wrapInt64 Minute
    refine ⟨rfl, ?_, ?_, ?_⟩
    · intro h1 h2
      show (60000000000 * n + 9223372036854775808) % 18446744073709551616
        - 9223372036854775808 = n * 60000000000
      omega
    · intro h1 h2
      have e1 : (60000000000 * n + 9223372036854775808) % 18446744073709551616
          - 9223372036854775808 = n * 60000000000 := by omega
      show (0 : Int) < (60000000000 * n + 9223372036854775808) % 18446744073709551616
        - 9223372036854775808
      rw [e1]
      omega
    · intro h1 h2
      have e1 : (60000000000 * n + 9223372036854775808) % 18446744073709551616
          - 9223372036854775808 = n * 60000000000 - 18446744073709551616 := by omega
      show (60000000000 * n + 9223372036854775808) % 18446744073709551616
        - 9223372036854775808 < (0 : Int)
      rw [e1]
      omega
  · intro h
    unfold jwtRefreshTokenExpiry
    rw [h]
    decide
  · intro n h
    have e : jwtRefreshTokenExpiry env = wrapInt64 (Hour * n) := by
      unfold jwtRefreshTokenExpiry
      rw [h]
    rw [e]
    unfold wrapInt64 Hour
    refine ⟨rfl, ?_, ?_, ?_⟩
    · intro h1 h2
      show (3600000000000 * n + 9223372036854775808) % 18446744073709551616
        - 9223372036854775808 = n * 3600000000000
      omega
    · intro h1 h2
      have e1 : (3600000000000 * n + 9223372036854775808) % 18446744073709551616
          - 9223372036854775808 = n * 3600000000000 := by omega
      show (0 : Int) < (3600000000000 * n + 9223372036854775808) % 18446744073709551616
        - 9223372036854775808
      rw [e1]
      omega
    · intro h1 h2
      have e1 : (3600000000000 * n + 9223372036854775808) % 18446744073709551616
          - 9223372036854775808 = n * 3600000000000 - 18446744073709551616 := by omega
      show (3600000000000 * n + 9223372036854775808) % 18446744073709551616
        - 9223372036854775808 < (0 : Int)
      rw [e1]
      omega

/-- Witness of `configured_lifetimes`: ten minutes and one hour. -/
theorem configured_lifetimes_witness :
    jwtAccessTokenExpiry testEnv = 10 * Minute ∧ 0 < jwtAccessTokenExpiry testEnv ∧
    jwtRefreshTokenExpiry testEnv = 1 * Hour ∧ 0 < jwtRefreshTokenExpiry testEnv :=
  ⟨((configured_lifetimes testEnv).2.1 10 (by decide)).2.1 (by decide) (by decide),
   ((configured_lifetimes testEnv).2.1 10 (by decide)).2.2.1 (by decide) (by decide),
   ((configured_lifetimes testEnv).2.2.2 1 (by decide)).2.1 (by decide) (by decide),
   ((configured_lifetimes testEnv).2.2.2 1 (by decide)).2.2.1 (by decide) (by decide)⟩

/-- C25, the claim as stated fails: the settings 153722868 and 2562048 parse
as positive decimal integers, and the durations returned are negative, not
that many minutes and hours; the access token issued under them is expired in
the second it is issued. -/
theorem configured_lifetimes_counterexample :
    Atoi overflowEnv.JWTAccessTokenExpiry = some 153722868 ∧
    jwtAccessTokenExpiry overflowEnv = -9223371993709551616 ∧
    jwtAccessTokenExpiry overflowEnv ≠ 153722868 * Minute ∧
    Atoi overflowEnv.JWTRefreshTokenExpiry = some 2562048 ∧
    jwtRefreshTokenExpiry overflowEnv = -9223371273709551616 ∧
    jwtRefreshTokenExpiry overflowEnv ≠ 2562048 * Hour ∧
    ParseToken refLib testMiddleware testNow overflowEnv
        (accessTokenOf refLib testMiddleware testClock overflowEnv aliceID false)
      = .ret ("", false, some (.ValidationError "Token is expired" ValidationErrorExpired)) := by
  refine ⟨by decide, by decide, by decide, by decide, by decide, by decide, by decide⟩

/-! ## bcrypt -/

theorem refBcrypt_DigestSize (r : Bool) : (refBcrypt r).DigestSize := by
  intro key cost salt
  simp [refBcrypt, RefBcrypt.digest]

theorem refBcrypt_RoundTrip (r : Bool) : (refBcrypt r).RoundTrip := by
  intro h hs hh hc1 hc2
  have hc : h.cost.toNat ≤ 31 := by omega
  have hcast : ((h.cost.toNat : Nat) : Int) = h.cost := Int.toNat_of_nonneg (by omega)
  constructor
  · show RefBcrypt.decode (RefBcrypt.format h) = some h
    unfold RefBcrypt.format RefBcrypt.decode
    simp only [List.cons_append, List.nil_append]
    have hcond : 48 ≤ 48 + h.cost.toNat / 10 ∧ 48 + h.cost.toNat / 10 ≤ 57 ∧
        48 ≤ 48 + h.cost.toNat % 10 ∧ 48 + h.cost.toNat % 10 ≤ 57 := by omega
    rw [if_pos hcond]
    have e1 : List.take 16 (h.salt ++ (List.replicate 6 0 ++ (h.hash ++ List.replicate 8 0)))
        = h.salt := List.take_left' hs
    have e2 : List.drop 22 (h.salt ++ (List.replicate 6 0 ++ (h.hash ++ List.replicate 8 0)))
        = h.hash ++ List.replicate 8 0 := by
      rw [← List.append_assoc]
      exact List.drop_left' (by simp [hs])
    have e3 : List.take 23 (h.hash ++ List.replicate 8 0) = h.hash := List.take_left' hh
    have e4 : (((48 + h.cost.toNat / 10 - 48) * 10 + (48 + h.cost.toNat % 10 - 48) : Nat) : Int)
        = h.cost := by
      rw [← hcast]
      congr 1
      omega
    rw [e1, e2, e3, e4]
  · show bcrypt.minHashSize ≤ (RefBcrypt.format h).length
    unfold RefBcrypt.format bcrypt.minHashSize
    simp [hs, hh]

/-- The key bytes of a password of 72 bytes or more are its first 72 bytes. -/
theorem keyBytes_of_long (p : List Nat) (h : 72 ≤ p.length) :
    bcrypt.keyBytes p = (List.range 72).map fun i => p.getD i 0 := by
  unfold bcrypt.keyBytes
  apply List.map_congr_left
  intro i hi
  have hi72 : i < 72 := List.mem_range.mp hi
  have hmod : i % (p.length + 1) = i := Nat.mod_eq_of_lt (by omega)
  rw [hmod]
  simp only [List.getD_eq_getElem?_getD]
  rw [List.getElem?_append_left (by omega)]

/-- Reading a list twice over is reading it cyclically. -/
theorem getD_append_self (l : List Nat) (j : Nat) (hj : j < 2 * l.length) :
    (l ++ l).getD j 0 = l.getD (j % l.length) 0 := by
  simp only [List.getD_eq_getElem?_getD]
  by_cases h : j < l.length
  · rw [List.getElem?_append_left h, Nat.mod_eq_of_lt h]
  · have h1 : l.length ≤ j := by omega
    rw [List.getElem?_append_right h1, Nat.mod_eq_sub_mod h1, Nat.mod_eq_of_lt (by omega)]

/-- A password followed by a zero byte and the password again has the key
bytes of the password. -/
theorem keyBytes_repeat (p : List Nat) : bcrypt.keyBytes (p ++ 0 :: p) = bcrypt.keyBytes p := by
  unfold bcrypt.keyBytes
  apply List.map_congr_left
  intro i _
  have e1 : p ++ 0 :: p ++ [0] = (p ++ [0]) ++ (p ++ [0]) := by simp
  have e2 : (p ++ 0 :: p).length + 1 = 2 * (p ++ [0]).length := by
    simp only [List.length_append, List.length_cons, List.length_nil]
    omega
  have e3 : (p ++ [0]).length = p.length + 1 := by simp
  rw [e1, e2, getD_append_self _ _ (Nat.mod_lt _ (by rw [e3]; omega)),
    Nat.mod_mod_of_dvd _ (Dvd.intro_left 2 rfl), e3]

/-- Passwords of 72 bytes or more with the same first 72 bytes have the same
key bytes. -/
theorem keyBytes_take (p q : List Nat) (hp : 72 ≤ p.length) (hq : 72 ≤ q.length)
    (h : q.take 72 = p.take 72) : bcrypt.keyBytes q = bcrypt.keyBytes p := by
  rw [keyBytes_of_long p hp, keyBytes_of_long q hq]
  apply List.map_congr_left
  intro i hi
  have hi72 : i < 72 := List.mem_range.mp hi
  simp only [List.getD_eq_getElem?_getD]
  have e1 : (q.take 72)[i]? = q[i]? := by simp [List.getElem?_take, hi72]
  have e2 : (p.take 72)[i]? = p[i]? := by simp [List.getElem?_take, hi72]
  rw [← e1, ← e2, h]

/-- What `Password.Hash` returns when `GenerateFromPassword` takes the
password. -/
theorem Hash_format (lib : BcryptLib) (salt : List Nat) (p : Password)
    (h : p.length ≤ 72 ∨ lib.rejectsLong = false) :
    Password.Hash lib (some salt) p
      = lib.format ⟨lib.digest (bcrypt.keyBytes p) 14 salt, salt, 14⟩ := by
  have hc : ¬ (lib.rejectsLong = true ∧ p.length > 72) := by
    rintro ⟨h1, h2⟩
    rcases h with h | h
    · omega
    · rw [h] at h1; cases h1
  unfold Password.Hash bcrypt.GenerateFromPassword bcrypt
  rw [if_neg hc]
  rfl

/-- What `Password.Hash` returns when `GenerateFromPassword` refuses the
password. -/
theorem Hash_long (lib : BcryptLib) (rand : Option (List Nat)) (p : Password)
    (h1 : 72 < p.length) (h2 : lib.rejectsLong = true) :
    Password.Hash lib rand p = [] := by
  unfold Password.Hash bcrypt.GenerateFromPassword
  rw [if_pos ⟨h2, h1⟩]

/-- `Password.Check` on the empty string is false. -/
theorem Check_nil (lib : BcryptLib) (q : Password) : Password.Check lib [] q = false := by
  unfold Password.Check bcrypt.CompareHashAndPassword
  rw [if_pos (by decide)]
  rfl

/-- `Password.Check` reads the password through its key bytes only. -/
theorem Check_keyBytes (lib : BcryptLib) (hash : Password) (p q : Password)
    (h : bcrypt.keyBytes q = bcrypt.keyBytes p) :
    Password.Check lib hash q = Password.Check lib hash p := by
  unfold Password.Check bcrypt.CompareHashAndPassword bcrypt
  rw [h]

/-- `Password.Check` on the text of a hash accepts a password exactly when
its digest under the salt and cost of the hash is the digest in the hash. -/
theorem Check_format (lib : BcryptLib) (hrt : lib.RoundTrip) (hds : lib.DigestSize)
    (salt d : List Nat) (hs : salt.length = 16) (hd : d.length = 23) (q : Password) :
    Password.Check lib (lib.format ⟨d, salt, 14⟩) q = true ↔
      lib.digest (bcrypt.keyBytes q) 14 salt = d := by
  have h1 := hrt ⟨d, salt, 14⟩ hs hd (by show (4 : Int) ≤ 14; decide)
    (by show (14 : Int) ≤ 31; decide)
  have h2 := hrt ⟨lib.digest (bcrypt.keyBytes q) 14 salt, salt, 14⟩ hs (hds _ _ _)
    (by show (4 : Int) ≤ 14; decide) (by show (14 : Int) ≤ 31; decide)
  unfold Password.Check bcrypt.CompareHashAndPassword bcrypt
  rw [if_neg (by omega), h1.1]
  simp only
  constructor
  · intro h
    by_cases he : lib.format ⟨d, salt, 14⟩
        = lib.format ⟨lib.digest (bcrypt.keyBytes q) 14 salt, salt, 14⟩
    · have h3 := h1.1
      rw [he, h2.1] at h3
      simp only [Option.some.injEq, Hashed.mk.injEq, and_true] at h3
      exact h3
    · rw [if_neg he] at h
      simp at h
  · intro h
    rw [h]
    simp

/-- C23 (password round trip, amended): with a salt of 16 bytes read, a
password that `GenerateFromPassword` takes (one of at most 72 bytes, the empty
one included, or any password when the package does not refuse long ones)
passes the check against its own hash, and another password passes it exactly
when its digest under the same salt and cost is the same. The check reads a
password through the 72 key bytes of the Blowfish schedule only, so every
password with the same key bytes passes as well: the password followed by a
zero byte and the password again, or, among passwords of 72 bytes or more, any
with the same first 72 bytes. -/
theorem password_round_trip (lib : BcryptLib) (hrt : lib.RoundTrip) (hds : lib.DigestSize)
    (salt : List Nat) (hs : salt.length = 16) (p : Password)
    (hp : p.length ≤ 72 ∨ lib.rejectsLong = false) :
    Password.Check lib (Password.Hash lib (some salt) p) p = true ∧
    (∀ q : Password, Password.Check lib (Password.Hash lib (some salt) p) q = true ↔
      lib.digest (bcrypt.keyBytes q) 14 salt = lib.digest (bcrypt.keyBytes p) 14 salt) ∧
    (∀ q : Password, bcrypt.keyBytes q = bcrypt.keyBytes p →
      Password.Check lib (Password.Hash lib (some salt) p) q = true) ∧
    bcrypt.keyBytes (p ++ 0 :: p) = bcrypt.keyBytes p ∧
    (∀ q : Password, 72 ≤ p.length → 72 ≤ q.length → q.take 72 = p.take 72 →
      bcrypt.keyBytes q = bcrypt.keyBytes p) := by
  have h1 : Password.Check lib (Password.Hash lib (some salt) p) p = true := by
    rw [Hash_format lib salt p hp]
    exact (Check_format lib hrt hds salt _ hs (hds _ _ _) p).2 rfl
  refine ⟨h1, ?_, ?_, keyBytes_repeat p, ?_⟩
  · intro q
    rw [Hash_format lib salt p hp]
    exact Check_format lib hrt hds salt _ hs (hds _ _ _) q
  · intro q hq
    rw [Check_keyBytes lib _ p q hq]
    exact h1
  · intro q hp1 hq h
    exact keyBytes_take p q hp1 hq h

/-- Witness of `password_round_trip`: the password `pw` of two bytes. -/
theorem password_round_trip_witness :
    Password.Check (refBcrypt true) (Password.Hash (refBcrypt true) (some testSalt) [112, 119])
      [112, 119] = true :=
  (password_round_trip (refBcrypt true) (refBcrypt_RoundTrip true) (refBcrypt_DigestSize true)
    testSalt (by decide) [112, 119] (Or.inl (by decide))).1

/-- C23, the claim as stated fails: the one-byte password `a` and the
different password `a`, zero byte, `a` have the same key bytes, and the second
passes the check against the hash of the first; the empty password and the
password of one zero byte likewise; and where passwords of more than 72 bytes
are taken, one that differs in the 73rd byte passes the check against the hash
of the other. -/
theorem password_round_trip_counterexample :
    ([97, 0, 97] : Password) ≠ [97] ∧
    bcrypt.keyBytes [97, 0, 97] = bcrypt.keyBytes [97] ∧
    Password.Check (refBcrypt true) (Password.Hash (refBcrypt true) (some testSalt) [97])
      [97, 0, 97] = true ∧
    Password.Check (refBcrypt true) (Password.Hash (refBcrypt true) (some testSalt) [])
      [0] = true ∧
    List.replicate 72 97 ++ [98] ≠ List.replicate 73 97 ∧
    Password.Check (refBcrypt false)
      (Password.Hash (refBcrypt false) (some testSalt) (List.replicate 73 97))
      (List.replicate 72 97 ++ [98]) = true := by
  refine ⟨by decide, by decide, by decide, by decide, by decide, by decide⟩

end YoutubeClone
